import Mathlib

/-!
Verification of the MetroMap.io simulation core against its specification.

The definitions below are a shallow embedding of the TypeScript sources:
pure functions become Lean functions, in-place mutation of the single
`GameState` aggregate becomes explicit state passing, JavaScript numbers
used as integers become `Int`/`Nat`, JavaScript floating-point arithmetic
on geometric quantities becomes real arithmetic, and ambient entropy
(`Math.random()`, `Date.now()`) becomes explicit oracle parameters.
-/

namespace MetroMap

/-! ## Configuration constants (src/app/game/config.ts, src/core/game/config.ts) -/

def MAP_WIDTH : Int := 48
def MAP_HEIGHT : Int := 32
def TRAIN_MAX_CAPACITY : Nat := 30
def STARTING_MONEY : ℝ := 10000
def STATION_BUILD_COST : ℝ := 500
def LINE_BUILD_COST_PER_SQUARE : ℝ := 50
def TRAIN_RUNNING_COST_PER_SQUARE : ℝ := 2
def TICKET_REVENUE : ℝ := 2
def TRAIN_DEFAULT_SPEED : ℝ := 5
def TRAIN_STOP_DURATION_SQUARES : ℝ := 2
def TRAIN_ACCEL_DECEL_DISTANCE : ℝ := 1
def MAX_TRAINS_PER_LINE : Nat := 5

/-! ## Map data model (src/core/game/models/MapGrid.ts) -/

inductive TileType where
  | LAND
  | WATER
deriving DecidableEq, Repr

inductive MapType where
  | RIVER
  | ARCHIPELAGO
deriving DecidableEq, Repr

structure GridSquare where
  x : Int
  y : Int
  type : TileType
  homeDensity : Int
  officeDensity : Int
deriving DecidableEq, Repr

structure MapGrid where
  width : Int
  height : Int
  seed : Int
  mapType : MapType
  squares : List (List GridSquare)
deriving Repr

/-- `map.squares[y][x]` with JavaScript array-indexing made explicit:
out-of-range access yields `none`. -/
def MapGrid.square? (m : MapGrid) (x y : Int) : Option GridSquare :=
  match m.squares.get? y.toNat with
  | none => none
  | some row => if y < 0 then none else
      match row.get? x.toNat with
      | none => none
      | some sq => if x < 0 then none else some sq

/-! ## Passenger data model (src/core/game/models/Passenger.ts) -/

structure Passenger where
  id : String
  sourceStationId : String
  destinationStationId : String
  spawnTime : ℝ
  path : List String
  nextWaypointIndex : Nat
  currentStationId : Option String
  currentTrainId : Option String

/-- `createPassenger` (src/core/game/models/Passenger.ts); the generated id
(`Date.now()` plus `Math.random()`) is an explicit parameter. -/
def createPassenger (freshId sourceId destinationId : String) (spawnTime : ℝ) : Passenger :=
  { id := freshId
    sourceStationId := sourceId
    destinationStationId := destinationId
    spawnTime := spawnTime
    path := []
    nextWaypointIndex := 0
    currentStationId := some sourceId
    currentTrainId := none }

/-! ## Station data model (src/core/game/models/Station.ts)

Station queues hold references to passenger objects that also live in the
flat roster `GameState.passengers`; the embedding keeps the roster as the
owner of the records and stores passenger ids in the queues. -/

structure Station where
  id : String
  vertexX : Int
  vertexY : Int
  passengers : List String
  label : String
deriving DecidableEq, Repr

/-- `generateStationLabel` (src/core/game/models/Station.ts): A, B, …, Z, AA, AB, … -/
def generateStationLabel (index : Nat) : String :=
  let rec go (num : Nat) (fuel : Nat) : String :=
    match fuel with
    | 0 => ""
    | fuel + 1 =>
      let c := String.singleton (Char.ofNat (65 + num % 26))
      if num < 26 then c
      else go (num / 26 - 1) fuel ++ c
  go index (index + 1)

/-- `padStart(2, "0")` applied to the decimal rendering of a coordinate. -/
def padTwo (s : String) : String :=
  if s.length ≥ 2 then s else String.mk (List.replicate (2 - s.length) '0') ++ s

/-- `generateStationId` (src/core/game/models/Station.ts): the station id is
the concatenation of the two zero-padded vertex coordinates. -/
def generateStationId (vertexX vertexY : Int) : String :=
  padTwo (toString vertexX) ++ padTwo (toString vertexY)

/-- `createStation` (src/core/game/models/Station.ts). -/
def createStation (vertexX vertexY : Int) (label : String) : Station :=
  { id := generateStationId vertexX vertexY
    vertexX := vertexX
    vertexY := vertexY
    passengers := []
    label := label }

/-! ## Train and line data model (src/core/game/models/Train.ts, MetroLine.ts) -/

inductive TrainState where
  | MOVING
  | STOPPED
deriving DecidableEq, Repr

/-- Octilinear compass direction (src/app/game/pathfinding/LinePath.ts),
encoded as the angle in degrees exactly as in the source enum. -/
abbrev Direction := Int

def Direction.EAST : Direction := (0 : Int)
def Direction.SOUTHEAST : Direction := (45 : Int)
def Direction.SOUTH : Direction := (90 : Int)
def Direction.SOUTHWEST : Direction := (135 : Int)
def Direction.WEST : Direction := (180 : Int)
def Direction.NORTHWEST : Direction := (225 : Int)
def Direction.NORTH : Direction := (270 : Int)
def Direction.NORTHEAST : Direction := (315 : Int)

inductive WaypointType where
  | STATION
  | BEND
deriving DecidableEq, Repr

structure Waypoint where
  x : Int
  y : Int
  type : WaypointType
  incomingAngle : Option Direction
  outgoingAngle : Option Direction

structure LineSegment where
  fromStation : Station
  toStation : Station
  entryAngle : Direction
  exitAngle : Direction
  waypoints : List Waypoint

structure Train where
  id : String
  lineId : String
  state : TrainState
  dwellRemaining : ℝ
  currentStationIdx : Int
  targetStationIdx : Int
  progress : ℝ
  direction : Int
  currentSegment : Option LineSegment
  totalLength : ℝ
  passengers : List String
  capacity : Nat

structure MetroLine where
  id : String
  color : String
  stationIds : List String
  isLoop : Bool
  trains : List Train

/-- `isLineLoop` (src/core/game/models/MetroLine.ts). -/
def isLineLoop (stationIds : List String) : Bool :=
  decide (stationIds.length > 2) &&
    decide (stationIds.head? = stationIds.get? (stationIds.length - 1))

/-- `canAddStationToLine` (src/core/game/models/MetroLine.ts). -/
def canAddStationToLine (stationIds : List String) (newStationId : String) : Bool :=
  if stationIds.length = 0 then true
  else if stationIds.head? = some newStationId ∧ stationIds.length ≥ 2 then true
  else !(stationIds.contains newStationId)

/-- `createLine` (src/core/game/models/MetroLine.ts); `generateLineId` draws
from `Date.now()` and `Math.random()`, so the fresh id is a parameter. -/
def createLine (freshId color : String) (stationIds : List String) (isLoop : Bool) : MetroLine :=
  { id := freshId
    color := color
    stationIds := stationIds
    isLoop := isLoop
    trains := [] }

/-! ## Game state (src/core/game/models/GameState.ts) -/

structure GameState where
  seed : Int
  map : MapGrid
  stations : List Station
  lines : List MetroLine
  passengers : List Passenger
  simulationTime : ℝ
  money : ℝ
  isPaused : Bool
  speed : ℝ

/-- `hasLineWithColor` (src/core/game/models/GameState.ts). -/
def hasLineWithColor (state : GameState) (color : String) : Bool :=
  state.lines.any (fun line => line.color = color)

/-! ## Train arrival rule (src/app/game/simulation/TrainMovement.ts, updateTrains)

When a train reaches `progress ≥ 1` the code snaps it to the target station
and determines the next target index and direction; this is the block
guarded by `if (line.isLoop)` in `updateTrains`.  JavaScript `%` is
truncated remainder, i.e. `Int.tmod`. -/

def determineNextTarget (isLoop : Bool) (stationCount : Int)
    (currentStationIdx direction : Int) : Int × Int :=
  if isLoop then
    if direction = 1 then
      (direction, (currentStationIdx + 1).tmod stationCount)
    else
      (direction, (currentStationIdx - 1 + stationCount).tmod stationCount)
  else
    if direction = 1 then
      if currentStationIdx ≥ stationCount - 1 then
        (-1, currentStationIdx - 1)
      else
        (1, currentStationIdx + 1)
    else
      if currentStationIdx ≤ 0 then
        (1, currentStationIdx + 1)
      else
        (-1, currentStationIdx - 1)

/-- C4: for a train on a non-loop line with `n ≥ 2` stations, arriving at
index `n − 1` while moving in direction `+1` flips the direction to `−1`
and targets `n − 2`; symmetrically, arriving at index `0` with direction
`−1` flips to `+1` and targets `1`; for every in-range arrival index the
new target is `current + newDirection` and stays inside `[0, n−1]`, so the
index never wraps modulo `n`.  On a loop line the direction is kept and
the target is `(current ± 1) mod n` in the current direction. -/
theorem claim_C4_arrival_rule (n cur d : Int) (hn : 2 ≤ n) (hcur0 : 0 ≤ cur)
    (hcurn : cur ≤ n - 1) (hd : d = 1 ∨ d = -1) :
    (determineNextTarget false n (n - 1) 1 = (-1, n - 2)) ∧
    (determineNextTarget false n 0 (-1) = (1, 1)) ∧
    ((determineNextTarget false n cur d).2 = cur + (determineNextTarget false n cur d).1 ∧
      0 ≤ (determineNextTarget false n cur d).2 ∧
      (determineNextTarget false n cur d).2 ≤ n - 1) ∧
    (determineNextTarget true n cur d =
      (d, if d = 1 then (cur + 1).tmod n else (cur - 1 + n).tmod n)) := by
  rcases hd with rfl | rfl <;>
    simp only [determineNextTarget, if_true, if_false, reduceIte] <;>
    split_ifs <;>
    simp_all <;>
    omega

/-- Witness for C4 at a four-station line, arriving at the last index. -/
theorem claim_C4_arrival_rule_witness :
    2 ≤ (4 : Int) ∧ determineNextTarget false 4 (4 - 1) 1 = (-1, 4 - 2) :=
  ⟨by decide,
    (claim_C4_arrival_rule 4 3 1 (by decide) (by decide) (by decide) (Or.inl rfl)).1⟩

/-! ## Route Geometry (src/app/game/pathfinding/LinePath.ts) -/

inductive Alignment where
  | HORIZONTAL
  | VERTICAL
  | DIAGONAL
  | MISALIGNED
deriving DecidableEq

/-- `getDirection` (LinePath.ts): direction of a sign pair, `EAST` fallback. -/
def getDirection (dx dy : Int) : Direction :=
  if dx > 0 ∧ dy = 0 then Direction.EAST
  else if dx > 0 ∧ dy > 0 then Direction.SOUTHEAST
  else if dx = 0 ∧ dy > 0 then Direction.SOUTH
  else if dx < 0 ∧ dy > 0 then Direction.SOUTHWEST
  else if dx < 0 ∧ dy = 0 then Direction.WEST
  else if dx < 0 ∧ dy < 0 then Direction.NORTHWEST
  else if dx = 0 ∧ dy < 0 then Direction.NORTH
  else if dx > 0 ∧ dy < 0 then Direction.NORTHEAST
  else Direction.EAST

/-- `getAlignmentType` (LinePath.ts). -/
def getAlignmentType (dx dy : Int) : Alignment :=
  if dy.natAbs = 0 then Alignment.HORIZONTAL
  else if dx.natAbs = 0 then Alignment.VERTICAL
  else if dx.natAbs = dy.natAbs then Alignment.DIAGONAL
  else Alignment.MISALIGNED

/-- `calculateKneePoint` (LinePath.ts): greedy diagonal knee; the source
fixes `diagonalFirst = true` (the straight-first branch is dead code). -/
def calculateKneePoint (f t : Station) : Int × Int × Bool :=
  let dx := t.vertexX - f.vertexX
  let dy := t.vertexY - f.vertexY
  let signX : Int := if dx > 0 then 1 else -1
  let signY : Int := if dy > 0 then 1 else -1
  let diagonalDistance : Int := min dx.natAbs dy.natAbs
  let diagonalFirst := true
  if diagonalFirst then
    (f.vertexX + signX * diagonalDistance, f.vertexY + signY * diagonalDistance, diagonalFirst)
  else if dx.natAbs > dy.natAbs then
    (f.vertexX + signX * ((dx.natAbs : Int) - dy.natAbs), f.vertexY, diagonalFirst)
  else
    (f.vertexX, f.vertexY + signY * ((dy.natAbs : Int) - dx.natAbs), diagonalFirst)

/-- `calculateSegmentPath` (LinePath.ts).  The `_previousAngle` hint
parameter is unused in the source. -/
def calculateSegmentPath (f t : Station) (_previousAngle : Option Direction) : LineSegment :=
  let dx := t.vertexX - f.vertexX
  let dy := t.vertexY - f.vertexY
  let alignment := getAlignmentType dx dy
  if alignment ≠ Alignment.MISALIGNED then
    let direction := getDirection (if dx = 0 then 0 else if dx > 0 then 1 else -1)
      (if dy = 0 then 0 else if dy > 0 then 1 else -1)
    { fromStation := f
      toStation := t
      entryAngle := direction
      exitAngle := direction
      waypoints :=
        [{ x := f.vertexX, y := f.vertexY, type := WaypointType.STATION,
           incomingAngle := none, outgoingAngle := some direction },
         { x := t.vertexX, y := t.vertexY, type := WaypointType.STATION,
           incomingAngle := some direction, outgoingAngle := none }] }
  else
    let knee := calculateKneePoint f t
    let signX : Int := if dx > 0 then 1 else -1
    let signY : Int := if dy > 0 then 1 else -1
    let firstDirection :=
      if knee.2.2 then getDirection signX signY
      else if dx.natAbs > dy.natAbs then
        (if signX > 0 then Direction.EAST else Direction.WEST)
      else
        (if signY > 0 then Direction.SOUTH else Direction.NORTH)
    let secondDirection :=
      if knee.2.2 then
        (if dx.natAbs > dy.natAbs then
          (if signX > 0 then Direction.EAST else Direction.WEST)
        else
          (if signY > 0 then Direction.SOUTH else Direction.NORTH))
      else getDirection signX signY
    { fromStation := f
      toStation := t
      entryAngle := firstDirection
      exitAngle := secondDirection
      waypoints :=
        [{ x := f.vertexX, y := f.vertexY, type := WaypointType.STATION,
           incomingAngle := none, outgoingAngle := some firstDirection },
         { x := knee.1, y := knee.2.1, type := WaypointType.BEND,
           incomingAngle := some firstDirection, outgoingAngle := some secondDirection },
         { x := t.vertexX, y := t.vertexY, type := WaypointType.STATION,
           incomingAngle := some secondDirection, outgoingAngle := none }] }

/-- Euclidean length of a consecutive waypoint pair list. -/
noncomputable def waypointsLength : List Waypoint → ℝ
  | p1 :: p2 :: rest =>
      Real.sqrt ((((p2.x - p1.x : Int) : ℝ) ^ 2 + ((p2.y - p1.y : Int) : ℝ) ^ 2)) +
        waypointsLength (p2 :: rest)
  | _ => 0

/-- `calculateSegmentLength` (src/app/game/simulation/TrainMovement.ts):
sum of the Euclidean waypoint-to-waypoint distances of a segment. -/
noncomputable def calculateSegmentLength (segment : LineSegment) : ℝ :=
  waypointsLength segment.waypoints

/-! ## Economics (src/app/game/simulation/Economics.ts) -/

/-- Chord length sum of `calculateLineLength`: straight-line Euclidean
distance between the vertices of each consecutive station pair. -/
noncomputable def chordLengths (gameState : GameState) : List String → ℝ
  | a :: b :: rest =>
      (match gameState.stations.find? (fun s => s.id = a),
             gameState.stations.find? (fun s => s.id = b) with
       | some fs, some ts =>
           Real.sqrt (((ts.vertexX - fs.vertexX : Int) : ℝ) ^ 2 +
             ((ts.vertexY - fs.vertexY : Int) : ℝ) ^ 2)
       | _, _ => 0) + chordLengths gameState (b :: rest)
  | _ => 0

/-- `calculateLineLength` (Economics.ts): total line length used for the
build cost, computed from straight station-to-station distances. -/
noncomputable def calculateLineLength (line : MetroLine) (gameState : GameState) : ℝ :=
  if line.stationIds.length < 2 then 0
  else chordLengths gameState line.stationIds

/-- `deductStationCost` (Economics.ts). -/
def deductStationCost (gameState : GameState) : GameState :=
  { gameState with money := gameState.money - STATION_BUILD_COST }

/-- `deductLineCost` (Economics.ts). -/
noncomputable def deductLineCost (gameState : GameState) (line : MetroLine) : GameState :=
  { gameState with
      money := gameState.money - calculateLineLength line gameState * LINE_BUILD_COST_PER_SQUARE }

/-- `deductTrainRunningCost` (Economics.ts). -/
def deductTrainRunningCost (gameState : GameState) (distanceTraveled : ℝ) : GameState :=
  { gameState with
      money := gameState.money - distanceTraveled * TRAIN_RUNNING_COST_PER_SQUARE }

/-- `addTicketRevenue` (Economics.ts). -/
def addTicketRevenue (gameState : GameState) : GameState :=
  { gameState with money := gameState.money + TICKET_REVENUE }

/-! ## Station manager (src/core/game/managers/StationManager.ts) -/

structure ActionResult where
  success : Bool
  error : Option String

/-- `StationManager.hasStationAt`. -/
def hasStationAt (state : GameState) (vertexX vertexY : Int) : Bool :=
  state.stations.any (fun s => s.id = generateStationId vertexX vertexY)

/-- `StationManager.hasAdjacentStation`: any of the four 4-connected
neighbour vertices already carries a station. -/
def hasAdjacentStation (state : GameState) (vertexX vertexY : Int) : Bool :=
  [(vertexX - 1, vertexY), (vertexX + 1, vertexY),
   (vertexX, vertexY - 1), (vertexX, vertexY + 1)].any
    (fun v => hasStationAt state v.1 v.2)

/-- One step of `StationManager.isWater`: the tile is out of bounds or land
(the early-`false` condition of the loop).  An in-bounds index missing from
a ragged squares array is treated as land. -/
def tileOutOrLand (m : MapGrid) (x y : Int) : Bool :=
  decide (x < 0) || decide (x ≥ m.width) || decide (y < 0) || decide (y ≥ m.height) ||
    (match m.square? x y with
     | some sq => decide (sq.type = TileType.LAND)
     | none => true)

/-- `StationManager.isWater`: all four tiles around the vertex are water. -/
def isWater (state : GameState) (vertexX vertexY : Int) : Bool :=
  [(vertexX - 1, vertexY - 1), (vertexX, vertexY - 1),
   (vertexX - 1, vertexY), (vertexX, vertexY)].all
    (fun t => !tileOutOrLand state.map t.1 t.2)

/-- `StationManager.canPlaceStation`: `none` means valid, `some reason`
is the structured rejection. -/
def canPlaceStation (state : GameState) (vertexX vertexY : Int) : Option String :=
  if vertexX < 0 ∨ vertexX > state.map.width then some "X coordinate out of bounds"
  else if vertexY < 0 ∨ vertexY > state.map.height then some "Y coordinate out of bounds"
  else if isWater state vertexX vertexY then some "Cannot place station on water"
  else if hasStationAt state vertexX vertexY then
    some "Station already exists at this location"
  else if hasAdjacentStation state vertexX vertexY then
    some "Cannot place station adjacent to another station"
  else none

/-- `StationManager.placeStation`. -/
def placeStation (state : GameState) (vertexX vertexY : Int) : GameState × ActionResult :=
  match canPlaceStation state vertexX vertexY with
  | some reason => (state, { success := false, error := some reason })
  | none =>
      let label := generateStationLabel state.stations.length
      let station := createStation vertexX vertexY label
      let state := deductStationCost state
      ({ state with stations := state.stations ++ [station] },
       { success := true, error := none })

/-- `StationManager.removeStation`. -/
def removeStation (state : GameState) (stationId : String) : GameState × ActionResult :=
  match state.stations.findIdx? (fun s => s.id = stationId) with
  | none => (state, { success := false, error := some "Station not found" })
  | some index =>
      if state.lines.any (fun line => line.stationIds.contains stationId) then
        (state,
         { success := false, error := some "Cannot remove station that is part of a line" })
      else
        ({ state with stations := state.stations.eraseIdx index },
         { success := true, error := none })

/-! ## Line manager (src/core/game/managers/LineManager.ts)

The manager keeps the line under construction outside of `GameState`;
the controller-level state pairs the two. -/

structure BuildingLine where
  color : Option String
  stationIds : List String

structure ControllerState where
  gs : GameState
  currentLine : Option BuildingLine

/-- `LineManager.startLine`. -/
def startLine (c : ControllerState) (color : String) : ControllerState × ActionResult :=
  if hasLineWithColor c.gs color then
    (c, { success := false,
          error := some ("Line with color " ++ color ++ " already exists") })
  else
    ({ c with currentLine := some { color := some color, stationIds := [] } },
     { success := true, error := none })

/-- `LineManager.addStationToLine`. -/
def addStationToLine (c : ControllerState) (stationId : String) :
    ControllerState × ActionResult :=
  match c.currentLine with
  | none => (c, { success := false, error := some "No line is being built" })
  | some current =>
      match current.color with
      | none => (c, { success := false, error := some "Line color not selected" })
      | some _ =>
          if c.gs.stations.find? (fun s => s.id = stationId) = none then
            (c, { success := false, error := some "Station not found" })
          else if !canAddStationToLine current.stationIds stationId then
            (c, { success := false, error := some "Cannot add this station to the line" })
          else
            let extended : BuildingLine :=
              { current with stationIds := current.stationIds ++ [stationId] }
            ({ c with currentLine := some extended },
             { success := true, error := none })

/-- `LineManager.cancelLine`. -/
def cancelLine (c : ControllerState) : ControllerState :=
  { c with currentLine := none }

/-- `LineManager.completeLine`; on success the new line (with the supplied
fresh id) is appended to the state and returned as result data.  The
source comment notes that cost deduction "will be handled separately";
no money is touched here. -/
def completeLine (c : ControllerState) (freshLineId : String) :
    ControllerState × ActionResult × Option MetroLine :=
  match c.currentLine with
  | none => (c, { success := false, error := some "No line is being built" }, none)
  | some current =>
      match current.color with
      | none => (c, { success := false, error := some "No line is being built" }, none)
      | some color =>
          if current.stationIds.length < 2 then
            (c, { success := false, error := some "Line must have at least 2 stations" },
             none)
          else
            let isLoop := isLineLoop current.stationIds
            let line := createLine freshLineId color current.stationIds isLoop
            ({ gs := { c.gs with lines := c.gs.lines ++ [line] }, currentLine := none },
             { success := true, error := none }, some line)

/-! ## Train manager (src/core/game/managers/TrainManager.ts) -/

/-- `TrainManager.calculateStartStationIdx`. -/
def calculateStartStationIdx (trainNumber : Nat) (direction : Int)
    (stationCount : Nat) : Int :=
  if trainNumber ≤ 2 then
    if direction = 1 then 0 else (stationCount - 1 : Nat)
  else if direction = 1 then (stationCount / 2 : Nat)
  else (stationCount - 1 - stationCount / 2 : Nat)

/-- `TrainManager.createTrainForLine`; the generated train id is the
explicit `freshTrainId` parameter. -/
def createTrainForLine (freshTrainId : String) (line : MetroLine) (direction : Int)
    (startStationIdx : Int) : Train :=
  let targetStationIdx : Int :=
    if direction = 1 then min (startStationIdx + 1) ((line.stationIds.length : Int) - 1)
    else max (startStationIdx - 1) 0
  { id := freshTrainId
    lineId := line.id
    state := TrainState.MOVING
    dwellRemaining := 0
    currentStationIdx := startStationIdx
    targetStationIdx := targetStationIdx
    progress := 0
    direction := direction
    currentSegment := none
    totalLength := 0
    passengers := []
    capacity := TRAIN_MAX_CAPACITY }

/-- `TrainManager.addTrainToLine`. -/
def addTrainToLine (state : GameState) (lineId freshTrainId : String) :
    GameState × ActionResult :=
  match state.lines.findIdx? (fun l => l.id = lineId) with
  | none => (state, { success := false, error := some "Line not found" })
  | some index =>
      match state.lines.get? index with
      | none => (state, { success := false, error := some "Line not found" })
      | some line =>
          if line.trains.length ≥ MAX_TRAINS_PER_LINE then
            (state,
             { success := false, error := some "Maximum trains reached for this line" })
          else if line.stationIds.length < 2 then
            (state, { success := false, error := some "Line needs at least 2 stations" })
          else
            let trainNumber := line.trains.length + 1
            let direction : Int := if trainNumber % 2 = 1 then 1 else -1
            let startStationIdx :=
              calculateStartStationIdx trainNumber direction line.stationIds.length
            let train := createTrainForLine freshTrainId line direction startStationIdx
            ({ state with
                lines := state.lines.set index { line with trains := line.trains ++ [train] } },
             { success := true, error := none })

/-- `TrainManager.removeTrainFromLine`. -/
def removeTrainFromLine (state : GameState) (lineId : String) (trainId : Option String) :
    GameState × ActionResult :=
  match state.lines.findIdx? (fun l => l.id = lineId) with
  | none => (state, { success := false, error := some "Line not found" })
  | some index =>
      match state.lines.get? index with
      | none => (state, { success := false, error := some "Line not found" })
      | some line =>
          if line.trains.length ≤ 1 then
            (state,
             { success := false, error := some "Must have at least one train per line" })
          else
            match trainId with
            | none =>
                ({ state with
                    lines := state.lines.set index { line with trains := line.trains.dropLast } },
                 { success := true, error := none })
            | some tid =>
                match line.trains.findIdx? (fun t => t.id = tid) with
                | none => (state, { success := false, error := some "Train not found" })
                | some tIdx =>
                    ({ state with
                        lines := state.lines.set index
                          { line with trains := line.trains.eraseIdx tIdx } },
                     { success := true, error := none })

/-! ## Controller action dispatch (src/core/game/GameController.ts)

Fresh line/train ids (drawn from `Date.now()` and `Math.random()` in the
source) are carried by the action value. -/

inductive GameAction where
  | PLACE_STATION (vertexX vertexY : Int)
  | REMOVE_STATION (stationId : String)
  | START_LINE (color : String)
  | ADD_STATION_TO_LINE (stationId : String)
  | COMPLETE_LINE (freshLineId freshTrainId : String)
  | CANCEL_LINE
  | ADD_TRAIN (lineId freshTrainId : String)
  | REMOVE_TRAIN (lineId : String) (trainId : Option String)
  | PAUSE
  | RESUME
  | SET_SPEED (speed : ℝ)

/-- `GameController.dispatchCompleteLine`: complete the pending line and,
on success, add the initial train to it. -/
def dispatchCompleteLine (c : ControllerState) (freshLineId freshTrainId : String) :
    ControllerState × ActionResult :=
  match completeLine c freshLineId with
  | (c1, result, lineData) =>
      if result.success then
        match lineData with
        | some line =>
            let (gs2, _) := addTrainToLine c1.gs line.id freshTrainId
            ({ c1 with gs := gs2 }, result)
        | none => (c1, result)
      else (c1, result)

open Classical in
/-- `GameController.dispatch`. -/
noncomputable def dispatch (c : ControllerState) (action : GameAction) :
    ControllerState × ActionResult :=
  match action with
  | GameAction.PLACE_STATION x y =>
      let (gs, r) := placeStation c.gs x y
      ({ c with gs := gs }, r)
  | GameAction.REMOVE_STATION sid =>
      let (gs, r) := removeStation c.gs sid
      ({ c with gs := gs }, r)
  | GameAction.START_LINE color => startLine c color
  | GameAction.ADD_STATION_TO_LINE sid => addStationToLine c sid
  | GameAction.COMPLETE_LINE freshLineId freshTrainId =>
      dispatchCompleteLine c freshLineId freshTrainId
  | GameAction.CANCEL_LINE => (cancelLine c, { success := true, error := none })
  | GameAction.ADD_TRAIN lineId freshTrainId =>
      let (gs, r) := addTrainToLine c.gs lineId freshTrainId
      ({ c with gs := gs }, r)
  | GameAction.REMOVE_TRAIN lineId trainId =>
      let (gs, r) := removeTrainFromLine c.gs lineId trainId
      ({ c with gs := gs }, r)
  | GameAction.PAUSE =>
      ({ c with gs := { c.gs with isPaused := true } }, { success := true, error := none })
  | GameAction.RESUME =>
      ({ c with gs := { c.gs with isPaused := false } }, { success := true, error := none })
  | GameAction.SET_SPEED speed =>
      if speed ≠ 1 ∧ speed ≠ 2 ∧ speed ≠ 4 then
        (c, { success := false, error := some "Invalid speed value" })
      else
        ({ c with gs := { c.gs with speed := speed } }, { success := true, error := none })

/-- `new Date(GAME_START_TIME_ISO).getTime()` evaluated on a UTC host. -/
def GAME_START_TIME_MS : ℝ := 1735718400000

/-- `createGameState` (src/core/game/models/GameState.ts). -/
def createGameState (seed : Int) (map : MapGrid) : GameState :=
  { seed := seed
    map := map
    stations := []
    lines := []
    passengers := []
    simulationTime := GAME_START_TIME_MS
    money := STARTING_MONEY
    isPaused := false
    speed := 1 }

/-- A freshly constructed controller (`GameController.createNew`). -/
def freshController (seed : Int) (map : MapGrid) : ControllerState :=
  { gs := createGameState seed map, currentLine := none }

/-- States reachable from a fresh game by dispatching actions. -/
inductive Reachable : ControllerState → Prop where
  | init (seed : Int) (map : MapGrid) : Reachable (freshController seed map)
  | step (c : ControllerState) (a : GameAction) :
      Reachable c → Reachable (dispatch c a).1

/-! ## C3: the station spacing invariant -/

/-- Auxiliary invariant: every station id is derived from its vertex, and
all station vertices are pairwise at Manhattan distance at least 2. -/
def StationInv (stations : List Station) : Prop :=
  (∀ st ∈ stations, st.id = generateStationId st.vertexX st.vertexY) ∧
    stations.Pairwise (fun a b =>
      2 ≤ (a.vertexX - b.vertexX).natAbs + (a.vertexY - b.vertexY).natAbs)

theorem canPlaceStation_eq_none {s : GameState} {x y : Int}
    (h : canPlaceStation s x y = none) :
    hasStationAt s x y = false ∧ hasAdjacentStation s x y = false := by
  unfold canPlaceStation at h
  split_ifs at h <;> simp_all

theorem hasStationAt_of_mem {s : GameState} {st : Station}
    (hmem : st ∈ s.stations) (hid : st.id = generateStationId st.vertexX st.vertexY) :
    hasStationAt s st.vertexX st.vertexY = true := by
  simp only [hasStationAt, List.any_eq_true, decide_eq_true_eq]
  exact ⟨st, hmem, hid⟩

theorem no_nearby_of_canPlace {s : GameState} {x y : Int}
    (hids : ∀ st ∈ s.stations, st.id = generateStationId st.vertexX st.vertexY)
    (h : canPlaceStation s x y = none) :
    ∀ st ∈ s.stations, 2 ≤ (st.vertexX - x).natAbs + (st.vertexY - y).natAbs := by
  obtain ⟨hno, hadj⟩ := canPlaceStation_eq_none h
  intro st hst
  by_contra hlt
  push_neg at hlt
  have hid := hids st hst
  have hcases : (st.vertexX = x ∧ st.vertexY = y) ∨
      (st.vertexX = x - 1 ∧ st.vertexY = y) ∨ (st.vertexX = x + 1 ∧ st.vertexY = y) ∨
      (st.vertexX = x ∧ st.vertexY = y - 1) ∨ (st.vertexX = x ∧ st.vertexY = y + 1) := by
    omega
  have hat : ∀ u v : Int, st.vertexX = u → st.vertexY = v → hasStationAt s u v = true := by
    intro u v hu hv
    have := hasStationAt_of_mem hst hid
    rwa [hu, hv] at this
  have hlist : hasAdjacentStation s x y =
      (hasStationAt s (x - 1) y || hasStationAt s (x + 1) y ||
        hasStationAt s x (y - 1) || hasStationAt s x (y + 1)) := by
    simp [hasAdjacentStation, Bool.or_assoc]
  rcases hcases with ⟨hu, hv⟩ | ⟨hu, hv⟩ | ⟨hu, hv⟩ | ⟨hu, hv⟩ | ⟨hu, hv⟩
  · rw [hat x y hu hv] at hno
    exact Bool.true_eq_false.mp hno
  all_goals {
    have hone := hat _ _ hu hv
    rw [hlist, hone] at hadj
    simp at hadj }

theorem stationInv_placeStation {s : GameState} (x y : Int)
    (h : StationInv s.stations) : StationInv (placeStation s x y).1.stations := by
  obtain ⟨hids, hpair⟩ := h
  unfold placeStation
  cases hc : canPlaceStation s x y with
  | some reason => exact ⟨hids, hpair⟩
  | none =>
      have hnear := no_nearby_of_canPlace hids hc
      constructor
      · intro st hst
        simp only [deductStationCost, List.mem_append, List.mem_singleton] at hst
        rcases hst with hst | rfl
        · exact hids st hst
        · rfl
      · simp only [deductStationCost]
        rw [List.pairwise_append]
        refine ⟨hpair, List.pairwise_singleton _ _, ?_⟩
        intro a ha b hb
        simp only [List.mem_singleton] at hb
        subst hb
        simpa [createStation] using hnear a ha

theorem stationInv_removeStation {s : GameState} (sid : String)
    (h : StationInv s.stations) : StationInv (removeStation s sid).1.stations := by
  obtain ⟨hids, hpair⟩ := h
  unfold removeStation
  cases hidx : s.stations.findIdx? (fun st => st.id = sid) with
  | none => exact ⟨hids, hpair⟩
  | some index =>
      by_cases hused : (s.lines.any fun line => line.stationIds.contains sid) = true
      · simp only [hused, if_true]
        exact ⟨hids, hpair⟩
      · simp only [Bool.not_eq_true] at hused
        simp only [hused, Bool.false_eq_true, if_false]
        refine ⟨?_, hpair.sublist (s.stations.eraseIdx_sublist index)⟩
        intro st hst
        exact hids st (List.Sublist.mem hst (s.stations.eraseIdx_sublist index))

theorem stations_addTrainToLine (s : GameState) (lineId freshTrainId : String) :
    (addTrainToLine s lineId freshTrainId).1.stations = s.stations := by
  unfold addTrainToLine
  split
  · rfl
  · split
    · rfl
    · split_ifs <;> rfl

theorem stations_dispatchCompleteLine (c : ControllerState) (lid tid : String) :
    (dispatchCompleteLine c lid tid).1.gs.stations = c.gs.stations := by
  cases hc : c.currentLine with
  | none => simp [dispatchCompleteLine, completeLine, hc]
  | some current =>
      cases hcol : current.color with
      | none => simp [dispatchCompleteLine, completeLine, hc, hcol]
      | some color =>
          by_cases hlen : current.stationIds.length < 2
          · simp [dispatchCompleteLine, completeLine, hc, hcol, hlen]
          · simp [dispatchCompleteLine, completeLine, hc, hcol, hlen,
              stations_addTrainToLine]

theorem gs_startLine (c : ControllerState) (color : String) :
    (startLine c color).1.gs = c.gs := by
  unfold startLine
  split_ifs <;> rfl

theorem gs_addStationToLine (c : ControllerState) (sid : String) :
    (addStationToLine c sid).1.gs = c.gs := by
  cases hc : c.currentLine with
  | none => simp [addStationToLine, hc]
  | some current =>
      cases hcol : current.color with
      | none => simp [addStationToLine, hc, hcol]
      | some color =>
          by_cases hfind : c.gs.stations.find? (fun s => s.id = sid) = none
          · simp [addStationToLine, hc, hcol, hfind]
          · by_cases hcan : canAddStationToLine current.stationIds sid
            · simp [addStationToLine, hc, hcol, hfind, hcan]
            · simp [addStationToLine, hc, hcol, hfind, hcan]

theorem stations_removeTrainFromLine (s : GameState) (lid : String) (tid : Option String) :
    (removeTrainFromLine s lid tid).1.stations = s.stations := by
  unfold removeTrainFromLine
  split
  · rfl
  · split
    · rfl
    · split_ifs
      · rfl
      · split
        · rfl
        · split
          · rfl
          · rfl

theorem stationInv_dispatch (c : ControllerState) (a : GameAction)
    (h : StationInv c.gs.stations) : StationInv (dispatch c a).1.gs.stations := by
  cases a with
  | PLACE_STATION x y =>
      simp only [dispatch]
      exact stationInv_placeStation x y h
  | REMOVE_STATION sid =>
      simp only [dispatch]
      exact stationInv_removeStation sid h
  | START_LINE color =>
      simp only [dispatch]
      rw [gs_startLine]
      exact h
  | ADD_STATION_TO_LINE sid =>
      simp only [dispatch]
      rw [gs_addStationToLine]
      exact h
  | COMPLETE_LINE lid tid =>
      simp only [dispatch]
      rw [stations_dispatchCompleteLine]
      exact h
  | CANCEL_LINE => exact h
  | ADD_TRAIN lid tid =>
      simp only [dispatch]
      rw [stations_addTrainToLine]
      exact h
  | REMOVE_TRAIN lid tid =>
      simp only [dispatch]
      rw [stations_removeTrainFromLine]
      exact h
  | PAUSE => exact h
  | RESUME => exact h
  | SET_SPEED v =>
      simp only [dispatch]
      split_ifs <;> exact h

theorem stationInv_reachable {c : ControllerState} (h : Reachable c) :
    StationInv c.gs.stations := by
  induction h with
  | init seed map => exact ⟨by simp [freshController, createGameState], by
      simp [freshController, createGameState]⟩
  | step c a _ ih => exact stationInv_dispatch c a ih

/-- C3: in every state reachable by dispatching actions from a fresh game,
station ids are derived deterministically from the vertex coordinates, all
pairs of distinct stations differ in vertex and are at Manhattan distance
at least 2 (so never 4-adjacent), and any placement within Manhattan
distance 1 of an existing station is rejected by the station manager. -/
theorem claim_C3_station_spacing (c : ControllerState) (h : Reachable c) :
    (∀ st ∈ c.gs.stations, st.id = generateStationId st.vertexX st.vertexY) ∧
    c.gs.stations.Pairwise (fun a b =>
      ¬(a.vertexX = b.vertexX ∧ a.vertexY = b.vertexY) ∧
      2 ≤ (a.vertexX - b.vertexX).natAbs + (a.vertexY - b.vertexY).natAbs) ∧
    (∀ x y : Int,
      (∃ st ∈ c.gs.stations, (st.vertexX - x).natAbs + (st.vertexY - y).natAbs ≤ 1) →
      (placeStation c.gs x y).2.success = false) := by
  obtain ⟨hids, hpair⟩ := stationInv_reachable h
  refine ⟨hids, ?_, ?_⟩
  · exact hpair.imp (fun {a b} hab => ⟨fun ⟨hx, hy⟩ => by omega, hab⟩)
  · intro x y ⟨st, hst, hnear⟩
    unfold placeStation
    cases hc : canPlaceStation c.gs x y with
    | some reason => rfl
    | none =>
        have := no_nearby_of_canPlace hids hc st hst
        omega

/-! ## C10: the initial train added by COMPLETE_LINE -/

theorem findIdx?_append_singleton {α : Type} (p : α → Bool) (l : List α) (a : α)
    (h : ∀ x ∈ l, p x = false) (ha : p a = true) :
    (l ++ [a]).findIdx? p = some l.length := by
  induction l with
  | nil => simp [List.findIdx?, ha]
  | cons b l ih =>
      have hb := h b (by simp)
      have ih2 := ih (fun x hx => h x (by simp [hx]))
      simp [List.findIdx?_cons, hb, ih2]

theorem set_append_length {α : Type} (l : List α) (a b : α) :
    (l ++ [a]).set l.length b = l ++ [b] := by
  induction l with
  | nil => rfl
  | cons c l ih => simp [List.set, ih]

theorem find?_append_singleton {α : Type} (p : α → Bool) (l : List α) (a : α)
    (h : ∀ x ∈ l, p x = false) (ha : p a = true) :
    (l ++ [a]).find? p = some a := by
  induction l with
  | nil => simp [List.find?, ha]
  | cons b l ih =>
      have hb := h b (by simp)
      have ih2 := ih (fun x hx => h x (by simp [hx]))
      simp [List.find?_cons, hb, ih2]

/-- `addTrainToLine` on a state whose final line is fresh and empty of
trains: the initial train `createTrainForLine … 1 0` is appended to it. -/
theorem addTrainToLine_fresh (s : GameState) (L : List MetroLine) (nl : MetroLine)
    (tid : String) (hlines : s.lines = L ++ [nl]) (hfresh : ∀ x ∈ L, x.id ≠ nl.id)
    (htrains : nl.trains = []) (hlen : ¬nl.stationIds.length < 2) :
    (addTrainToLine s nl.id tid).1.lines =
      L ++ [{ nl with trains := [createTrainForLine tid nl 1 0] }] := by
  have hfresh2 : ∀ x ∈ L, (decide (x.id = nl.id)) = false := by
    intro x hx
    simp [hfresh x hx]
  have hidx := findIdx?_append_singleton (fun l => l.id = nl.id) L nl hfresh2 (by simp)
  have hget : (L ++ [nl]).get? L.length = some nl := List.get?_concat_length _ _
  have hcap : ¬(nl.trains.length ≥ MAX_TRAINS_PER_LINE) := by
    simp [htrains, MAX_TRAINS_PER_LINE]
  unfold addTrainToLine
  rw [hlines]
  split
  · next heq =>
      rw [hidx] at heq
      exact Option.noConfusion heq
  · next index heq =>
      rw [hidx] at heq
      obtain rfl : index = L.length := (Option.some.inj heq).symm
      split
      · next heq2 =>
          rw [hget] at heq2
          exact Option.noConfusion heq2
      · next line heq2 =>
          rw [hget] at heq2
          obtain rfl : line = nl := (Option.some.inj heq2).symm
          rw [if_neg hcap, if_neg hlen]
          simp only [htrains, List.length_nil, Nat.zero_add, Nat.reduceMod,
            reduceIte, List.nil_append, calculateStartStationIdx]
          rw [set_append_length]
          norm_num

/-- C10: after every successful COMPLETE_LINE dispatch (with a line id not
already in use), the newly completed line — although `createLine` builds it
with an empty train list — carries exactly one train, positioned at station
index 0, moving in direction +1. -/
theorem claim_C10_initial_train (c : ControllerState) (lid tid : String)
    (hfresh : ∀ l ∈ c.gs.lines, l.id ≠ lid)
    (hsucc : (dispatchCompleteLine c lid tid).2.success = true) :
    (∀ color ids lp, (createLine lid color ids lp).trains = []) ∧
    ∃ line, (dispatchCompleteLine c lid tid).1.gs.lines.find? (fun l => l.id = lid) =
        some line ∧
      line.trains.length = 1 ∧
      ∀ t ∈ line.trains,
        t.currentStationIdx = 0 ∧ t.direction = 1 ∧ t.state = TrainState.MOVING := by
  refine ⟨fun _ _ _ => rfl, ?_⟩
  cases hc : c.currentLine with
  | none => simp [dispatchCompleteLine, completeLine, hc] at hsucc
  | some current =>
    cases hcol : current.color with
    | none => simp [dispatchCompleteLine, completeLine, hc, hcol] at hsucc
    | some color =>
      by_cases hlen : current.stationIds.length < 2
      · simp [dispatchCompleteLine, completeLine, hc, hcol, hlen] at hsucc
      · have hfresh2 : ∀ x ∈ c.gs.lines, (decide (x.id = lid)) = false := by
          intro x hx
          simp [hfresh x hx]
        have hstep : (dispatchCompleteLine c lid tid).1.gs.lines =
            (addTrainToLine { c.gs with
                lines := c.gs.lines ++ [createLine lid color current.stationIds
                  (isLineLoop current.stationIds)] }
              (createLine lid color current.stationIds (isLineLoop current.stationIds)).id
              tid).1.lines := by
          simp [dispatchCompleteLine, completeLine, hc, hcol, hlen, createLine]
        have hadd := addTrainToLine_fresh
          ({ c.gs with lines := c.gs.lines ++ [createLine lid color current.stationIds
              (isLineLoop current.stationIds)] })
          c.gs.lines
          (createLine lid color current.stationIds (isLineLoop current.stationIds))
          tid rfl (fun x hx => hfresh x hx) rfl hlen
        rw [hstep, hadd]
        refine ⟨_, find?_append_singleton _ _ _ hfresh2 (by simp [createLine]), rfl, ?_⟩
        intro t ht
        simp only [List.mem_singleton] at ht
        subst ht
        exact ⟨rfl, rfl, rfl⟩

/-! ## C1: money across COMPLETE_LINE -/

theorem money_addTrainToLine (s : GameState) (lineId freshTrainId : String) :
    (addTrainToLine s lineId freshTrainId).1.money = s.money := by
  unfold addTrainToLine
  split
  · rfl
  · split
    · rfl
    · split_ifs <;> rfl

/-- C1 (amended): a COMPLETE_LINE dispatch — successful or not — leaves
`GameState.money` unchanged; the controller's dispatch path performs no
cost deduction (the core `LineManager.completeLine` notes that cost
deduction is "handled separately", and nothing in the dispatch performs
it).  The build-cost deduction exists only in the separate
`deductLineCost` helper, which subtracts the chord-length sum
`calculateLineLength` times the per-unit cost. -/
theorem claim_C1_complete_line_money (c : ControllerState) (lid tid : String) :
    (dispatch c (GameAction.COMPLETE_LINE lid tid)).1.gs.money = c.gs.money ∧
    (∀ (s : GameState) (line : MetroLine),
      (deductLineCost s line).money =
        s.money - calculateLineLength line s * LINE_BUILD_COST_PER_SQUARE) := by
  constructor
  · cases hc : c.currentLine with
    | none => simp [dispatch, dispatchCompleteLine, completeLine, hc]
    | some current =>
        cases hcol : current.color with
        | none => simp [dispatch, dispatchCompleteLine, completeLine, hc, hcol]
        | some color =>
            by_cases hlen : current.stationIds.length < 2
            · simp [dispatch, dispatchCompleteLine, completeLine, hc, hcol, hlen]
            · simp [dispatch, dispatchCompleteLine, completeLine, hc, hcol, hlen,
                money_addTrainToLine]
  · intro s line
    rfl

/-- A controller about to complete a line between the misaligned stations
(0,0) and (2,1); the octilinear route between them bends at a knee. -/
def kneeLineController : ControllerState :=
  { gs :=
      { seed := 0
        map := { width := 48, height := 32, seed := 0, mapType := MapType.RIVER, squares := [] }
        stations := [createStation 0 0 "A", createStation 2 1 "B"]
        lines := []
        passengers := []
        simulationTime := GAME_START_TIME_MS
        money := STARTING_MONEY
        isPaused := false
        speed := 1 }
    currentLine := some { color := some "red", stationIds := ["0000", "0201"] } }

/-- C1 counterexample: completing the line between (0,0) and (2,1)
succeeds but leaves money unchanged, while the claim demands a decrease by
the Route-Geometry polyline length `√2 + 1` times the per-unit cost 50;
moreover the ledger's own `calculateLineLength` would use the chord length
`√5`, which differs from the Route-Geometry polyline length. -/
theorem claim_C1_counterexample :
    (dispatch kneeLineController (GameAction.COMPLETE_LINE "L1" "T1")).2.success = true ∧
    (dispatch kneeLineController (GameAction.COMPLETE_LINE "L1" "T1")).1.gs.money =
      kneeLineController.gs.money ∧
    calculateSegmentLength
        (calculateSegmentPath (createStation 0 0 "A") (createStation 2 1 "B") none) =
      Real.sqrt 2 + 1 ∧
    (dispatch kneeLineController (GameAction.COMPLETE_LINE "L1" "T1")).1.gs.money ≠
      kneeLineController.gs.money -
        (Real.sqrt 2 + 1) * LINE_BUILD_COST_PER_SQUARE ∧
    calculateLineLength (createLine "L1" "red" ["0000", "0201"] false)
        kneeLineController.gs = Real.sqrt 5 ∧
    Real.sqrt 5 ≠ Real.sqrt 2 + 1 := by
  have hmoney : (dispatch kneeLineController
      (GameAction.COMPLETE_LINE "L1" "T1")).1.gs.money = kneeLineController.gs.money :=
    (claim_C1_complete_line_money kneeLineController "L1" "T1").1
  have hsqrt2 : (0:ℝ) ≤ Real.sqrt 2 := Real.sqrt_nonneg 2
  refine ⟨rfl, hmoney, ?_, ?_, ?_, ?_⟩
  · show waypointsLength _ = _
    norm_num [calculateSegmentPath, calculateKneePoint, getAlignmentType, getDirection,
      waypointsLength, createStation]
  · rw [hmoney]
    intro h
    have : (Real.sqrt 2 + 1) * LINE_BUILD_COST_PER_SQUARE = 0 := by linarith
    rw [LINE_BUILD_COST_PER_SQUARE] at this
    nlinarith
  · have e1 : kneeLineController.gs.stations.find? (fun s => s.id = "0000") =
        some (createStation 0 0 "A") := by decide
    have e2 : kneeLineController.gs.stations.find? (fun s => s.id = "0201") =
        some (createStation 2 1 "B") := by decide
    show (if _ then _ else chordLengths _ _) = _
    rw [if_neg (by decide)]
    rw [show (createLine "L1" "red" ["0000", "0201"] false).stationIds =
      ["0000", "0201"] from rfl]
    rw [chordLengths, e1, e2]
    rw [show chordLengths kneeLineController.gs ["0201"] = 0 from rfl]
    norm_num [createStation]
  · intro h
    have h5 := Real.sq_sqrt (show (0:ℝ) ≤ 5 by norm_num)
    have h2 := Real.sq_sqrt (show (0:ℝ) ≤ 2 by norm_num)
    rw [h] at h5
    nlinarith [h2, h5, hsqrt2]

/-! ## Station graph and BFS routing (src/core/game/pathfinding/StationGraph.ts)

The source keeps the graph in an insertion-ordered `Map<string, GraphNode>`;
the embedding uses an association list with the same set/get semantics. -/

structure GraphNode where
  stationId : String
  connections : List (String × String)
deriving DecidableEq

/-- `Map.get`. -/
def assocGet (graph : List (String × GraphNode)) (key : String) : Option GraphNode :=
  (graph.find? (fun kv => kv.1 = key)).map (fun kv => kv.2)

/-- `Map.set`: replace in place if present, append otherwise. -/
def assocSet (graph : List (String × GraphNode)) (key : String) (value : GraphNode) :
    List (String × GraphNode) :=
  if graph.any (fun kv => kv.1 = key) then
    graph.map (fun kv => if kv.1 = key then (key, value) else kv)
  else graph ++ [(key, value)]

/-- `node.connections.push(edge)` through the map. -/
def pushEdge (graph : List (String × GraphNode)) (key : String) (edge : String × String) :
    List (String × GraphNode) :=
  graph.map (fun kv =>
    if kv.1 = key then (kv.1, { kv.2 with connections := kv.2.connections ++ [edge] })
    else kv)

/-- The inner edge loop of `buildGraph`: both-directional edges for every
consecutive pair, added only when both endpoints have nodes. -/
def addConsecutiveEdges (lineId : String) :
    List (String × GraphNode) → List String → List (String × GraphNode)
  | graph, fromId :: toId :: rest =>
      let graph :=
        if (assocGet graph fromId).isSome ∧ (assocGet graph toId).isSome then
          pushEdge (pushEdge graph fromId (toId, lineId)) toId (fromId, lineId)
        else graph
      addConsecutiveEdges lineId graph (toId :: rest)
  | graph, _ => graph

/-- The per-line block of `buildGraph` (StationGraph.ts): skip single-stop
lines, add the consecutive edges, then (for loops of more than two stops)
the wrap-around edge between the last and the first stop. -/
def addLineEdges (g : List (String × GraphNode)) (line : MetroLine) :
    List (String × GraphNode) :=
  if line.stationIds.length < 2 then g
  else
    let g := addConsecutiveEdges line.id g line.stationIds
    if line.isLoop ∧ line.stationIds.length > 2 then
      match line.stationIds.get? (line.stationIds.length - 1),
            line.stationIds.get? 0 with
      | some lastId, some firstId =>
          if (assocGet g lastId).isSome ∧ (assocGet g firstId).isSome then
            pushEdge (pushEdge g lastId (firstId, line.id)) firstId (lastId, line.id)
          else g
      | _, _ => g
    else g

/-- `buildGraph` (StationGraph.ts). -/
def buildGraph (stations : List Station) (lines : List MetroLine) :
    List (String × GraphNode) :=
  let graph := stations.foldl
    (fun g station => assocSet g station.id { stationId := station.id, connections := [] })
    []
  lines.foldl addLineEdges graph

/-- All station ids mentioned by the graph (keys and edge targets);
the universe for the BFS termination measure. -/
def allIds (graph : List (String × GraphNode)) : List String :=
  graph.bind (fun kv => kv.1 :: kv.2.connections.map (fun e => e.1))

/-- Number of universe ids not yet visited. -/
def unvisitedCount (graph : List (String × GraphNode)) (visited : List String) : Nat :=
  ((allIds graph).toFinset.filter (fun x => x ∉ visited)).card

/-- The neighbour-expansion loop body of the BFS: enqueue unvisited edge
targets (marking them visited immediately, as the source does). -/
def enqueueNew (path : List String) :
    List (String × String) → List (String × List String) × List String →
      List (String × List String) × List String
  | [], acc => acc
  | (target, _) :: rest, (entries, visited) =>
      if target ∈ visited then enqueueNew path rest (entries, visited)
      else enqueueNew path rest (entries ++ [(target, path ++ [target])], target :: visited)

theorem unvisitedCount_cons (graph : List (String × GraphNode)) (visited : List String)
    (t : String) (htu : t ∈ allIds graph) (htv : t ∉ visited) :
    unvisitedCount graph (t :: visited) = unvisitedCount graph visited - 1 ∧
      1 ≤ unvisitedCount graph visited := by
  have hset : (allIds graph).toFinset.filter (fun x => x ∉ t :: visited) =
      ((allIds graph).toFinset.filter (fun x => x ∉ visited)).erase t := by
    ext x
    simp only [Finset.mem_filter, Finset.mem_erase, List.mem_toFinset, List.mem_cons]
    constructor
    · rintro ⟨hx, hnot⟩
      push_neg at hnot
      exact ⟨hnot.1, hx, hnot.2⟩
    · rintro ⟨hne, hx, hnot⟩
      exact ⟨hx, by push_neg; exact ⟨hne, hnot⟩⟩
  have hmem : t ∈ (allIds graph).toFinset.filter (fun x => x ∉ visited) := by
    simp only [Finset.mem_filter, List.mem_toFinset]
    exact ⟨htu, htv⟩
  constructor
  · unfold unvisitedCount
    rw [hset, Finset.card_erase_of_mem hmem]
  · unfold unvisitedCount
    exact Finset.card_pos.mpr ⟨t, hmem⟩

theorem enqueueNew_measure (graph : List (String × GraphNode)) (path : List String)
    (cs : List (String × String)) (entries : List (String × List String))
    (visited : List String) (hsub : ∀ e ∈ cs, e.1 ∈ allIds graph) :
    (enqueueNew path cs (entries, visited)).1.length +
        2 * unvisitedCount graph (enqueueNew path cs (entries, visited)).2 ≤
      entries.length + 2 * unvisitedCount graph visited := by
  induction cs generalizing entries visited with
  | nil => simp [enqueueNew]
  | cons e rest ih =>
      obtain ⟨target, lid⟩ := e
      by_cases hv : target ∈ visited
      · simp only [enqueueNew, hv, if_true]
        exact ih entries visited (fun x hx => hsub x (by simp [hx]))
      · simp only [enqueueNew, hv, if_false]
        have hstep := unvisitedCount_cons graph visited target
          (hsub (target, lid) (by simp)) hv
        have := ih (entries ++ [(target, path ++ [target])]) (target :: visited)
          (fun x hx => hsub x (by simp [hx]))
        simp only [List.length_append, List.length_singleton] at this
        omega

theorem mem_allIds_of_connection {graph : List (String × GraphNode)} {key : String}
    {node : GraphNode} (hget : assocGet graph key = some node) :
    ∀ e ∈ node.connections, e.1 ∈ allIds graph := by
  intro e he
  unfold assocGet at hget
  cases hfind : graph.find? (fun kv => kv.1 = key) with
  | none =>
      rw [hfind] at hget
      exact Option.noConfusion hget
  | some kv =>
      rw [hfind] at hget
      simp at hget
      subst hget
      have hmem := List.mem_of_find?_eq_some hfind
      unfold allIds
      rw [List.mem_bind]
      refine ⟨kv, hmem, ?_⟩
      simp only [List.mem_cons, List.mem_map]
      exact Or.inr ⟨e, he, rfl⟩

/-- The BFS loop of `findRoute` (StationGraph.ts); terminates because every
iteration removes a queue entry and every enqueue consumes an unvisited
universe id. -/
def bfsLoop (graph : List (String × GraphNode)) (endId : String) :
    List (String × List String) → List String → Option (List String)
  | [], _ => none
  | (stationId, path) :: rest, visited =>
      if stationId = endId then some path
      else
        match hget : assocGet graph stationId with
        | none => bfsLoop graph endId rest visited
        | some node =>
            let r := enqueueNew path node.connections ([], visited)
            bfsLoop graph endId (rest ++ r.1) r.2
termination_by queue visited => queue.length + 2 * unvisitedCount graph visited
decreasing_by
  · simp only [List.length_cons]
    omega
  · have hm := enqueueNew_measure graph path node.connections [] visited
      (mem_allIds_of_connection hget)
    simp only [List.length_nil, List.length_append, List.length_cons] at hm ⊢
    omega

/-- `findRoute` (StationGraph.ts): BFS over the station graph; returns the
ordered station-id path (including both endpoints) or `none`. -/
def findRoute (startId endId : String) (stations : List Station)
    (lines : List MetroLine) : Option (List String) :=
  if startId = endId then some []
  else
    let graph := buildGraph stations lines
    bfsLoop graph endId [(startId, [startId])] [startId]

/-! ## Passenger movement (src/app/game/simulation/TrainMovement.ts, second half)

The functions receive live station/train objects from their caller; the
embedding addresses them positionally — `si` indexes `GameState.stations`,
`li`/`ti` index `GameState.lines` and the line's train list — and resolves
the passenger objects shared between roster, queues and trains through the
roster (queues and trains store passenger ids). -/

def trainAt? (gs : GameState) (li ti : Nat) : Option Train :=
  match gs.lines.get? li with
  | some line => line.trains.get? ti
  | none => none

def updateTrainAt (gs : GameState) (li ti : Nat) (f : Train → Train) : GameState :=
  match gs.lines.get? li with
  | none => gs
  | some line =>
      match line.trains.get? ti with
      | none => gs
      | some t =>
          { gs with lines := gs.lines.set li { line with trains := line.trains.set ti (f t) } }

def updateStationAt (gs : GameState) (si : Nat) (f : Station → Station) : GameState :=
  match gs.stations.get? si with
  | none => gs
  | some st => { gs with stations := gs.stations.set si (f st) }

/-- Object mutation of a passenger record, visible through every
collection that references it by id. -/
def updatePassengerRec (gs : GameState) (pid : String) (f : Passenger → Passenger) :
    GameState :=
  { gs with passengers := gs.passengers.map (fun p => if p.id = pid then f p else p) }

/-- `isTrainHeadingTowards` (PassengerMovement): the target station index on
the line lies ahead of the train's current index in its direction. -/
def isTrainHeadingTowards (train : Train) (targetStationId : String) (line : MetroLine) :
    Bool :=
  match line.stationIds.findIdx? (fun s => s = targetStationId) with
  | none => false
  | some targetIdx =>
      if train.direction = 1 then decide ((targetIdx : Int) > train.currentStationIdx)
      else decide ((targetIdx : Int) < train.currentStationIdx)

/-- `getLineConnectingStations` (PassengerMovement): the first line in the
list that contains both stations. -/
def getLineConnectingStations (fromStationId toStationId : String)
    (lines : List MetroLine) : Option String :=
  (lines.find? (fun line =>
    line.stationIds.contains fromStationId && line.stationIds.contains toStationId)).map
    (fun line => line.id)

/-- `shouldPassengerBoard` (PassengerMovement). -/
def shouldPassengerBoard (passenger : Passenger) (train : Train) (line : MetroLine)
    (gs : GameState) : Bool :=
  match passenger.path.get? passenger.nextWaypointIndex with
  | none => false
  | some nextWaypointId =>
      match passenger.currentStationId with
      | none => false
      | some currentStationId =>
          if getLineConnectingStations currentStationId nextWaypointId gs.lines =
              some line.id then
            isTrainHeadingTowards train nextWaypointId line
          else false

/-- The boarding loop of `handlePassengerBoarding`: processes the waiting
list in order, stopping at the capacity break. -/
def boardLoop (si li ti : Nat) (line : MetroLine) :
    GameState → List String → GameState
  | gs, [] => gs
  | gs, pid :: rest =>
      match trainAt? gs li ti with
      | none => gs
      | some train =>
          if train.passengers.length ≥ TRAIN_MAX_CAPACITY then gs
          else
            match gs.passengers.find? (fun p => p.id = pid) with
            | none => boardLoop si li ti line gs rest
            | some p =>
                if shouldPassengerBoard p train line gs then
                  let gs := updatePassengerRec gs pid (fun q =>
                    { q with currentStationId := none, currentTrainId := some train.id })
                  let gs := updateTrainAt gs li ti (fun t =>
                    { t with passengers := t.passengers ++ [pid] })
                  let gs := updateStationAt gs si (fun st =>
                    { st with passengers := st.passengers.erase pid })
                  boardLoop si li ti line gs rest
                else boardLoop si li ti line gs rest

/-- `handlePassengerBoarding` (PassengerMovement). -/
def handlePassengerBoarding (gs : GameState) (si li ti : Nat) : GameState :=
  match gs.stations.get? si, trainAt? gs li ti with
  | some station, some train =>
      match gs.lines.find? (fun l => l.id = train.lineId) with
      | none => gs
      | some line =>
          let waiting := station.passengers.filter (fun pid =>
            match gs.passengers.find? (fun p => p.id = pid) with
            | some p => p.currentStationId = some station.id ∧ p.currentTrainId = none
            | none => false)
          boardLoop si li ti line gs waiting
  | _, _ => gs

/-- `completePassengerJourney` (PassengerMovement): remove the passenger
from the roster and defensively from every station queue, then add the
ticket revenue. -/
def completePassengerJourney (gs : GameState) (pid : String) : GameState :=
  let gs := { gs with passengers := gs.passengers.eraseP (fun p => p.id = pid) }
  let gs := { gs with stations := gs.stations.map (fun st =>
    { st with passengers := st.passengers.erase pid }) }
  addTicketRevenue gs

/-- The per-passenger body of the alighting loop of
`handlePassengerAlighting`. -/
def alightOne (si li ti : Nat) (stationId : String) (gs : GameState) (pid : String) :
    GameState :=
  let gs := updateTrainAt gs li ti (fun t =>
    { t with passengers := t.passengers.erase pid })
  let gs := updatePassengerRec gs pid (fun p => { p with currentTrainId := none })
  match gs.passengers.find? (fun p => p.id = pid) with
  | none => gs
  | some p =>
      if stationId = p.destinationStationId then
        completePassengerJourney gs pid
      else
        let gs := updatePassengerRec gs pid (fun q =>
          { q with currentStationId := some stationId,
                   nextWaypointIndex := q.nextWaypointIndex + 1 })
        updateStationAt gs si (fun st => { st with passengers := st.passengers ++ [pid] })

/-- `handlePassengerAlighting` (PassengerMovement). -/
def handlePassengerAlighting (gs : GameState) (si li ti : Nat) : GameState :=
  match gs.stations.get? si, trainAt? gs li ti with
  | some station, some train =>
      let passengersToAlight := train.passengers.filter (fun pid =>
        match gs.passengers.find? (fun p => p.id = pid) with
        | some p => p.path.get? p.nextWaypointIndex = some station.id
        | none => false)
      passengersToAlight.foldl (alightOne si li ti station.id) gs
  | _, _ => gs

/-- `updatePassengerMovement` (PassengerMovement): alighting first, then
boarding. -/
def updatePassengerMovement (gs : GameState) (si li ti : Nat) : GameState :=
  handlePassengerBoarding (handlePassengerAlighting gs si li ti) si li ti

/-! ## Passenger spawning (src/core/game/models/MapGrid.ts, PassengerSpawner part)

`spawnPassengerAt` draws the destination with a roulette wheel over the
caller-supplied weights; `Math.random()` and the generated id are explicit
parameters. -/

/-- The roulette selection loop of `spawnPassengerAt` (an empty string
means the loop fell through without choosing). -/
noncomputable def rouletteSelect (sourceId : String) (destWeights : String → ℝ) :
    List Station → ℝ → String
  | [], _ => ""
  | s :: rest, randomVal =>
      if s.id = sourceId then rouletteSelect sourceId destWeights rest randomVal
      else
        let randomVal := randomVal - destWeights s.id
        if randomVal ≤ 0 then s.id
        else rouletteSelect sourceId destWeights rest randomVal

/-- Destination choice of `spawnPassengerAt`: the roulette wheel plus the
rounding-error fallback to the first other station. -/
noncomputable def spawnTarget (gs : GameState) (sourceStation : Station)
    (destWeights : String → ℝ) (adjustedTotalWeight randomDraw : ℝ) : String :=
  let chosen := rouletteSelect sourceStation.id destWeights gs.stations
    (randomDraw * adjustedTotalWeight)
  if chosen = "" ∧ gs.stations.length > 1 then
    match gs.stations.find? (fun s => s.id ≠ sourceStation.id) with
    | some other => other.id
    | none => chosen
  else chosen

/-- The final create-and-push block of `spawnPassengerAt`: the passenger is
appended to the roster and to the source station queue. -/
def spawnPush (gs : GameState) (si : Nat) (freshId srcId target : String)
    (path : List String) : GameState :=
  let passenger :=
    { createPassenger freshId srcId target gs.simulationTime with
      path := path, nextWaypointIndex := 1 }
  updateStationAt { gs with passengers := gs.passengers ++ [passenger] } si
    (fun st => { st with passengers := st.passengers ++ [passenger.id] })

/-- `spawnPassengerAt` (PassengerSpawner).  The source's local bindings
`sourceWeight`, `adjustedTotalWeight` and `targetStationId` are pure and
are inlined here. -/
noncomputable def spawnPassengerAt (gs : GameState) (si : Nat) (freshId : String)
    (destWeights : String → ℝ) (totalDestWeight : ℝ) (randomDraw : ℝ) : GameState :=
  match gs.stations.get? si with
  | none => gs
  | some sourceStation =>
      if totalDestWeight - destWeights sourceStation.id ≤ 0 then gs
      else if spawnTarget gs sourceStation destWeights
          (totalDestWeight - destWeights sourceStation.id) randomDraw = "" then gs
      else
        match findRoute sourceStation.id
          (spawnTarget gs sourceStation destWeights
            (totalDestWeight - destWeights sourceStation.id) randomDraw)
          gs.stations gs.lines with
        | none => gs
        | some path =>
            if path.length = 0 then gs
            else
              spawnPush gs si freshId sourceStation.id
                (spawnTarget gs sourceStation destWeights
                  (totalDestWeight - destWeights sourceStation.id) randomDraw) path

/-! ## C2: passenger conservation -/

/-- How many roster entries carry the given passenger id. -/
def rosterCount (gs : GameState) (pid : String) : Nat :=
  gs.passengers.countP (fun p => p.id = pid)

/-- How many station-queue slots reference the given passenger id. -/
def queueCount (gs : GameState) (pid : String) : Nat :=
  (gs.stations.map (fun st => st.passengers.count pid)).sum

/-- How many train-passenger slots reference the given passenger id. -/
def trainCount (gs : GameState) (pid : String) : Nat :=
  (gs.lines.map (fun line => (line.trains.map (fun t => t.passengers.count pid)).sum)).sum

/-- Total references from stations and trains. -/
def locCount (gs : GameState) (pid : String) : Nat :=
  queueCount gs pid + trainCount gs pid

/-- The conservation invariant: reference count equals roster multiplicity,
and ids are never duplicated. -/
def PassengerInv (gs : GameState) : Prop :=
  ∀ pid, rosterCount gs pid = locCount gs pid ∧ rosterCount gs pid ≤ 1

theorem sum_map_set {α : Type} (l : List α) (i : Nat) (b a : α) (f : α → Nat)
    (h : l.get? i = some b) :
    ((l.set i a).map f).sum + f b = (l.map f).sum + f a := by
  induction l generalizing i with
  | nil => simp at h
  | cons c tl ih =>
      cases i with
      | zero =>
          simp only [List.get?] at h
          cases h
          simp [List.set]
          omega
      | succ n =>
          simp only [List.get?] at h
          have := ih n h
          simp only [List.set, List.map_cons, List.sum_cons, List.map_set] at this ⊢
          omega

theorem countP_map_of_id {gs : List Passenger} (g : Passenger → Passenger) (pid : String)
    (hg : ∀ p, (g p).id = p.id) :
    ((gs.map (fun p => if p.id = pid then g p else p)).countP (fun p => p.id = pid)) =
      gs.countP (fun p => p.id = pid) := by
  induction gs with
  | nil => rfl
  | cons p tl ih =>
      by_cases hp : p.id = pid
      · simp [List.countP_cons, hp, hg, ih]
      · simp [List.countP_cons, hp, ih]

theorem countP_append_singleton {α : Type} (l : List α) (a : α) (q : α → Bool) :
    (l ++ [a]).countP q = l.countP q + (if q a then 1 else 0) := by
  rw [List.countP_append]
  simp [List.countP_cons]

theorem countP_eraseP_of_ne (l : List Passenger) (pid pidq : String) (hne : pid ≠ pidq) :
    ((l.eraseP (fun p => p.id = pid)).countP (fun p => p.id = pidq)) =
      l.countP (fun p => p.id = pidq) := by
  induction l with
  | nil => rfl
  | cons p tl ih =>
      by_cases hp : p.id = pid
      · rw [List.eraseP_cons_of_pos (by simp [hp])]
        have : ¬(p.id = pidq) := by rw [hp]; exact hne
        simp [List.countP_cons, this]
      · rw [List.eraseP_cons_of_neg (by simp [hp])]
        simp [List.countP_cons, ih]

theorem countP_eraseP_self (l : List Passenger) (pid : String) :
    ((l.eraseP (fun p => p.id = pid)).countP (fun p => p.id = pid)) =
      l.countP (fun p => p.id = pid) -
        (if l.any (fun p => p.id = pid) then 1 else 0) := by
  induction l with
  | nil => rfl
  | cons p tl ih =>
      by_cases hp : p.id = pid
      · rw [List.eraseP_cons_of_pos (by simp [hp])]
        simp [List.countP_cons, List.any_cons, hp]
      · rw [List.eraseP_cons_of_neg (by simp [hp])]
        have hany : ((p :: tl).any fun q => q.id = pid) = (tl.any fun q => q.id = pid) := by
          simp [List.any_cons, hp]
        have h1 : List.countP (fun q => decide (q.id = pid))
            (p :: List.eraseP (fun q => decide (q.id = pid)) tl) =
            List.countP (fun q => decide (q.id = pid))
              (List.eraseP (fun q => decide (q.id = pid)) tl) := by
          simp [List.countP_cons, hp]
        have h2 : List.countP (fun q => decide (q.id = pid)) (p :: tl) =
            List.countP (fun q => decide (q.id = pid)) tl := by
          simp [List.countP_cons, hp]
        rw [h1, h2, hany, ih]

/-! Count bookkeeping for the three mutation helpers. -/

theorem counts_updatePassengerRec (gs : GameState) (pid0 : String)
    (g : Passenger → Passenger) (hg : ∀ p, (g p).id = p.id) (pid : String) :
    rosterCount (updatePassengerRec gs pid0 g) pid = rosterCount gs pid ∧
    queueCount (updatePassengerRec gs pid0 g) pid = queueCount gs pid ∧
    trainCount (updatePassengerRec gs pid0 g) pid = trainCount gs pid := by
  refine ⟨?_, rfl, rfl⟩
  unfold rosterCount updatePassengerRec
  simp only
  induction gs.passengers with
  | nil => rfl
  | cons p tl ih =>
      by_cases hp : p.id = pid0
      · simp [List.countP_cons, hp, hg, ih]
      · simp [List.countP_cons, hp, ih]

theorem counts_updateStationAt (gs : GameState) (si : Nat) (f : Station → Station)
    (st : Station) (hst : gs.stations.get? si = some st) (pid : String) :
    rosterCount (updateStationAt gs si f) pid = rosterCount gs pid ∧
    queueCount (updateStationAt gs si f) pid + st.passengers.count pid =
      queueCount gs pid + (f st).passengers.count pid ∧
    trainCount (updateStationAt gs si f) pid = trainCount gs pid := by
  unfold updateStationAt
  rw [hst]
  refine ⟨rfl, ?_, rfl⟩
  unfold queueCount
  simp only
  exact sum_map_set gs.stations si st (f st) (fun s => s.passengers.count pid) hst

theorem counts_updateTrainAt (gs : GameState) (li ti : Nat) (f : Train → Train)
    (line : MetroLine) (t : Train) (hline : gs.lines.get? li = some line)
    (ht : line.trains.get? ti = some t) (pid : String) :
    rosterCount (updateTrainAt gs li ti f) pid = rosterCount gs pid ∧
    queueCount (updateTrainAt gs li ti f) pid = queueCount gs pid ∧
    trainCount (updateTrainAt gs li ti f) pid + t.passengers.count pid =
      trainCount gs pid + (f t).passengers.count pid := by
  simp only [updateTrainAt, hline, ht]
  refine ⟨rfl, rfl, ?_⟩
  unfold trainCount
  simp only
  have houter := sum_map_set gs.lines li line
    { line with trains := line.trains.set ti (f t) }
    (fun l => (l.trains.map (fun tr => tr.passengers.count pid)).sum) hline
  have hinner := sum_map_set line.trains ti t (f t)
    (fun tr => tr.passengers.count pid) ht
  simp only at houter hinner
  omega

/-- The train at position `(li, ti)` references the passenger. -/
def trainHas (gs : GameState) (li ti : Nat) (pid : String) : Prop :=
  ∃ line t, gs.lines.get? li = some line ∧ line.trains.get? ti = some t ∧
    pid ∈ t.passengers

/-- The station at position `si` has the passenger queued. -/
def queueHas (gs : GameState) (si : Nat) (pid : String) : Prop :=
  ∃ st, gs.stations.get? si = some st ∧ pid ∈ st.passengers

theorem le_sum_of_get? {α : Type} {l : List α} {i : Nat} {x : α} (f : α → Nat)
    (h : l.get? i = some x) : f x ≤ (l.map f).sum := by
  induction l generalizing i with
  | nil => simp at h
  | cons c tl ih =>
      cases i with
      | zero =>
          simp only [List.get?] at h
          cases h
          simp
      | succ n =>
          simp only [List.get?] at h
          have := ih (i := n) h
          simp
          omega

theorem trainCount_pos_of_trainHas {gs : GameState} {li ti : Nat} {pid : String}
    (h : trainHas gs li ti pid) : 1 ≤ trainCount gs pid := by
  obtain ⟨line, t, hline, ht, hmem⟩ := h
  have h1 : 0 < t.passengers.count pid := List.count_pos_iff.mpr hmem
  have h2 : t.passengers.count pid ≤
      (line.trains.map (fun tr => tr.passengers.count pid)).sum :=
    le_sum_of_get? (fun tr => tr.passengers.count pid) ht
  have h3 : (line.trains.map (fun tr => tr.passengers.count pid)).sum ≤ trainCount gs pid :=
    le_sum_of_get? (fun l => (l.trains.map (fun tr => tr.passengers.count pid)).sum) hline
  omega

theorem queueCount_pos_of_queueHas {gs : GameState} {si : Nat} {pid : String}
    (h : queueHas gs si pid) : 1 ≤ queueCount gs pid := by
  obtain ⟨st, hst, hmem⟩ := h
  have h1 : 0 < st.passengers.count pid := List.count_pos_iff.mpr hmem
  have h2 : st.passengers.count pid ≤ queueCount gs pid :=
    le_sum_of_get? (fun s => s.passengers.count pid) hst
  omega

theorem rosterCount_eq_zero_of_find?_none {gs : GameState} {pid : String}
    (h : gs.passengers.find? (fun p => p.id = pid) = none) : rosterCount gs pid = 0 := by
  unfold rosterCount
  rw [List.countP_eq_zero]
  intro p hp
  have := List.find?_eq_none.mp h p hp
  simpa using this

theorem any_of_find?_some {gs : GameState} {pid : String} {p : Passenger}
    (h : gs.passengers.find? (fun q => q.id = pid) = some p) :
    gs.passengers.any (fun q => q.id = pid) = true := by
  rw [List.any_eq_true]
  refine ⟨p, List.mem_of_find?_eq_some h, ?_⟩
  have := List.find?_some h
  simpa using this

theorem counts_completePassengerJourney (gs : GameState) (pid q : String) :
    (q ≠ pid → rosterCount (completePassengerJourney gs pid) q = rosterCount gs q) ∧
    (rosterCount (completePassengerJourney gs pid) pid =
      rosterCount gs pid - (if gs.passengers.any (fun p => p.id = pid) then 1 else 0)) ∧
    (q ≠ pid → queueCount (completePassengerJourney gs pid) q = queueCount gs q) ∧
    (queueCount gs pid = 0 → queueCount (completePassengerJourney gs pid) pid = 0) ∧
    trainCount (completePassengerJourney gs pid) q = trainCount gs q := by
  refine ⟨?_, ?_, ?_, ?_, rfl⟩
  · intro hne
    unfold completePassengerJourney addTicketRevenue rosterCount
    simp only
    exact countP_eraseP_of_ne gs.passengers pid q (fun h => hne h.symm)
  · unfold completePassengerJourney addTicketRevenue rosterCount
    simp only
    exact countP_eraseP_self gs.passengers pid
  · intro hne
    unfold completePassengerJourney addTicketRevenue queueCount
    simp only [List.map_map]
    congr 1
    apply List.map_congr_left
    intro st _
    simp only [Function.comp]
    exact List.count_erase_of_ne hne st.passengers
  · intro hzero
    unfold completePassengerJourney addTicketRevenue queueCount
    simp only [List.map_map]
    unfold queueCount at hzero
    rw [List.sum_eq_zero]
    intro x hx
    simp only [List.mem_map, Function.comp] at hx
    obtain ⟨st, hst, rfl⟩ := hx
    have hstz : st.passengers.count pid = 0 := by
      have hle : st.passengers.count pid ≤
          (gs.stations.map (fun s => s.passengers.count pid)).sum := by
        have : st.passengers.count pid ∈
            gs.stations.map (fun s => s.passengers.count pid) :=
          List.mem_map_of_mem _ hst
        exact List.single_le_sum (fun _ _ => Nat.zero_le _) _ this
      omega
    have := List.count_erase_self pid st.passengers
    simp only at this ⊢
    omega

theorem count_append_pid (l : List String) (pid q : String) :
    (l ++ [pid]).count q = l.count q + (if q = pid then 1 else 0) := by
  rw [List.count_append]
  by_cases h : q = pid
  · subst h
    simp
  · simp [List.count_singleton, h]

theorem alightOne_inv (gs : GameState) (si li ti : Nat) (stationId pid : String)
    (hinv : PassengerInv gs) (hsi : si < gs.stations.length)
    (hhas : trainHas gs li ti pid) :
    PassengerInv (alightOne si li ti stationId gs pid) := by
  obtain ⟨line, t, hline, ht, hmem⟩ := hhas
  have htcnt : 0 < t.passengers.count pid := List.count_pos_iff.mpr hmem
  have htrainpos : 1 ≤ trainCount gs pid :=
    trainCount_pos_of_trainHas ⟨line, t, hline, ht, hmem⟩
  obtain ⟨hbal, hle⟩ := hinv pid
  have hroster1 : rosterCount gs pid = 1 := by
    unfold locCount at hbal
    omega
  have hq0 : queueCount gs pid = 0 := by
    unfold locCount at hbal
    omega
  have ht1 : trainCount gs pid = 1 := by
    unfold locCount at hbal
    omega
  have hc1 := counts_updateTrainAt gs li ti
    (fun tr => { tr with passengers := tr.passengers.erase pid }) line t hline ht
  have hc2 := counts_updatePassengerRec
    (updateTrainAt gs li ti (fun tr => { tr with passengers := tr.passengers.erase pid }))
    pid (fun p => { p with currentTrainId := none }) (fun p => rfl)
  set g2 := updatePassengerRec
    (updateTrainAt gs li ti (fun tr => { tr with passengers := tr.passengers.erase pid }))
    pid (fun p => { p with currentTrainId := none }) with hg2def
  have hroster_g2 : ∀ q, rosterCount g2 q = rosterCount gs q := by
    intro q
    rw [(hc2 q).1, ((hc1 q).1)]
  have hqueue_g2 : ∀ q, queueCount g2 q = queueCount gs q := by
    intro q
    rw [(hc2 q).2.1, ((hc1 q).2.1)]
  have htrain_g2 : ∀ q, q ≠ pid → trainCount g2 q = trainCount gs q := by
    intro q hne
    have h1 := (hc1 q).2.2
    have : (t.passengers.erase pid).count q = t.passengers.count q :=
      List.count_erase_of_ne hne t.passengers
    rw [(hc2 q).2.2]
    simp only [this] at h1
    omega
  have htrain_g2_pid : trainCount g2 pid = trainCount gs pid - 1 := by
    have h1 := (hc1 pid).2.2
    have : (t.passengers.erase pid).count pid = t.passengers.count pid - 1 :=
      List.count_erase_self pid t.passengers
    rw [(hc2 pid).2.2]
    simp only [this] at h1
    omega
  have hstations_g2 : g2.stations = gs.stations := by
    rw [hg2def]
    simp only [updatePassengerRec, updateTrainAt, hline, ht]
  simp only [alightOne]
  rw [← hg2def]
  cases hfind : g2.passengers.find? (fun p => p.id = pid) with
  | none =>
      have h0 := rosterCount_eq_zero_of_find?_none hfind
      rw [hroster_g2 pid, hroster1] at h0
      exact absurd h0 one_ne_zero
  | some p =>
      change PassengerInv (if stationId = p.destinationStationId then _ else _)
      split_ifs with hdest
      · intro q
        have hc := counts_completePassengerJourney g2 pid q
        have hcp := counts_completePassengerJourney g2 pid pid
        by_cases hqp : q = pid
        · subst hqp
          have hany := any_of_find?_some hfind
          constructor
          · rw [hcp.2.1, hany, if_pos rfl]
            unfold locCount
            rw [hcp.2.2.2.1 (by rw [hqueue_g2]; exact hq0), hcp.2.2.2.2]
            rw [hroster_g2, hroster1, htrain_g2_pid, ht1]
          · rw [hcp.2.1]
            rw [hroster_g2, hroster1]
            omega
        · obtain ⟨hbalq, hleq⟩ := hinv q
          constructor
          · rw [hc.1 hqp]
            unfold locCount
            rw [hc.2.2.1 hqp, hc.2.2.2.2]
            rw [hroster_g2, hqueue_g2, htrain_g2 q hqp]
            exact hbalq
          · rw [hc.1 hqp, hroster_g2]
            exact hleq
      · have hstg3 : (updatePassengerRec g2 pid (fun q =>
            { q with currentStationId := some stationId,
                     nextWaypointIndex := q.nextWaypointIndex + 1 })).stations =
            gs.stations := by
          unfold updatePassengerRec
          rw [hstations_g2]
        have hsival : gs.stations.get? si = some (gs.stations.get ⟨si, hsi⟩) :=
          List.get?_eq_get hsi
        have hc3 := counts_updatePassengerRec g2 pid (fun q =>
          { q with currentStationId := some stationId,
                   nextWaypointIndex := q.nextWaypointIndex + 1 }) (fun p => rfl)
        have hc4 := counts_updateStationAt
          (updatePassengerRec g2 pid (fun q =>
            { q with currentStationId := some stationId,
                     nextWaypointIndex := q.nextWaypointIndex + 1 }))
          si (fun st => { st with passengers := st.passengers ++ [pid] })
          (gs.stations.get ⟨si, hsi⟩) (by rw [hstg3]; exact hsival)
        intro q
        have hcnt := count_append_pid (gs.stations.get ⟨si, hsi⟩).passengers pid q
        by_cases hqp : q = pid
        · subst hqp
          constructor
          · rw [(hc4 q).1, (hc3 q).1, hroster_g2, hroster1]
            unfold locCount
            have hq4 := (hc4 q).2.1
            rw [hcnt, (hc3 q).2.1, hqueue_g2, hq0] at hq4
            norm_num at hq4
            rw [(hc4 q).2.2, (hc3 q).2.2, htrain_g2_pid, ht1]
            omega
          · rw [(hc4 q).1, (hc3 q).1, hroster_g2, hroster1]
        · obtain ⟨hbalq, hleq⟩ := hinv q
          constructor
          · rw [(hc4 q).1, (hc3 q).1, hroster_g2]
            unfold locCount
            have hq4 := (hc4 q).2.1
            simp only [hcnt, if_neg hqp] at hq4
            rw [(hc3 q).2.1, hqueue_g2] at hq4
            rw [(hc4 q).2.2, (hc3 q).2.2, htrain_g2 q hqp]
            unfold locCount at hbalq
            omega
          · rw [(hc4 q).1, (hc3 q).1, hroster_g2]
            exact hleq

theorem get?_set_self {α : Type} (l : List α) (i : Nat) (x a : α)
    (h : l.get? i = some x) : (l.set i a).get? i = some a := by
  induction l generalizing i with
  | nil => simp at h
  | cons c tl ih =>
      cases i with
      | zero => rfl
      | succ n =>
          simp only [List.get?] at h ⊢
          exact ih n h

theorem stations_updateTrainAt (gs : GameState) (li ti : Nat) (f : Train → Train) :
    (updateTrainAt gs li ti f).stations = gs.stations := by
  unfold updateTrainAt
  split
  · rfl
  · split
    · rfl
    · rfl

theorem lines_updateStationAt (gs : GameState) (si : Nat) (f : Station → Station) :
    (updateStationAt gs si f).lines = gs.lines := by
  unfold updateStationAt
  split
  · rfl
  · rfl

theorem stations_length_updateStationAt (gs : GameState) (si : Nat)
    (f : Station → Station) :
    (updateStationAt gs si f).stations.length = gs.stations.length := by
  unfold updateStationAt
  split
  · rfl
  · simp

theorem stations_length_completePassengerJourney (gs : GameState) (pid : String) :
    (completePassengerJourney gs pid).stations.length = gs.stations.length := by
  unfold completePassengerJourney addTicketRevenue
  simp

theorem lines_completePassengerJourney (gs : GameState) (pid : String) :
    (completePassengerJourney gs pid).lines = gs.lines := rfl

theorem stations_updatePassengerRec (g : GameState) (pid : String)
    (f : Passenger → Passenger) : (updatePassengerRec g pid f).stations = g.stations := rfl

theorem stations_length_alightOne (gs : GameState) (si li ti : Nat)
    (stationId pid : String) :
    (alightOne si li ti stationId gs pid).stations.length = gs.stations.length := by
  simp only [alightOne]
  split
  · rw [stations_updatePassengerRec, stations_updateTrainAt]
  · split_ifs with hdest
    · rw [stations_length_completePassengerJourney, stations_updatePassengerRec,
        stations_updateTrainAt]
    · rw [stations_length_updateStationAt, stations_updatePassengerRec,
        stations_updatePassengerRec, stations_updateTrainAt]

theorem trainHas_updateTrainAt_erase (gs : GameState) (li ti : Nat) (pid q : String)
    (hne : q ≠ pid) (h : trainHas gs li ti q) :
    trainHas (updateTrainAt gs li ti
      (fun tr => { tr with passengers := tr.passengers.erase pid })) li ti q := by
  obtain ⟨line, t, hline, ht, hmem⟩ := h
  set t2 : Train := { t with passengers := t.passengers.erase pid } with ht2
  set line2 : MetroLine := { line with trains := line.trains.set ti t2 } with hline2
  refine ⟨line2, t2, ?_, ?_, ?_⟩
  · simp only [updateTrainAt, hline, ht]
    exact get?_set_self gs.lines li line _ hline
  · exact get?_set_self line.trains ti t _ ht
  · exact List.mem_erase_of_ne hne |>.mpr hmem

theorem trainHas_alightOne (gs : GameState) (si li ti : Nat) (stationId pid q : String)
    (hne : q ≠ pid) (h : trainHas gs li ti q) :
    trainHas (alightOne si li ti stationId gs pid) li ti q := by
  have h1 := trainHas_updateTrainAt_erase gs li ti pid q hne h
  have h2 : trainHas (updatePassengerRec
      (updateTrainAt gs li ti (fun tr => { tr with passengers := tr.passengers.erase pid }))
      pid (fun p => { p with currentTrainId := none })) li ti q := h1
  simp only [alightOne]
  split
  · exact h2
  · split_ifs with hdest
    · obtain ⟨line, t, hline, ht, hmem⟩ := h2
      exact ⟨line, t, hline, ht, hmem⟩
    · obtain ⟨line, t, hline, ht, hmem⟩ := h2
      refine ⟨line, t, ?_, ht, hmem⟩
      rw [lines_updateStationAt]
      exact hline

theorem alightFold_inv (si li ti : Nat) (stationId : String) (toAlight : List String)
    (gs : GameState) (hinv : PassengerInv gs) (hsi : si < gs.stations.length)
    (hmem : ∀ pid ∈ toAlight, trainHas gs li ti pid) (hnodup : toAlight.Nodup) :
    PassengerInv (toAlight.foldl (alightOne si li ti stationId) gs) := by
  induction toAlight generalizing gs with
  | nil => exact hinv
  | cons pid rest ih =>
      simp only [List.foldl_cons]
      have hpid := hmem pid (List.mem_cons_self _ _)
      apply ih
      · exact alightOne_inv gs si li ti stationId pid hinv hsi hpid
      · rw [stations_length_alightOne]
        exact hsi
      · intro q hq
        have hne : q ≠ pid := by
          intro hcontra
          subst hcontra
          exact (List.nodup_cons.mp hnodup).1 hq
        exact trainHas_alightOne gs si li ti stationId pid q hne
          (hmem q (List.mem_cons_of_mem _ hq))
      · exact (List.nodup_cons.mp hnodup).2

theorem handlePassengerAlighting_inv (gs : GameState) (si li ti : Nat)
    (hinv : PassengerInv gs) : PassengerInv (handlePassengerAlighting gs si li ti) := by
  unfold handlePassengerAlighting
  cases hst : gs.stations.get? si with
  | none => exact hinv
  | some station =>
      cases htr : trainAt? gs li ti with
      | none => exact hinv
      | some train =>
          simp only
          obtain ⟨hsi, -⟩ := List.get?_eq_some.mp hst
          obtain ⟨line, hline, ht⟩ : ∃ line, gs.lines.get? li = some line ∧
              line.trains.get? ti = some train := by
            unfold trainAt? at htr
            cases hl : gs.lines.get? li with
            | none => rw [hl] at htr; exact Option.noConfusion htr
            | some l => rw [hl] at htr; exact ⟨l, rfl, htr⟩
          apply alightFold_inv
          · exact hinv
          · exact hsi
          · intro pid hpid
            exact ⟨line, train, hline, ht, List.mem_of_mem_filter hpid⟩
          · apply List.Nodup.filter
            rw [List.nodup_iff_count_le_one]
            intro pid
            by_cases hp : pid ∈ train.passengers
            · have h1 : train.passengers.count pid ≤ trainCount gs pid := by
                have h2 : train.passengers.count pid ≤
                    (line.trains.map (fun tr => tr.passengers.count pid)).sum :=
                  le_sum_of_get? (fun tr => tr.passengers.count pid) ht
                have h3 : (line.trains.map (fun tr => tr.passengers.count pid)).sum ≤
                    trainCount gs pid :=
                  le_sum_of_get?
                    (fun l => (l.trains.map (fun tr => tr.passengers.count pid)).sum) hline
                omega
              obtain ⟨hbal, hle⟩ := hinv pid
              unfold locCount at hbal
              omega
            · rw [List.count_eq_zero_of_not_mem hp]
              omega

theorem boardMove_inv (gs : GameState) (si li ti : Nat) (pid tid0 : String)
    (line : MetroLine) (t : Train) (hinv : PassengerInv gs)
    (hline : gs.lines.get? li = some line) (ht : line.trains.get? ti = some t)
    (hq : queueHas gs si pid) :
    PassengerInv (updateStationAt (updateTrainAt (updatePassengerRec gs pid
      (fun q => { q with currentStationId := none, currentTrainId := some tid0 }))
      li ti (fun tr => { tr with passengers := tr.passengers ++ [pid] }))
      si (fun st => { st with passengers := st.passengers.erase pid })) := by
  obtain ⟨st, hst, hmem⟩ := hq
  have hqpos : 1 ≤ queueCount gs pid := queueCount_pos_of_queueHas ⟨st, hst, hmem⟩
  obtain ⟨hbal, hle⟩ := hinv pid
  have hroster1 : rosterCount gs pid = 1 := by
    unfold locCount at hbal
    omega
  have hq1 : queueCount gs pid = 1 := by
    unfold locCount at hbal
    omega
  have ht0 : trainCount gs pid = 0 := by
    unfold locCount at hbal
    omega
  have hc1 := counts_updatePassengerRec gs pid
    (fun q => { q with currentStationId := none, currentTrainId := some tid0 })
    (fun p => rfl)
  have hc2 := counts_updateTrainAt
    (updatePassengerRec gs pid
      (fun q => { q with currentStationId := none, currentTrainId := some tid0 }))
    li ti (fun tr => { tr with passengers := tr.passengers ++ [pid] }) line t hline ht
  have hstg2 : (updateTrainAt (updatePassengerRec gs pid
      (fun q => { q with currentStationId := none, currentTrainId := some tid0 }))
      li ti (fun tr => { tr with passengers := tr.passengers ++ [pid] })).stations =
      gs.stations := stations_updateTrainAt _ li ti _
  have hc3 := counts_updateStationAt
    (updateTrainAt (updatePassengerRec gs pid
      (fun q => { q with currentStationId := none, currentTrainId := some tid0 }))
      li ti (fun tr => { tr with passengers := tr.passengers ++ [pid] }))
    si (fun s => { s with passengers := s.passengers.erase pid })
    st (by rw [hstg2]; exact hst)
  intro q
  have hcntapp := count_append_pid t.passengers pid q
  by_cases hqp : q = pid
  · subst hqp
    have herase : (st.passengers.erase q).count q = st.passengers.count q - 1 :=
      List.count_erase_self q st.passengers
    have hstpos : 1 ≤ st.passengers.count q := List.count_pos_iff.mpr hmem
    constructor
    · rw [(hc3 q).1, (hc2 q).1, (hc1 q).1, hroster1]
      unfold locCount
      have h3 := (hc3 q).2.1
      simp only [herase] at h3
      have h2 := (hc2 q).2.2
      rw [hcntapp, if_pos rfl] at h2
      rw [(hc2 q).2.1, (hc1 q).2.1] at h3
      rw [(hc1 q).2.2] at h2
      rw [(hc3 q).2.2]
      have hqle : st.passengers.count q ≤ queueCount gs q :=
        le_sum_of_get? (fun s => s.passengers.count q) hst
      omega
    · rw [(hc3 q).1, (hc2 q).1, (hc1 q).1, hroster1]
  · obtain ⟨hbalq, hleq⟩ := hinv q
    have herase : (st.passengers.erase pid).count q = st.passengers.count q :=
      List.count_erase_of_ne hqp st.passengers
    constructor
    · rw [(hc3 q).1, (hc2 q).1, (hc1 q).1]
      unfold locCount
      have h3 := (hc3 q).2.1
      simp only [herase] at h3
      have h2 := (hc2 q).2.2
      rw [hcntapp, if_neg hqp] at h2
      rw [(hc2 q).2.1, (hc1 q).2.1] at h3
      rw [(hc1 q).2.2] at h2
      rw [(hc3 q).2.2]
      unfold locCount at hbalq
      omega
    · rw [(hc3 q).1, (hc2 q).1, (hc1 q).1]
      exact hleq

theorem queueHas_boardMove (gs : GameState) (si li ti : Nat) (pid tid0 q : String)
    (hne : q ≠ pid) (h : queueHas gs si q) :
    queueHas (updateStationAt (updateTrainAt (updatePassengerRec gs pid
      (fun r => { r with currentStationId := none, currentTrainId := some tid0 }))
      li ti (fun tr => { tr with passengers := tr.passengers ++ [pid] }))
      si (fun st => { st with passengers := st.passengers.erase pid })) si q := by
  obtain ⟨st, hst, hmem⟩ := h
  have hstg2 : (updateTrainAt (updatePassengerRec gs pid
      (fun r => { r with currentStationId := none, currentTrainId := some tid0 }))
      li ti (fun tr => { tr with passengers := tr.passengers ++ [pid] })).stations =
      gs.stations := stations_updateTrainAt _ li ti _
  refine ⟨{ st with passengers := st.passengers.erase pid }, ?_, ?_⟩
  · simp only [updateStationAt, hstg2, hst]
    exact get?_set_self gs.stations si st _ hst
  · exact List.mem_erase_of_ne hne |>.mpr hmem

theorem stations_length_boardMove (gs : GameState) (si li ti : Nat) (pid tid0 : String) :
    (updateStationAt (updateTrainAt (updatePassengerRec gs pid
      (fun r => { r with currentStationId := none, currentTrainId := some tid0 }))
      li ti (fun tr => { tr with passengers := tr.passengers ++ [pid] }))
      si (fun st => { st with passengers := st.passengers.erase pid })).stations.length =
      gs.stations.length := by
  rw [stations_length_updateStationAt, stations_updateTrainAt]
  rfl

theorem boardLoop_inv (si li ti : Nat) (line0 : MetroLine) (waiting : List String)
    (gs : GameState) (hinv : PassengerInv gs) (hsi : si < gs.stations.length)
    (hmem : ∀ pid ∈ waiting, queueHas gs si pid) (hnodup : waiting.Nodup) :
    PassengerInv (boardLoop si li ti line0 gs waiting) := by
  induction waiting generalizing gs with
  | nil => exact hinv
  | cons pid rest ih =>
      simp only [boardLoop]
      split
      · exact hinv
      · next train htr =>
          split_ifs with hcap
          · exact hinv
          · obtain ⟨line, hline, ht⟩ : ∃ line, gs.lines.get? li = some line ∧
                line.trains.get? ti = some train := by
              unfold trainAt? at htr
              cases hl : gs.lines.get? li with
              | none => rw [hl] at htr; exact Option.noConfusion htr
              | some l => rw [hl] at htr; exact ⟨l, rfl, htr⟩
            split
            · next hfind =>
                exact ih gs hinv hsi (fun q hq => hmem q (List.mem_cons_of_mem _ hq))
                  (List.nodup_cons.mp hnodup).2
            · next p hfind =>
                split_ifs with hshould
                · apply ih
                  · exact boardMove_inv gs si li ti pid train.id line train hinv hline ht
                      (hmem pid (List.mem_cons_self _ _))
                  · rw [stations_length_boardMove]
                    exact hsi
                  · intro q hq
                    have hne : q ≠ pid := by
                      intro hcontra
                      subst hcontra
                      exact (List.nodup_cons.mp hnodup).1 hq
                    exact queueHas_boardMove gs si li ti pid train.id q hne
                      (hmem q (List.mem_cons_of_mem _ hq))
                  · exact (List.nodup_cons.mp hnodup).2
                · exact ih gs hinv hsi (fun q hq => hmem q (List.mem_cons_of_mem _ hq))
                    (List.nodup_cons.mp hnodup).2

theorem handlePassengerBoarding_inv (gs : GameState) (si li ti : Nat)
    (hinv : PassengerInv gs) : PassengerInv (handlePassengerBoarding gs si li ti) := by
  unfold handlePassengerBoarding
  cases hst : gs.stations.get? si with
  | none => exact hinv
  | some station =>
      cases htr : trainAt? gs li ti with
      | none => exact hinv
      | some train =>
          simp only
          split
          · exact hinv
          · next line hfl =>
              obtain ⟨hsi, -⟩ := List.get?_eq_some.mp hst
              apply boardLoop_inv
              · exact hinv
              · exact hsi
              · intro pid hpid
                exact ⟨station, hst, List.mem_of_mem_filter hpid⟩
              · apply List.Nodup.filter
                rw [List.nodup_iff_count_le_one]
                intro pid
                by_cases hp : pid ∈ station.passengers
                · have h1 : station.passengers.count pid ≤ queueCount gs pid :=
                    le_sum_of_get? (fun s => s.passengers.count pid) hst
                  obtain ⟨hbal, hle⟩ := hinv pid
                  unfold locCount at hbal
                  omega
                · rw [List.count_eq_zero_of_not_mem hp]
                  omega

theorem spawnPush_inv (gs : GameState) (si : Nat) (freshId srcId target : String)
    (path : List String) (sourceStation : Station)
    (hst : gs.stations.get? si = some sourceStation)
    (hinv : PassengerInv gs) (hfreshR : rosterCount gs freshId = 0)
    (hfreshL : locCount gs freshId = 0) :
    PassengerInv (spawnPush gs si freshId srcId target path) := by
  simp only [spawnPush]
  set passenger : Passenger :=
    { createPassenger freshId srcId target gs.simulationTime with
      path := path, nextWaypointIndex := 1 } with hpass
  rw [show (createPassenger freshId srcId target gs.simulationTime).id = freshId from rfl]
  have hrosterA : ∀ q, rosterCount
      { gs with passengers := gs.passengers ++ [passenger] } q =
      rosterCount gs q + (if freshId = q then 1 else 0) := by
    intro q
    unfold rosterCount
    simp only
    rw [countP_append_singleton]
    congr 1
    simp [hpass, createPassenger]
  have hstA : ({ gs with passengers := gs.passengers ++ [passenger] } :
      GameState).stations.get? si = some sourceStation := hst
  have hc := counts_updateStationAt
    { gs with passengers := gs.passengers ++ [passenger] } si
    (fun st => { st with passengers := st.passengers ++ [freshId] })
    sourceStation hstA
  intro q
  have happ := count_append_pid sourceStation.passengers freshId q
  by_cases hqf : q = freshId
  · subst hqf
    have hq0 : queueCount gs q = 0 := by
      unfold locCount at hfreshL
      omega
    have ht0 : trainCount gs q = 0 := by
      unfold locCount at hfreshL
      omega
    constructor
    · rw [(hc q).1, hrosterA q, if_pos rfl, hfreshR]
      unfold locCount
      have h1 := (hc q).2.1
      rw [happ, if_pos rfl] at h1
      rw [(hc q).2.2]
      have h2 : queueCount { gs with passengers := gs.passengers ++ [passenger] } q
          = queueCount gs q := rfl
      have h3 : trainCount { gs with passengers := gs.passengers ++ [passenger] } q
          = trainCount gs q := rfl
      rw [h2] at h1
      rw [h3, ht0]
      omega
    · rw [(hc q).1, hrosterA q, if_pos rfl, hfreshR]
  · obtain ⟨hbalq, hleq⟩ := hinv q
    constructor
    · rw [(hc q).1, hrosterA q, if_neg (fun h => hqf h.symm)]
      unfold locCount
      have h1 := (hc q).2.1
      rw [happ, if_neg hqf] at h1
      rw [(hc q).2.2]
      have h2 : queueCount { gs with passengers := gs.passengers ++ [passenger] } q
          = queueCount gs q := rfl
      have h3 : trainCount { gs with passengers := gs.passengers ++ [passenger] } q
          = trainCount gs q := rfl
      rw [h2] at h1
      rw [h3]
      unfold locCount at hbalq
      omega
    · rw [(hc q).1, hrosterA q, if_neg (fun h => hqf h.symm)]
      omega

theorem spawnPassengerAt_inv (gs : GameState) (si : Nat) (freshId : String)
    (destWeights : String → ℝ) (totalDestWeight randomDraw : ℝ)
    (hinv : PassengerInv gs) (hfreshR : rosterCount gs freshId = 0)
    (hfreshL : locCount gs freshId = 0) :
    PassengerInv (spawnPassengerAt gs si freshId destWeights totalDestWeight randomDraw) := by
  unfold spawnPassengerAt
  cases hst : gs.stations.get? si with
  | none => exact hinv
  | some sourceStation =>
      simp only
      split_ifs with hadj htgt
      · exact hinv
      · exact hinv
      · split
        · exact hinv
        · next path hroute =>
            split_ifs with hlen
            · exact hinv
            · exact spawnPush_inv gs si freshId sourceStation.id _ path sourceStation
                hst hinv hfreshR hfreshL

/-- The passenger-moving transitions of the simulation: spawning (with a
fresh generated id), alighting (which includes journey completion), and
boarding; `move` is the combined per-stop transition of
`updatePassengerMovement`. -/
inductive PaxStep : GameState → GameState → Prop where
  | spawn (gs : GameState) (si : Nat) (freshId : String) (destWeights : String → ℝ)
      (totalDestWeight randomDraw : ℝ)
      (hfreshR : rosterCount gs freshId = 0) (hfreshL : locCount gs freshId = 0) :
      PaxStep gs (spawnPassengerAt gs si freshId destWeights totalDestWeight randomDraw)
  | alight (gs : GameState) (si li ti : Nat) :
      PaxStep gs (handlePassengerAlighting gs si li ti)
  | board (gs : GameState) (si li ti : Nat) :
      PaxStep gs (handlePassengerBoarding gs si li ti)
  | move (gs : GameState) (si li ti : Nat) :
      PaxStep gs (updatePassengerMovement gs si li ti)

theorem paxStep_inv {gs gs2 : GameState} (h : PaxStep gs gs2)
    (hinv : PassengerInv gs) : PassengerInv gs2 := by
  cases h with
  | spawn si freshId destWeights totalDestWeight randomDraw hfreshR hfreshL =>
      exact spawnPassengerAt_inv gs si freshId destWeights totalDestWeight randomDraw
        hinv hfreshR hfreshL
  | alight si li ti => exact handlePassengerAlighting_inv gs si li ti hinv
  | board si li ti => exact handlePassengerBoarding_inv gs si li ti hinv
  | move si li ti =>
      exact handlePassengerBoarding_inv _ si li ti
        (handlePassengerAlighting_inv gs si li ti hinv)

/-- C2: after any sequence of spawn, board, alight and journey-completion
transitions from a conserving state, every passenger in the flat roster is
referenced by exactly one station queue or train slot in total, appears in
the roster exactly once, and every passenger referenced from a queue or a
train is in the roster exactly once (so a completed passenger, which
leaves the roster, is referenced nowhere). -/
theorem claim_C2_passenger_conservation (gs0 gsn : GameState)
    (hinv0 : PassengerInv gs0)
    (hsteps : Relation.ReflTransGen PaxStep gs0 gsn) :
    (∀ p ∈ gsn.passengers, rosterCount gsn p.id = 1 ∧
      queueCount gsn p.id + trainCount gsn p.id = 1) ∧
    (∀ pid, 1 ≤ queueCount gsn pid + trainCount gsn pid →
      rosterCount gsn pid = 1 ∧ queueCount gsn pid + trainCount gsn pid = 1) := by
  have hinv : PassengerInv gsn := by
    induction hsteps with
    | refl => exact hinv0
    | tail h step ih => exact paxStep_inv step ih
  constructor
  · intro p hp
    have h1 : 0 < rosterCount gsn p.id := by
      unfold rosterCount
      exact List.countP_pos.mpr ⟨p, hp, by simp⟩
    obtain ⟨hbal, hle⟩ := hinv p.id
    unfold locCount at hbal
    constructor <;> omega
  · intro pid hloc
    obtain ⟨hbal, hle⟩ := hinv pid
    unfold locCount at hbal
    constructor <;> omega

/-- A minimal concrete map value used to instantiate witnesses. -/
def emptyTestMap : MapGrid :=
  { width := 48, height := 32, seed := 0, mapType := MapType.RIVER, squares := [] }

/-- A controller about to complete a two-station line. -/
def pendingLineController : ControllerState :=
  { gs :=
      { seed := 0
        map := emptyTestMap
        stations := [createStation 0 0 "A", createStation 5 0 "B"]
        lines := []
        passengers := []
        simulationTime := GAME_START_TIME_MS
        money := STARTING_MONEY
        isPaused := false
        speed := 1 }
    currentLine := some { color := some "red", stationIds := ["0000", "0500"] } }

/-- Witness for C10: completing a two-station line in a concrete state. -/
theorem claim_C10_initial_train_witness :
    (∀ l ∈ pendingLineController.gs.lines, l.id ≠ "L1") ∧
    (dispatchCompleteLine pendingLineController "L1" "T1").2.success = true ∧
    ∃ line,
      (dispatchCompleteLine pendingLineController "L1" "T1").1.gs.lines.find?
          (fun l => l.id = "L1") = some line ∧
      line.trains.length = 1 ∧
      ∀ t ∈ line.trains,
        t.currentStationIdx = 0 ∧ t.direction = 1 ∧ t.state = TrainState.MOVING :=
  have h1 : ∀ l ∈ pendingLineController.gs.lines, l.id ≠ "L1" := by
    simp [pendingLineController]
  have h2 : (dispatchCompleteLine pendingLineController "L1" "T1").2.success = true := by
    rfl
  ⟨h1, h2, (claim_C10_initial_train pendingLineController "L1" "T1" h1 h2).2⟩

/-- Witness for C3 at the freshly created controller. -/
theorem claim_C3_station_spacing_witness :
    (∀ st ∈ (freshController 0 emptyTestMap).gs.stations,
      st.id = generateStationId st.vertexX st.vertexY) ∧
    (freshController 0 emptyTestMap).gs.stations.Pairwise (fun a b =>
      ¬(a.vertexX = b.vertexX ∧ a.vertexY = b.vertexY) ∧
      2 ≤ (a.vertexX - b.vertexX).natAbs + (a.vertexY - b.vertexY).natAbs) ∧
    (∀ x y : Int,
      (∃ st ∈ (freshController 0 emptyTestMap).gs.stations,
        (st.vertexX - x).natAbs + (st.vertexY - y).natAbs ≤ 1) →
      (placeStation (freshController 0 emptyTestMap).gs x y).2.success = false) :=
  claim_C3_station_spacing (freshController 0 emptyTestMap) (Reachable.init 0 emptyTestMap)

/-- A concrete state with one passenger waiting at its source station. -/
def paxTestState : GameState :=
  { seed := 0
    map := emptyTestMap
    stations := [{ createStation 0 0 "A" with passengers := ["P1"] }]
    lines := []
    passengers := [createPassenger "P1" "0000" "0500" GAME_START_TIME_MS]
    simulationTime := GAME_START_TIME_MS
    money := STARTING_MONEY
    isPaused := false
    speed := 1 }

/-- Witness for C2 at a concrete conserving state. -/
theorem claim_C2_passenger_conservation_witness :
    PassengerInv paxTestState ∧
    ((∀ p ∈ paxTestState.passengers, rosterCount paxTestState p.id = 1 ∧
        queueCount paxTestState p.id + trainCount paxTestState p.id = 1) ∧
      (∀ pid, 1 ≤ queueCount paxTestState pid + trainCount paxTestState pid →
        rosterCount paxTestState pid = 1 ∧
        queueCount paxTestState pid + trainCount paxTestState pid = 1)) :=
  have hinv : PassengerInv paxTestState := by
    intro pid
    by_cases h : ("P1" : String) = pid
    · simp [paxTestState, rosterCount, locCount, queueCount, trainCount,
        createPassenger, createStation, h]
    · simp [paxTestState, rosterCount, locCount, queueCount, trainCount,
        createPassenger, createStation, h, List.count_cons, List.count_nil,
        Ne.symm h]
  ⟨hinv, claim_C2_passenger_conservation paxTestState paxTestState hinv
    Relation.ReflTransGen.refl⟩

/-! ## C6: the boarding rule -/

theorem find?_first_iff {α : Type} (p : α → Bool) (l : List α) (a : α) :
    l.find? p = some a ↔
      ∃ i, l.get? i = some a ∧ p a = true ∧
        ∀ j, j < i → ∀ b, l.get? j = some b → p b = false := by
  induction l with
  | nil => simp
  | cons c tl ih =>
      by_cases hc : p c = true
      · rw [List.find?_cons_of_pos _ hc]
        constructor
        · intro h
          injection h with h1
          subst h1
          exact ⟨0, rfl, hc, fun j hj => absurd hj (Nat.not_lt_zero j)⟩
        · rintro ⟨i, hget, hpa, hfirst⟩
          cases i with
          | zero =>
              simp only [List.get?_cons_zero] at hget
              exact hget
          | succ i =>
              have hzero := hfirst 0 (Nat.succ_pos i) c rfl
              rw [hc] at hzero
              cases hzero
      · have hcf : p c = false := by
          cases h : p c
          · rfl
          · exact absurd h hc
        rw [List.find?_cons_of_neg _ (by simp [hcf])]
        rw [ih]
        constructor
        · rintro ⟨i, hget, hpa, hfirst⟩
          refine ⟨i + 1, hget, hpa, ?_⟩
          intro j hj b hb
          cases j with
          | zero =>
              simp only [List.get?_cons_zero] at hb
              injection hb with h1
              subst h1
              exact hcf
          | succ j => exact hfirst j (Nat.lt_of_succ_lt_succ hj) b hb
        · rintro ⟨i, hget, hpa, hfirst⟩
          cases i with
          | zero =>
              simp only [List.get?_cons_zero] at hget
              injection hget with h1
              subst h1
              rw [hcf] at hpa
              cases hpa
          | succ i =>
              refine ⟨i, hget, hpa, ?_⟩
              intro j hj b hb
              exact hfirst (j + 1) (Nat.succ_lt_succ hj) b hb

/-- The "first line connecting the stations" characterization of
`getLineConnectingStations`. -/
theorem getLineConnectingStations_first (cur next lid : String)
    (lines : List MetroLine) :
    getLineConnectingStations cur next lines = some lid ↔
      ∃ i l, lines.get? i = some l ∧ l.id = lid ∧
        l.stationIds.contains cur = true ∧ l.stationIds.contains next = true ∧
        ∀ j, j < i → ∀ l2, lines.get? j = some l2 →
          ¬(l2.stationIds.contains cur = true ∧ l2.stationIds.contains next = true) := by
  unfold getLineConnectingStations
  rw [Option.map_eq_some']
  constructor
  · rintro ⟨l, hfind, hid⟩
    rw [find?_first_iff] at hfind
    obtain ⟨i, hget, hpa, hfirst⟩ := hfind
    rw [Bool.and_eq_true] at hpa
    refine ⟨i, l, hget, hid, hpa.1, hpa.2, ?_⟩
    intro j hj l2 hl2 hcontr
    have hfalse := hfirst j hj l2 hl2
    rw [hcontr.1, hcontr.2] at hfalse
    cases hfalse
  · rintro ⟨i, l, hget, hid, hcur, hnext, hfirst⟩
    refine ⟨l, ?_, hid⟩
    rw [find?_first_iff]
    refine ⟨i, hget, by rw [Bool.and_eq_true]; exact ⟨hcur, hnext⟩, ?_⟩
    intro j hj b hb
    have hnb := hfirst j hj b hb
    cases h1 : b.stationIds.contains cur
    · simp [h1]
    · cases h2 : b.stationIds.contains next
      · simp [h1, h2]
      · exact absurd ⟨h1, h2⟩ hnb

/-- C6 (corrected): a waiting passenger boards iff the train's line is the
FIRST line in `gameState.lines` containing both the passenger's current
station and next waypoint (not merely a line containing both) and the train
is heading toward the waypoint; a train at or above capacity boards nobody
(the boarding loop stops entirely). -/
theorem claim_C6_boarding_rule (p : Passenger) (train : Train) (line : MetroLine)
    (gs : GameState) :
    (shouldPassengerBoard p train line gs = true ↔
      ∃ cur next, p.currentStationId = some cur ∧
        p.path.get? p.nextWaypointIndex = some next ∧
        isTrainHeadingTowards train next line = true ∧
        ∃ i l, gs.lines.get? i = some l ∧ l.id = line.id ∧
          l.stationIds.contains cur = true ∧ l.stationIds.contains next = true ∧
          ∀ j, j < i → ∀ l2, gs.lines.get? j = some l2 →
            ¬(l2.stationIds.contains cur = true ∧
              l2.stationIds.contains next = true)) ∧
    (∀ si li ti waiting, trainAt? gs li ti = some train →
      TRAIN_MAX_CAPACITY ≤ train.passengers.length →
      boardLoop si li ti line gs waiting = gs) := by
  constructor
  · cases hnext : p.path.get? p.nextWaypointIndex with
    | none =>
        simp only [shouldPassengerBoard, hnext]
        constructor
        · intro h; cases h
        · rintro ⟨cur, next, hcur, hn, _⟩
          cases hn
    | some next =>
        cases hcur : p.currentStationId with
        | none =>
            simp only [shouldPassengerBoard, hnext, hcur]
            constructor
            · intro h; cases h
            · rintro ⟨cur, next2, hc, _⟩
              cases hc
        | some cur =>
            simp only [shouldPassengerBoard, hnext, hcur]
            by_cases hline : getLineConnectingStations cur next gs.lines = some line.id
            · rw [if_pos hline]
              rw [getLineConnectingStations_first] at hline
              constructor
              · intro hhead
                exact ⟨cur, next, rfl, rfl, hhead, hline⟩
              · rintro ⟨cur2, next2, hc2, hn2, hhead2, _⟩
                injection hc2 with hc2
                injection hn2 with hn2
                subst hc2
                subst hn2
                exact hhead2
            · rw [if_neg hline]
              constructor
              · intro h; cases h
              · rintro ⟨cur2, next2, hc2, hn2, hhead2, hex⟩
                injection hc2 with hc2
                injection hn2 with hn2
                subst hc2
                subst hn2
                exact absurd ((getLineConnectingStations_first cur next line.id
                  gs.lines).mpr hex) hline
  · intro si li ti waiting htr hcap
    cases waiting with
    | nil => rfl
    | cons pid rest =>
        simp only [boardLoop, htr]
        rw [if_pos hcap]

/-- A train already on its line, heading from index 0 toward index 1. -/
def boardTestTrain : Train :=
  { id := "T1", lineId := "LA", state := TrainState.STOPPED, dwellRemaining := 0
    currentStationIdx := 0, targetStationIdx := 1, progress := 0, direction := 1
    currentSegment := none, totalLength := 0, passengers := []
    capacity := TRAIN_MAX_CAPACITY }

def boardTestLine : MetroLine :=
  { id := "LA", color := "red", stationIds := ["0000", "0500"], isLoop := false
    trains := [boardTestTrain] }

def boardTestPax : Passenger :=
  { id := "P1", sourceStationId := "0000", destinationStationId := "0500"
    spawnTime := 0, path := ["0000", "0500"], nextWaypointIndex := 1
    currentStationId := some "0000", currentTrainId := none }

def boardTestState : GameState :=
  { seed := 0
    map := emptyTestMap
    stations := [{ createStation 0 0 "A" with passengers := ["P1"] },
      createStation 5 0 "B"]
    lines := [boardTestLine]
    passengers := [boardTestPax]
    simulationTime := 0
    money := 0
    isPaused := false
    speed := 1 }

def fullTrain : Train :=
  { id := "T9", lineId := "LA", state := TrainState.STOPPED, dwellRemaining := 0
    currentStationIdx := 0, targetStationIdx := 1, progress := 0, direction := 1
    currentSegment := none, totalLength := 0
    passengers := List.replicate TRAIN_MAX_CAPACITY "Q"
    capacity := TRAIN_MAX_CAPACITY }

def fullTrainState : GameState :=
  { boardTestState with lines := [{ boardTestLine with trains := [fullTrain] }] }

/-- Witness for C6: the characterization applied at a one-line state, and
the capacity cutoff applied at a full train. -/
theorem claim_C6_boarding_rule_witness :
    (∃ cur next, boardTestPax.currentStationId = some cur ∧
      boardTestPax.path.get? boardTestPax.nextWaypointIndex = some next ∧
      isTrainHeadingTowards boardTestTrain next boardTestLine = true ∧
      ∃ i l, boardTestState.lines.get? i = some l ∧ l.id = boardTestLine.id ∧
        l.stationIds.contains cur = true ∧ l.stationIds.contains next = true ∧
        ∀ j, j < i → ∀ l2, boardTestState.lines.get? j = some l2 →
          ¬(l2.stationIds.contains cur = true ∧
            l2.stationIds.contains next = true)) ∧
    boardLoop 0 0 0 boardTestLine fullTrainState ["P1"] = fullTrainState :=
  ⟨(claim_C6_boarding_rule boardTestPax boardTestTrain boardTestLine
      boardTestState).1.mp (by rfl),
   (claim_C6_boarding_rule boardTestPax fullTrain boardTestLine
      fullTrainState).2 0 0 0 ["P1"] (by rfl) (by decide)⟩

/-- A first line connecting the two stations, carrying no train. -/
def cexLineFirst : MetroLine :=
  { id := "LA", color := "red", stationIds := ["0000", "0500"], isLoop := false
    trains := [] }

/-- The train of the counterexample rides the SECOND line. -/
def cexTrain : Train :=
  { id := "T2", lineId := "LB", state := TrainState.STOPPED, dwellRemaining := 0
    currentStationIdx := 0, targetStationIdx := 1, progress := 0, direction := 1
    currentSegment := none, totalLength := 0, passengers := []
    capacity := TRAIN_MAX_CAPACITY }

def cexLineSecond : MetroLine :=
  { id := "LB", color := "blue", stationIds := ["0000", "0500"], isLoop := false
    trains := [cexTrain] }

def cexPax : Passenger :=
  { id := "P2", sourceStationId := "0000", destinationStationId := "0500"
    spawnTime := 0, path := ["0000", "0500"], nextWaypointIndex := 1
    currentStationId := some "0000", currentTrainId := none }

def twoLineState : GameState :=
  { seed := 0
    map := emptyTestMap
    stations := [{ createStation 0 0 "A" with passengers := ["P2"] },
      createStation 5 0 "B"]
    lines := [cexLineFirst, cexLineSecond]
    passengers := [cexPax]
    simulationTime := 0
    money := 0
    isPaused := false
    speed := 1 }

/-- Counterexample to C6 as stated: the train's own line contains both the
passenger's station and next waypoint, the train heads toward the waypoint
with spare capacity, the passenger is waiting — yet no boarding happens,
because another line earlier in the list also connects the two stations. -/
theorem claim_C6_counterexample :
    cexLineSecond.stationIds.contains "0000" = true ∧
    cexLineSecond.stationIds.contains "0500" = true ∧
    isTrainHeadingTowards cexTrain "0500" cexLineSecond = true ∧
    cexTrain.passengers.length < TRAIN_MAX_CAPACITY ∧
    cexPax.currentStationId = some "0000" ∧
    cexPax.path.get? cexPax.nextWaypointIndex = some "0500" ∧
    cexPax.currentTrainId = none ∧
    (∃ st, twoLineState.stations.get? 0 = some st ∧
      st.passengers = ["P2"] ∧ st.id = "0000") ∧
    twoLineState.lines.get? 1 = some cexLineSecond ∧
    trainAt? twoLineState 1 0 = some cexTrain ∧
    shouldPassengerBoard cexPax cexTrain cexLineSecond twoLineState = false ∧
    handlePassengerBoarding twoLineState 0 1 0 = twoLineState :=
  ⟨rfl, rfl, rfl, by decide, rfl, rfl, rfl, ⟨_, rfl, rfl, rfl⟩, rfl, rfl, rfl, rfl⟩

/-! ## C5: the main tick (GameController.update and updateTrains)

`calculateSegmentPath` ignores its previous-angle argument (it is unused in
the source as well), so `updateTrainPath` passes `none` for it and the
snap-angle lookup of the station after the segment has no observable
effect.  `Math.random()` draws, generated passenger ids and the
catchment-derived weight table of the spawn phase are oracle parameters. -/

/-- `updateTrainPath` (TrainMovement.ts): recompute the train's cached
segment and its length, in the canonical (increasing-index) direction,
reversing the waypoints for a backward-moving train. -/
noncomputable def updateTrainPath (gs : GameState) (li ti : Nat) : GameState :=
  match gs.lines.get? li, trainAt? gs li ti with
  | some line, some train =>
      let idxA := train.currentStationIdx
      let idxB := train.targetStationIdx
      let fromId? := if 0 ≤ idxA then line.stationIds.get? idxA.toNat else none
      let toId? := if 0 ≤ idxB then line.stationIds.get? idxB.toNat else none
      match fromId?, toId? with
      | some fromId, some toId =>
          match gs.stations.find? (fun s => s.id = fromId),
              gs.stations.find? (fun s => s.id = toId) with
          | some stationA, some stationB =>
              if stationA.id = stationB.id then
                let wp : Waypoint :=
                  { x := stationA.vertexX
                    y := stationA.vertexY
                    type := WaypointType.STATION
                    incomingAngle := none
                    outgoingAngle := none }
                let seg : LineSegment :=
                  { fromStation := stationA
                    toStation := stationB
                    entryAngle := Direction.EAST
                    exitAngle := Direction.EAST
                    waypoints := [wp] }
                updateTrainAt gs li ti (fun t =>
                  { t with currentSegment := some seg, totalLength := 0 })
              else
                let canonicalFrom := if idxA ≤ idxB then stationA else stationB
                let canonicalTo := if idxA ≤ idxB then stationB else stationA
                let segment := calculateSegmentPath canonicalFrom canonicalTo none
                let segment :=
                  if idxB < idxA then
                    { segment with waypoints := segment.waypoints.reverse }
                  else segment
                updateTrainAt gs li ti (fun t =>
                  { t with currentSegment := some segment
                           totalLength := calculateSegmentLength segment })
          | _, _ => gs
      | _, _ => gs
  | _, _ => gs

/-- The arrival block of `updateTrains`: snap to the target station, switch
to STOPPED with a fresh dwell budget, choose the next target and direction
BEFORE passenger movement, then run passenger movement at the arrival
station and refresh the cached path. -/
noncomputable def arrivalStep (gs : GameState) (li ti : Nat) : GameState :=
  match gs.lines.get? li, trainAt? gs li ti with
  | some line, some train =>
      let cur := train.targetStationIdx
      let dirTarget := determineNextTarget line.isLoop (line.stationIds.length : Int)
        cur train.direction
      let gs := updateTrainAt gs li ti (fun t =>
        { t with currentStationIdx := cur, progress := 0
                 state := TrainState.STOPPED
                 dwellRemaining := TRAIN_STOP_DURATION_SQUARES
                 direction := dirTarget.1, targetStationIdx := dirTarget.2 })
      let stationId? := if 0 ≤ cur then line.stationIds.get? cur.toNat else none
      match stationId? with
      | none => updateTrainPath gs li ti
      | some sid =>
          match gs.stations.findIdx? (fun s => s.id = sid) with
          | none => updateTrainPath gs li ti
          | some si => updateTrainPath (updatePassengerMovement gs si li ti) li ti
  | _, _ => gs

open Classical in
/-- The MOVING block of `updateTrains`: acceleration and deceleration
ramps, the running-cost deduction, the progress increment, and the arrival
check. -/
noncomputable def movingStep (deltaSeconds : ℝ) (gs : GameState) (li ti : Nat) :
    GameState :=
  match trainAt? gs li ti with
  | none => gs
  | some train =>
      if train.state = TrainState.MOVING then
        let distTotal := train.totalLength
        let distCovered := train.progress * distTotal
        let distRemaining := distTotal - distCovered
        let speedFactor : ℝ := 1
        let speedFactor := if distCovered < TRAIN_ACCEL_DECEL_DISTANCE then
            min speedFactor (max 0.1 (distCovered / TRAIN_ACCEL_DECEL_DISTANCE))
          else speedFactor
        let speedFactor := if distRemaining < TRAIN_ACCEL_DECEL_DISTANCE then
            min speedFactor (max 0.1 (distRemaining / TRAIN_ACCEL_DECEL_DISTANCE))
          else speedFactor
        let moveDist := TRAIN_DEFAULT_SPEED * speedFactor * deltaSeconds
        let gs := deductTrainRunningCost gs moveDist
        let progressIncrement :=
          if 0 < train.totalLength then moveDist / train.totalLength else 1
        let newProgress := train.progress + progressIncrement
        let gs := updateTrainAt gs li ti (fun t => { t with progress := newProgress })
        if 1 ≤ newProgress then arrivalStep gs li ti else gs
      else gs

open Classical in
/-- The per-train body of `updateTrains`: the missing-segment repair, the
STOPPED dwell countdown with fall-through into MOVING, then the MOVING
block.  (The `!train.state` migration guard of the source is always false
for states of this model, whose trains always carry a state.) -/
noncomputable def updateOneTrain (deltaSeconds : ℝ) (gs : GameState) (li ti : Nat) :
    GameState :=
  match trainAt? gs li ti with
  | none => gs
  | some train0 =>
      let gs :=
        match train0.currentSegment with
        | none => updateTrainPath gs li ti
        | some _ => gs
      match trainAt? gs li ti with
      | none => gs
      | some train =>
          match train.currentSegment with
          | none => gs
          | some _ =>
              if train.state = TrainState.STOPPED then
                if train.dwellRemaining - TRAIN_DEFAULT_SPEED * deltaSeconds ≤ 0 then
                  movingStep deltaSeconds
                    (updateTrainAt gs li ti (fun t =>
                      { t with state := TrainState.MOVING, dwellRemaining := 0 })) li ti
                else
                  updateTrainAt gs li ti (fun t =>
                    { t with dwellRemaining :=
                        t.dwellRemaining - TRAIN_DEFAULT_SPEED * deltaSeconds })
              else movingStep deltaSeconds gs li ti

/-- `updateTrains` (TrainMovement.ts): every line in order, every train of
the line in order. -/
noncomputable def updateTrains (deltaSeconds : ℝ) (gs : GameState) : GameState :=
  (List.range gs.lines.length).foldl (fun g li =>
    let n := match g.lines.get? li with | some l => l.trains.length | none => 0
    (List.range n).foldl (fun g2 ti => updateOneTrain deltaSeconds g2 li ti) g) gs

/-- `updatePassengerSpawning` (MapGrid.ts): the per-station spawn loop.
The destination-weight table is precomputed before the loop, so the same
`destWeights` and `totalDestWeight` are used at every station; the
per-station `Math.random() < spawnChance` check is the `spawnAt` oracle. -/
noncomputable def updatePassengerSpawning (gs : GameState) (spawnAt : Nat → Bool)
    (freshIds : Nat → String) (destWeights : String → ℝ) (totalDestWeight : ℝ)
    (draws : Nat → ℝ) : GameState :=
  (List.range gs.stations.length).foldl (fun g si =>
    if spawnAt si then
      spawnPassengerAt g si (freshIds si) destWeights totalDestWeight (draws si)
    else g) gs

/-- `GameController.update` (GameController.ts): the paused early return,
the clock advance, then the spawn phase, then the train phase. -/
noncomputable def update (gs : GameState) (deltaMs : ℝ) (spawnAt : Nat → Bool)
    (freshIds : Nat → String) (destWeights : String → ℝ) (totalDestWeight : ℝ)
    (draws : Nat → ℝ) : GameState :=
  if gs.isPaused then gs
  else
    let deltaSeconds := deltaMs * gs.speed / 1000
    let gameTimeDelta := deltaSeconds * 1000
    let gs1 := { gs with simulationTime := gs.simulationTime + gameTimeDelta }
    updateTrains deltaSeconds
      (updatePassengerSpawning gs1 spawnAt freshIds destWeights totalDestWeight draws)

theorem simulationTime_updateStationAt (gs : GameState) (si : Nat)
    (f : Station → Station) :
    (updateStationAt gs si f).simulationTime = gs.simulationTime := by
  unfold updateStationAt
  split <;> rfl

theorem simulationTime_spawnPassengerAt (gs : GameState) (si : Nat) (freshId : String)
    (destWeights : String → ℝ) (totalDestWeight randomDraw : ℝ) :
    (spawnPassengerAt gs si freshId destWeights totalDestWeight
      randomDraw).simulationTime = gs.simulationTime := by
  unfold spawnPassengerAt
  split
  · rfl
  · split_ifs with h1 h2
    · rfl
    · rfl
    · split
      · rfl
      · split_ifs with h3
        · rfl
        · simp only [spawnPush]
          rw [simulationTime_updateStationAt]

theorem simulationTime_spawnFold (spawnAt : Nat → Bool) (freshIds : Nat → String)
    (destWeights : String → ℝ) (totalDestWeight : ℝ) (draws : Nat → ℝ)
    (l : List Nat) (gs : GameState) :
    (l.foldl (fun g si =>
      if spawnAt si then
        spawnPassengerAt g si (freshIds si) destWeights totalDestWeight (draws si)
      else g) gs).simulationTime = gs.simulationTime := by
  induction l generalizing gs with
  | nil => rfl
  | cons si rest ih =>
      simp only [List.foldl_cons]
      rw [ih]
      split_ifs with h
      · rw [simulationTime_spawnPassengerAt]
      · rfl

theorem simulationTime_updatePassengerSpawning (gs : GameState) (spawnAt : Nat → Bool)
    (freshIds : Nat → String) (destWeights : String → ℝ) (totalDestWeight : ℝ)
    (draws : Nat → ℝ) :
    (updatePassengerSpawning gs spawnAt freshIds destWeights totalDestWeight
      draws).simulationTime = gs.simulationTime := by
  unfold updatePassengerSpawning
  exact simulationTime_spawnFold spawnAt freshIds destWeights totalDestWeight draws _ gs

/-- C5: in an unpaused tick the whole spawn phase runs first, on the
clock-advanced state, and the train phase then runs on the spawn phase's
output (so every passenger spawned this tick is visible to movement, and
the spawn phase never sees a moved train); a paused tick changes nothing;
and at each station stop, passenger movement is alighting first and
boarding second, the boarding phase starting from the alighting phase's
output state. -/
theorem claim_C5_tick_ordering (gs : GameState) (deltaMs : ℝ) (spawnAt : Nat → Bool)
    (freshIds : Nat → String) (destWeights : String → ℝ) (totalDestWeight : ℝ)
    (draws : Nat → ℝ) :
    (gs.isPaused = false →
      ∃ mid,
        mid = updatePassengerSpawning
          { gs with simulationTime :=
              gs.simulationTime + deltaMs * gs.speed / 1000 * 1000 }
          spawnAt freshIds destWeights totalDestWeight draws ∧
        update gs deltaMs spawnAt freshIds destWeights totalDestWeight draws =
          updateTrains (deltaMs * gs.speed / 1000) mid ∧
        mid.simulationTime = gs.simulationTime + deltaMs * gs.speed / 1000 * 1000) ∧
    (gs.isPaused = true →
      update gs deltaMs spawnAt freshIds destWeights totalDestWeight draws = gs) ∧
    (∀ g si li ti, updatePassengerMovement g si li ti =
      handlePassengerBoarding (handlePassengerAlighting g si li ti) si li ti) := by
  refine ⟨?_, ?_, fun g si li ti => rfl⟩
  · intro hp
    refine ⟨_, rfl, ?_, ?_⟩
    · simp [update, hp]
    · rw [simulationTime_updatePassengerSpawning]
  · intro hp
    simp [update, hp]

/-- Witness for C5: one unpaused tick at a concrete state with no
spawning oracle firing. -/
theorem claim_C5_tick_ordering_witness :
    ∃ mid,
      mid = updatePassengerSpawning
        { paxTestState with simulationTime :=
            paxTestState.simulationTime + 16 * paxTestState.speed / 1000 * 1000 }
        (fun _ => false) (fun _ => "") (fun _ => 0) 0 (fun _ => 0) ∧
      update paxTestState 16 (fun _ => false) (fun _ => "") (fun _ => 0) 0
          (fun _ => 0) =
        updateTrains (16 * paxTestState.speed / 1000) mid ∧
      mid.simulationTime =
        paxTestState.simulationTime + 16 * paxTestState.speed / 1000 * 1000 :=
  (claim_C5_tick_ordering paxTestState 16 (fun _ => false) (fun _ => "") (fun _ => 0)
    0 (fun _ => 0)).1 rfl

/-! ## C7: BFS route finding

`hasEdge`, `chainOk` and `pathSpec` describe walks over the adjacency
structure that `buildGraph` builds; `specAdjacent` is the claim's own
description of the edge set (consecutive station pairs of every line plus
the loop wrap-around pair), stated independently of `buildGraph` so the
two can be compared. -/

/-- The graph has a recorded edge from `u` to `v`. -/
def hasEdge (graph : List (String × GraphNode)) (u v : String) : Bool :=
  match assocGet graph u with
  | none => false
  | some node => node.connections.any (fun e => e.1 = v)

/-- Every consecutive pair of the list is a recorded edge. -/
def chainOk (graph : List (String × GraphNode)) : List String → Bool
  | u :: v :: rest => hasEdge graph u v && chainOk graph (v :: rest)
  | _ => true

/-- An ordered station-id walk from `a` to `b` (both endpoints included). -/
def pathSpec (graph : List (String × GraphNode)) (a b : String)
    (q : List String) : Prop :=
  q.head? = some a ∧ q.getLast? = some b ∧ chainOk graph q = true

/-- The claim's edge set: both endpoints are stations, and some line has
them as a consecutive pair (in either order), or as the wrap-around pair
(last, first) of a loop line of more than two stops. -/
def specAdjacent (stations : List Station) (lines : List MetroLine)
    (u v : String) : Prop :=
  (∃ st ∈ stations, st.id = u) ∧ (∃ st ∈ stations, st.id = v) ∧
  ∃ line ∈ lines,
    ((∃ i, line.stationIds.get? i = some u ∧ line.stationIds.get? (i + 1) = some v) ∨
     (∃ i, line.stationIds.get? i = some v ∧ line.stationIds.get? (i + 1) = some u) ∨
     (line.isLoop = true ∧ 2 < line.stationIds.length ∧
       ((line.stationIds.get? (line.stationIds.length - 1) = some u ∧
           line.stationIds.get? 0 = some v) ∨
        (line.stationIds.get? (line.stationIds.length - 1) = some v ∧
           line.stationIds.get? 0 = some u))))

theorem chainOk_cons {graph : List (String × GraphNode)} {u v : String}
    {rest : List String} :
    chainOk graph (u :: v :: rest) = true ↔
      hasEdge graph u v = true ∧ chainOk graph (v :: rest) = true := by
  simp [chainOk]

theorem chainOk_take (graph : List (String × GraphNode)) :
    ∀ (q : List String) (n : Nat), chainOk graph q = true →
      chainOk graph (q.take n) = true := by
  intro q
  induction q with
  | nil => intro n _; simp [chainOk]
  | cons u rest ih =>
      intro n h
      cases rest with
      | nil =>
          cases n with
          | zero => rfl
          | succ n => cases n <;> rfl
      | cons v rest2 =>
          cases n with
          | zero => rfl
          | succ n =>
              cases n with
              | zero => rfl
              | succ n =>
                  rw [chainOk_cons] at h
                  have := ih (n + 1) h.2
                  simp only [List.take_succ_cons] at this ⊢
                  rw [chainOk_cons]
                  exact ⟨h.1, this⟩

theorem chainOk_get_adj (graph : List (String × GraphNode)) :
    ∀ (q : List String) (t : Nat) (u v : String), chainOk graph q = true →
      q.get? t = some u → q.get? (t + 1) = some v → hasEdge graph u v = true := by
  intro q
  induction q with
  | nil => intro t u v _ h; simp at h
  | cons a rest ih =>
      intro t u v hchain hu hv
      cases rest with
      | nil =>
          cases t with
          | zero => simp at hv
          | succ t => simp at hu
      | cons b rest2 =>
          rw [chainOk_cons] at hchain
          cases t with
          | zero =>
              simp only [List.get?_cons_zero] at hu
              simp only [List.get?_cons_succ, List.get?_cons_zero] at hv
              injection hu with hu
              injection hv with hv
              subst hu; subst hv
              exact hchain.1
          | succ t =>
              simp only [List.get?_cons_succ] at hu hv
              exact ih t u v hchain.2 hu hv

theorem chainOk_append_singleton (graph : List (String × GraphNode)) :
    ∀ (q : List String) (s w : String), chainOk graph q = true →
      q.getLast? = some s → hasEdge graph s w = true →
      chainOk graph (q ++ [w]) = true := by
  intro q
  induction q with
  | nil => intro s w _ h; simp at h
  | cons a rest ih =>
      intro s w hchain hlast hedge
      cases rest with
      | nil =>
          simp only [List.getLast?_singleton] at hlast
          injection hlast with hlast
          subst hlast
          simp only [List.singleton_append]
          rw [chainOk_cons]
          exact ⟨hedge, rfl⟩
      | cons b rest2 =>
          rw [chainOk_cons] at hchain
          have hlast2 : (b :: rest2).getLast? = some s := by
            rw [List.getLast?_cons_cons] at hlast
            exact hlast
          have := ih s w hchain.2 hlast2 hedge
          simp only [List.cons_append]
          rw [chainOk_cons]
          exact ⟨hchain.1, this⟩

theorem getLast?_take_of_get? (q : List String) (t : Nat) (u : String)
    (h : q.get? t = some u) : (q.take (t + 1)).getLast? = some u := by
  induction q generalizing t with
  | nil => simp at h
  | cons a rest ih =>
      cases t with
      | zero =>
          simp only [List.get?_cons_zero] at h
          injection h with h
          subst h
          cases rest <;> simp
      | succ t =>
          simp only [List.get?_cons_succ] at h
          have := ih t h
          have hne : rest.take (t + 1) ≠ [] := by
            intro hnil
            rw [hnil] at this
            simp at this
          simp only [List.take_succ_cons]
          obtain ⟨b, l2, hbl⟩ : ∃ b l2, rest.take (t + 1) = b :: l2 := by
            cases htk : rest.take (t + 1) with
            | nil => exact absurd htk hne
            | cons b l2 => exact ⟨b, l2, rfl⟩
          rw [hbl] at this ⊢
          rw [List.getLast?_cons_cons]
          exact this

theorem pathSpec_prefix (graph : List (String × GraphNode)) (a b : String)
    (q : List String) (t : Nat) (u : String) (hq : pathSpec graph a b q)
    (hu : q.get? t = some u) :
    pathSpec graph a u (q.take (t + 1)) ∧ (q.take (t + 1)).length = t + 1 := by
  obtain ⟨hhead, hlast, hchain⟩ := hq
  have ht : t < q.length := by
    by_contra hge
    rw [List.get?_eq_none.mpr (Nat.le_of_not_lt hge)] at hu
    exact Option.noConfusion hu
  refine ⟨⟨?_, getLast?_take_of_get? q t u hu, chainOk_take graph q (t + 1) hchain⟩, ?_⟩
  · cases q with
    | nil => simp at hhead
    | cons c rest => simpa using hhead
  · rw [List.length_take]
    omega

theorem assocGet_isSome_iff (g : List (String × GraphNode)) (u : String) :
    (assocGet g u).isSome = true ↔ u ∈ g.map Prod.fst := by
  unfold assocGet
  induction g with
  | nil => simp
  | cons kv rest ih =>
      by_cases h : kv.1 = u
      · rw [List.find?_cons_of_pos _ (by simp [h])]
        simp [h]
      · rw [List.find?_cons_of_neg _ (by simp [h])]
        simp only [List.map_cons, List.mem_cons]
        rw [ih]
        constructor
        · exact Or.inr
        · rintro (he | he)
          · exact absurd he.symm h
          · exact he

theorem keys_pushEdge (g : List (String × GraphNode)) (k : String)
    (e : String × String) : (pushEdge g k e).map Prod.fst = g.map Prod.fst := by
  unfold pushEdge
  rw [List.map_map]
  apply List.map_congr_left
  intro kv _
  by_cases h : kv.1 = k <;> simp [h, Function.comp]

theorem find?_map_fst_preserving (f : String × GraphNode → String × GraphNode)
    (hf : ∀ kv, (f kv).1 = kv.1) (g : List (String × GraphNode)) (u : String) :
    (g.map f).find? (fun kv => kv.1 = u) =
      (g.find? (fun kv => kv.1 = u)).map f := by
  induction g with
  | nil => rfl
  | cons kv rest ih =>
      simp only [List.map_cons]
      by_cases hku : kv.1 = u
      · rw [List.find?_cons_of_pos _ (by simp [hf kv, hku]),
            List.find?_cons_of_pos _ (by simp [hku])]
        rfl
      · rw [List.find?_cons_of_neg _ (by simp [hf kv, hku]),
            List.find?_cons_of_neg _ (by simp [hku])]
        exact ih

theorem assocGet_pushEdge (g : List (String × GraphNode)) (k : String)
    (e : String × String) (u : String) :
    assocGet (pushEdge g k e) u =
      (assocGet g u).map (fun node =>
        if u = k then { node with connections := node.connections ++ [e] }
        else node) := by
  unfold assocGet pushEdge
  rw [find?_map_fst_preserving _ (fun kv => by by_cases h : kv.1 = k <;> simp [h]) g u]
  cases hfind : g.find? (fun kv => kv.1 = u) with
  | none => rfl
  | some kv =>
      have hku : kv.1 = u := by simpa using List.find?_some hfind
      by_cases huk : u = k
      · have h1 : kv.1 = k := by rw [hku, huk]
        simp [h1, huk]
      · have h1 : ¬kv.1 = k := by rw [hku]; exact huk
        simp [h1, huk]

theorem hasEdge_pushEdge (g : List (String × GraphNode)) (k : String)
    (e : String × String) (u v : String) :
    hasEdge (pushEdge g k e) u v = true ↔
      hasEdge g u v = true ∨
        (u = k ∧ e.1 = v ∧ (assocGet g u).isSome = true) := by
  unfold hasEdge
  rw [assocGet_pushEdge]
  cases h : assocGet g u with
  | none => simp
  | some node =>
      by_cases huk : u = k
      · simp [huk, List.any_append]
      · simp [huk]

theorem assocGet_assocSet (g : List (String × GraphNode)) (k : String)
    (node : GraphNode) (u : String) :
    assocGet (assocSet g k node) u = if u = k then some node else assocGet g u := by
  unfold assocSet
  by_cases hany : (g.any (fun kv => kv.1 = k)) = true
  · rw [if_pos hany]
    unfold assocGet
    have hpres : ∀ kv : String × GraphNode,
        ((fun kv => if kv.1 = k then (k, node) else kv) kv).1 = kv.1 := by
      intro kv
      by_cases h : kv.1 = k
      · simp [h]
      · simp [h]
    rw [find?_map_fst_preserving _ hpres g u]
    by_cases huk : u = k
    · rw [if_pos huk]
      cases hfind : g.find? (fun kv => kv.1 = u) with
      | none =>
          exfalso
          rw [List.any_eq_true] at hany
          obtain ⟨kv, hkv, hk⟩ := hany
          rw [List.find?_eq_none] at hfind
          have := hfind kv hkv
          simp only [decide_eq_true_eq] at hk
          simp only [decide_eq_true_eq] at this
          exact this (by rw [hk, huk])
      | some kv =>
          have hku : kv.1 = u := by simpa using List.find?_some hfind
          have h1 : kv.1 = k := by rw [hku, huk]
          simp [h1]
    · rw [if_neg huk]
      cases hfind : g.find? (fun kv => kv.1 = u) with
      | none => rfl
      | some kv =>
          have hku : kv.1 = u := by simpa using List.find?_some hfind
          have h1 : ¬kv.1 = k := by rw [hku]; exact huk
          simp [h1]
  · rw [if_neg hany]
    unfold assocGet
    by_cases huk : u = k
    · rw [if_pos huk]
      have hnotk : ∀ kv ∈ g, (fun kv => decide (kv.1 = u)) kv = false := by
        intro kv hkv
        simp only [decide_eq_false_iff_not]
        intro hk1
        apply hany
        rw [List.any_eq_true]
        exact ⟨kv, hkv, by simp [hk1, huk]⟩
      rw [find?_append_singleton _ g (k, node) hnotk (by simp [huk])]
      rfl
    · rw [if_neg huk]
      cases hfind : g.find? (fun kv => kv.1 = u) with
      | some kv =>
          rw [List.find?_append, hfind]
          rfl
      | none =>
          rw [List.find?_append, hfind]
          simp only [Option.or]
          have hknotu : ¬((k, node).1 = u) := fun h => huk h.symm
          rw [List.find?_cons_of_neg _ (by simpa using hknotu)]
          rfl

theorem keys_addConsecutiveEdges (lid : String) :
    ∀ (ids : List String) (g : List (String × GraphNode)),
      (addConsecutiveEdges lid g ids).map Prod.fst = g.map Prod.fst := by
  intro ids
  induction ids with
  | nil => intro g; rfl
  | cons a rest ih =>
      intro g
      cases rest with
      | nil => rfl
      | cons b rest2 =>
          rw [show addConsecutiveEdges lid g (a :: b :: rest2) =
              addConsecutiveEdges lid
                (if (assocGet g a).isSome ∧ (assocGet g b).isSome then
                  pushEdge (pushEdge g a (b, lid)) b (a, lid)
                 else g) (b :: rest2) from rfl]
          rw [ih]
          split_ifs with h
          · rw [keys_pushEdge, keys_pushEdge]
          · rfl

theorem isSome_assocGet_pushEdge (g : List (String × GraphNode)) (k : String)
    (e : String × String) (u : String) :
    (assocGet (pushEdge g k e) u).isSome = (assocGet g u).isSome := by
  rw [assocGet_pushEdge]
  cases assocGet g u <;> rfl

/-- A consecutive (ordered) pair of the list. -/
def consecPair (ids : List String) (u v : String) : Prop :=
  ∃ i, ids.get? i = some u ∧ ids.get? (i + 1) = some v

theorem consecPair_nil (u v : String) : ¬consecPair [] u v := by
  rintro ⟨i, h1, _⟩
  simp at h1

theorem consecPair_single (a u v : String) : ¬consecPair [a] u v := by
  rintro ⟨i, h1, h2⟩
  cases i with
  | zero => simp at h2
  | succ i => simp at h1

theorem consecPair_cons (a b : String) (rest : List String) (u v : String) :
    consecPair (a :: b :: rest) u v ↔ (a = u ∧ b = v) ∨ consecPair (b :: rest) u v := by
  constructor
  · rintro ⟨i, h1, h2⟩
    cases i with
    | zero =>
        left
        simp only [List.get?_cons_zero] at h1
        simp only [List.get?_cons_succ, List.get?_cons_zero] at h2
        exact ⟨Option.some.inj h1, Option.some.inj h2⟩
    | succ i =>
        right
        exact ⟨i, by simpa using h1, by simpa using h2⟩
  · rintro (⟨h1, h2⟩ | ⟨i, h1, h2⟩)
    · exact ⟨0, by simp [h1], by simp [h2]⟩
    · exact ⟨i + 1, by simpa using h1, by simpa using h2⟩

theorem hasEdge_addConsecutiveEdges (lid : String) :
    ∀ (ids : List String) (g : List (String × GraphNode)) (u v : String),
      hasEdge (addConsecutiveEdges lid g ids) u v = true ↔
        hasEdge g u v = true ∨
          (u ∈ g.map Prod.fst ∧ v ∈ g.map Prod.fst ∧
            (consecPair ids u v ∨ consecPair ids v u)) := by
  intro ids
  induction ids with
  | nil =>
      intro g u v
      constructor
      · intro h; exact Or.inl h
      · rintro (h | ⟨_, _, hp | hp⟩)
        · exact h
        · exact absurd hp (consecPair_nil u v)
        · exact absurd hp (consecPair_nil v u)
  | cons a rest ih =>
      cases rest with
      | nil =>
          intro g u v
          constructor
          · intro h; exact Or.inl h
          · rintro (h | ⟨_, _, hp | hp⟩)
            · exact h
            · exact absurd hp (consecPair_single a u v)
            · exact absurd hp (consecPair_single a v u)
      | cons b rest2 =>
          intro g u v
          rw [show addConsecutiveEdges lid g (a :: b :: rest2) =
              addConsecutiveEdges lid
                (if (assocGet g a).isSome ∧ (assocGet g b).isSome then
                  pushEdge (pushEdge g a (b, lid)) b (a, lid)
                 else g) (b :: rest2) from rfl]
          by_cases hg : (assocGet g a).isSome = true ∧ (assocGet g b).isSome = true
          · rw [if_pos hg]
            rw [ih _ u v]
            rw [hasEdge_pushEdge, hasEdge_pushEdge]
            simp only [keys_pushEdge, isSome_assocGet_pushEdge]
            rw [consecPair_cons a b rest2 u v, consecPair_cons a b rest2 v u]
            obtain ⟨ha, hb⟩ := hg
            rw [assocGet_isSome_iff] at ha hb
            constructor
            · rintro (((h | ⟨h1, h2, h3⟩) | ⟨h1, h2, h3⟩) | ⟨h1, h2, h3 | h3⟩)
              · exact Or.inl h
              · subst h1; subst h2
                rw [assocGet_isSome_iff] at h3
                exact Or.inr ⟨h3, hb, Or.inl (Or.inl ⟨rfl, rfl⟩)⟩
              · subst h1
                have h2' : v = a := h2.symm
                subst h2'
                rw [assocGet_isSome_iff] at h3
                exact Or.inr ⟨h3, ha, Or.inr (Or.inl ⟨rfl, rfl⟩)⟩
              · exact Or.inr ⟨h1, h2, Or.inl (Or.inr h3)⟩
              · exact Or.inr ⟨h1, h2, Or.inr (Or.inr h3)⟩
            · rintro (h | ⟨h1, h2, (⟨ha2, hb2⟩ | h3) | (⟨ha2, hb2⟩ | h3)⟩)
              · exact Or.inl (Or.inl (Or.inl h))
              · subst ha2; subst hb2
                rw [← assocGet_isSome_iff] at h1
                exact Or.inl (Or.inl (Or.inr ⟨rfl, rfl, h1⟩))
              · exact Or.inr ⟨h1, h2, Or.inl h3⟩
              · subst ha2; subst hb2
                rw [← assocGet_isSome_iff] at h1
                exact Or.inl (Or.inr ⟨rfl, rfl, h1⟩)
              · exact Or.inr ⟨h1, h2, Or.inr h3⟩
          · rw [if_neg hg]
            rw [ih g u v]
            rw [consecPair_cons a b rest2 u v, consecPair_cons a b rest2 v u]
            constructor
            · rintro (h | ⟨h1, h2, h3 | h3⟩)
              · exact Or.inl h
              · exact Or.inr ⟨h1, h2, Or.inl (Or.inr h3)⟩
              · exact Or.inr ⟨h1, h2, Or.inr (Or.inr h3)⟩
            · rintro (h | ⟨h1, h2, (⟨ha2, hb2⟩ | h3) | (⟨ha2, hb2⟩ | h3)⟩)
              · exact Or.inl h
              · subst ha2; subst hb2
                exfalso
                apply hg
                rw [assocGet_isSome_iff, assocGet_isSome_iff]
                exact ⟨h1, h2⟩
              · exact Or.inr ⟨h1, h2, Or.inl h3⟩
              · subst ha2; subst hb2
                exfalso
                apply hg
                rw [assocGet_isSome_iff, assocGet_isSome_iff]
                exact ⟨h2, h1⟩
              · exact Or.inr ⟨h1, h2, Or.inr h3⟩

theorem hasEdge_assocSet_empty (g : List (String × GraphNode)) (k u v : String) :
    hasEdge (assocSet g k { stationId := k, connections := [] }) u v =
      if u = k then false else hasEdge g u v := by
  unfold hasEdge
  rw [assocGet_assocSet]
  by_cases h : u = k
  · simp [h]
  · simp [h]

theorem mem_keys_assocSet (g : List (String × GraphNode)) (k : String)
    (node : GraphNode) (u : String) :
    u ∈ (assocSet g k node).map Prod.fst ↔ u = k ∨ u ∈ g.map Prod.fst := by
  rw [← assocGet_isSome_iff, ← assocGet_isSome_iff, assocGet_assocSet]
  by_cases h : u = k
  · simp [h]
  · simp [h]

theorem stationFold_keys :
    ∀ (stations : List Station) (g : List (String × GraphNode)) (u : String),
      u ∈ ((stations.foldl (fun g station =>
          assocSet g station.id { stationId := station.id, connections := [] })
        g).map Prod.fst) ↔
        u ∈ g.map Prod.fst ∨ ∃ st ∈ stations, st.id = u := by
  intro stations
  induction stations with
  | nil => intro g u; simp
  | cons st rest ih =>
      intro g u
      simp only [List.foldl_cons]
      rw [ih]
      rw [mem_keys_assocSet]
      constructor
      · rintro ((h | h) | h)
        · exact Or.inr ⟨st, by simp, h.symm⟩
        · exact Or.inl h
        · obtain ⟨st2, h1, h2⟩ := h
          exact Or.inr ⟨st2, by simp [h1], h2⟩
      · rintro (h | ⟨st2, h1, h2⟩)
        · exact Or.inl (Or.inr h)
        · rcases List.mem_cons.mp h1 with h1 | h1
          · subst h1
            exact Or.inl (Or.inl h2.symm)
          · exact Or.inr ⟨st2, h1, h2⟩

theorem stationFold_noEdge :
    ∀ (stations : List Station) (g : List (String × GraphNode)) (u v : String),
      hasEdge g u v = false →
      hasEdge (stations.foldl (fun g station =>
          assocSet g station.id { stationId := station.id, connections := [] })
        g) u v = false := by
  intro stations
  induction stations with
  | nil => intro g u v h; exact h
  | cons st rest ih =>
      intro g u v h
      simp only [List.foldl_cons]
      apply ih
      rw [hasEdge_assocSet_empty]
      by_cases hu : u = st.id
      · simp [hu]
      · simp [hu, h]

/-- The claim's per-line edge condition (consecutive pair in either order,
or the wrap-around pair of a loop of more than two stops). -/
def lineEdgePair (line : MetroLine) (u v : String) : Prop :=
  consecPair line.stationIds u v ∨ consecPair line.stationIds v u ∨
    (line.isLoop = true ∧ 2 < line.stationIds.length ∧
      ((line.stationIds.get? (line.stationIds.length - 1) = some u ∧
          line.stationIds.get? 0 = some v) ∨
       (line.stationIds.get? (line.stationIds.length - 1) = some v ∧
          line.stationIds.get? 0 = some u)))

theorem keys_addLineEdges (g : List (String × GraphNode)) (line : MetroLine) :
    (addLineEdges g line).map Prod.fst = g.map Prod.fst := by
  unfold addLineEdges
  by_cases hlen : line.stationIds.length < 2
  · rw [if_pos hlen]
  · rw [if_neg hlen]
    by_cases hloop : line.isLoop = true ∧ line.stationIds.length > 2
    · rw [if_pos hloop]
      cases hla : line.stationIds.get? (line.stationIds.length - 1) with
      | none =>
          dsimp only
          rw [keys_addConsecutiveEdges]
      | some la =>
          cases hfi : line.stationIds.get? 0 with
          | none =>
              dsimp only
              rw [keys_addConsecutiveEdges]
          | some fi =>
              dsimp only
              split_ifs with hg
              · rw [keys_pushEdge, keys_pushEdge, keys_addConsecutiveEdges]
              · rw [keys_addConsecutiveEdges]
    · rw [if_neg hloop, keys_addConsecutiveEdges]

theorem no_consecPair_of_short (ids : List String) (hlen : ids.length < 2)
    (u v : String) : ¬consecPair ids u v := by
  cases ids with
  | nil => exact consecPair_nil u v
  | cons a rest =>
      cases rest with
      | nil => exact consecPair_single a u v
      | cons b rest2 =>
          intro _
          simp only [List.length_cons] at hlen
          omega

theorem hasEdge_addLineEdges (g : List (String × GraphNode)) (line : MetroLine)
    (u v : String) :
    hasEdge (addLineEdges g line) u v = true ↔
      hasEdge g u v = true ∨
        (u ∈ g.map Prod.fst ∧ v ∈ g.map Prod.fst ∧ lineEdgePair line u v) := by
  unfold addLineEdges
  by_cases hlen : line.stationIds.length < 2
  · rw [if_pos hlen]
    constructor
    · exact Or.inl
    · rintro (h | ⟨_, _, hp | hp | ⟨_, hlen2, _⟩⟩)
      · exact h
      · exact absurd hp (no_consecPair_of_short _ hlen u v)
      · exact absurd hp (no_consecPair_of_short _ hlen v u)
      · omega
  · rw [if_neg hlen]
    have hpos : 0 < line.stationIds.length := by omega
    by_cases hloop : line.isLoop = true ∧ line.stationIds.length > 2
    · rw [if_pos hloop]
      cases hla : line.stationIds.get? (line.stationIds.length - 1) with
      | none =>
          exfalso
          rw [List.get?_eq_none] at hla
          omega
      | some la =>
      cases hfi : line.stationIds.get? 0 with
      | none =>
          exfalso
          rw [List.get?_eq_none] at hfi
          omega
      | some fi =>
      dsimp only
      by_cases hg : (assocGet (addConsecutiveEdges line.id g line.stationIds) la).isSome
          = true ∧
          (assocGet (addConsecutiveEdges line.id g line.stationIds) fi).isSome = true
      · rw [if_pos hg]
        rw [hasEdge_pushEdge, hasEdge_pushEdge, hasEdge_addConsecutiveEdges]
        simp only [isSome_assocGet_pushEdge]
        obtain ⟨hga, hgf⟩ := hg
        rw [assocGet_isSome_iff, keys_addConsecutiveEdges] at hga hgf
        constructor
        · rintro (((h | ⟨h1, h2, h3⟩) | ⟨h1, h2, h3⟩) | ⟨h1, h2, h3⟩)
          · exact Or.inl h
          · rcases h3 with h3 | h3
            · exact Or.inr ⟨h1, h2, Or.inl h3⟩
            · exact Or.inr ⟨h1, h2, Or.inr (Or.inl h3)⟩
          · subst h1
            have h2' : v = fi := h2.symm
            subst h2'
            rw [assocGet_isSome_iff, keys_addConsecutiveEdges] at h3
            refine Or.inr ⟨h3, hgf, Or.inr (Or.inr ⟨hloop.1, hloop.2, Or.inl ⟨hla, hfi⟩⟩)⟩
          · subst h1
            have h2' : v = la := h2.symm
            subst h2'
            rw [assocGet_isSome_iff, keys_addConsecutiveEdges] at h3
            refine Or.inr ⟨h3, hga, Or.inr (Or.inr ⟨hloop.1, hloop.2, Or.inr ⟨hla, hfi⟩⟩)⟩
        · rintro (h | ⟨h1, h2, h3 | h3 | ⟨_, _, ⟨hu2, hv2⟩ | ⟨hu2, hv2⟩⟩⟩)
          · exact Or.inl (Or.inl (Or.inl h))
          · exact Or.inl (Or.inl (Or.inr ⟨h1, h2, Or.inl h3⟩))
          · exact Or.inl (Or.inl (Or.inr ⟨h1, h2, Or.inr h3⟩))
          · rw [hla] at hu2
            rw [hfi] at hv2
            have hu3 : u = la := Option.some.inj hu2.symm
            have hv3 : v = fi := Option.some.inj hv2.symm
            subst hu3; subst hv3
            rw [← keys_addConsecutiveEdges line.id line.stationIds g,
              ← assocGet_isSome_iff] at h1
            exact Or.inl (Or.inr ⟨rfl, rfl, h1⟩)
          · rw [hla] at hu2
            rw [hfi] at hv2
            have hu3 : u = fi := Option.some.inj hv2.symm
            have hv3 : v = la := Option.some.inj hu2.symm
            subst hu3; subst hv3
            rw [← keys_addConsecutiveEdges line.id line.stationIds g,
              ← assocGet_isSome_iff] at h1
            exact Or.inr ⟨rfl, rfl, h1⟩
      · rw [if_neg hg]
        rw [hasEdge_addConsecutiveEdges]
        constructor
        · rintro (h | ⟨h1, h2, h3 | h3⟩)
          · exact Or.inl h
          · exact Or.inr ⟨h1, h2, Or.inl h3⟩
          · exact Or.inr ⟨h1, h2, Or.inr (Or.inl h3)⟩
        · rintro (h | ⟨h1, h2, h3 | h3 | ⟨_, _, ⟨hu2, hv2⟩ | ⟨hu2, hv2⟩⟩⟩)
          · exact Or.inl h
          · exact Or.inr ⟨h1, h2, Or.inl h3⟩
          · exact Or.inr ⟨h1, h2, Or.inr h3⟩
          · exfalso
            apply hg
            rw [hla] at hu2
            rw [hfi] at hv2
            have hu3 : u = la := Option.some.inj hu2.symm
            have hv3 : v = fi := Option.some.inj hv2.symm
            subst hu3; subst hv3
            rw [assocGet_isSome_iff, assocGet_isSome_iff, keys_addConsecutiveEdges]
            exact ⟨h1, h2⟩
          · exfalso
            apply hg
            rw [hla] at hu2
            rw [hfi] at hv2
            have hu3 : u = fi := Option.some.inj hv2.symm
            have hv3 : v = la := Option.some.inj hu2.symm
            subst hu3; subst hv3
            rw [assocGet_isSome_iff, assocGet_isSome_iff, keys_addConsecutiveEdges]
            exact ⟨h2, h1⟩
    · rw [if_neg hloop]
      rw [hasEdge_addConsecutiveEdges]
      constructor
      · rintro (h | ⟨h1, h2, h3 | h3⟩)
        · exact Or.inl h
        · exact Or.inr ⟨h1, h2, Or.inl h3⟩
        · exact Or.inr ⟨h1, h2, Or.inr (Or.inl h3)⟩
      · rintro (h | ⟨h1, h2, h3 | h3 | ⟨hl1, hl2, _⟩⟩)
        · exact Or.inl h
        · exact Or.inr ⟨h1, h2, Or.inl h3⟩
        · exact Or.inr ⟨h1, h2, Or.inr h3⟩
        · exact absurd ⟨hl1, hl2⟩ hloop

theorem hasEdge_lineFold :
    ∀ (lines : List MetroLine) (g : List (String × GraphNode)) (u v : String),
      hasEdge (lines.foldl addLineEdges g) u v = true ↔
        hasEdge g u v = true ∨
          (u ∈ g.map Prod.fst ∧ v ∈ g.map Prod.fst ∧
            ∃ line ∈ lines, lineEdgePair line u v) := by
  intro lines
  induction lines with
  | nil =>
      intro g u v
      constructor
      · exact Or.inl
      · rintro (h | ⟨_, _, line, hline, _⟩)
        · exact h
        · simp at hline
  | cons line rest ih =>
      intro g u v
      simp only [List.foldl_cons]
      rw [ih]
      simp only [keys_addLineEdges]
      rw [hasEdge_addLineEdges]
      constructor
      · rintro ((h | ⟨h1, h2, h3⟩) | ⟨h1, h2, line2, hl, h3⟩)
        · exact Or.inl h
        · exact Or.inr ⟨h1, h2, line, by simp, h3⟩
        · exact Or.inr ⟨h1, h2, line2, by simp [hl], h3⟩
      · rintro (h | ⟨h1, h2, line2, hl, h3⟩)
        · exact Or.inl (Or.inl h)
        · rcases List.mem_cons.mp hl with hl | hl
          · subst hl
            exact Or.inl (Or.inr ⟨h1, h2, h3⟩)
          · exact Or.inr ⟨h1, h2, line2, hl, h3⟩

theorem hasEdge_buildGraph (stations : List Station) (lines : List MetroLine)
    (u v : String) :
    hasEdge (buildGraph stations lines) u v = true ↔
      (∃ st ∈ stations, st.id = u) ∧ (∃ st ∈ stations, st.id = v) ∧
        ∃ line ∈ lines, lineEdgePair line u v := by
  unfold buildGraph
  rw [hasEdge_lineFold]
  have hinit : hasEdge (stations.foldl (fun g station =>
      assocSet g station.id { stationId := station.id, connections := [] }) []) u v
      = false := stationFold_noEdge stations [] u v rfl
  constructor
  · rintro (h | ⟨h1, h2, h3⟩)
    · rw [hinit] at h
      exact Bool.noConfusion h
    · rw [stationFold_keys] at h1 h2
      rcases h1 with h1 | h1
      · simp at h1
      · rcases h2 with h2 | h2
        · simp at h2
        · exact ⟨h1, h2, h3⟩
  · rintro ⟨h1, h2, h3⟩
    refine Or.inr ⟨?_, ?_, h3⟩
    · rw [stationFold_keys]
      exact Or.inr h1
    · rw [stationFold_keys]
      exact Or.inr h2

theorem enqueueNew_fst_append (path : List String) :
    ∀ (cs : List (String × String)) (entries : List (String × List String))
      (visited : List String),
      (enqueueNew path cs (entries, visited)).1 =
        entries ++ (enqueueNew path cs ([], visited)).1 := by
  intro cs
  induction cs with
  | nil => intro entries visited; simp [enqueueNew]
  | cons c rest ih =>
      intro entries visited
      obtain ⟨target, lid⟩ := c
      by_cases hv : target ∈ visited
      · simp only [enqueueNew, hv, if_true]
        exact ih entries visited
      · simp only [enqueueNew, hv, if_false, List.nil_append]
        rw [ih (entries ++ [(target, path ++ [target])]) (target :: visited),
            ih [(target, path ++ [target])] (target :: visited)]
        simp

theorem enqueueNew_snd_indep (path : List String) :
    ∀ (cs : List (String × String)) (entries entries2 : List (String × List String))
      (visited : List String),
      (enqueueNew path cs (entries, visited)).2 =
        (enqueueNew path cs (entries2, visited)).2 := by
  intro cs
  induction cs with
  | nil => intro entries entries2 visited; rfl
  | cons c rest ih =>
      intro entries entries2 visited
      obtain ⟨target, lid⟩ := c
      by_cases hv : target ∈ visited
      · simp only [enqueueNew, hv, if_true]
        exact ih entries entries2 visited
      · simp only [enqueueNew, hv, if_false]
        exact ih _ _ _

theorem enqueueNew_visited_mono (path : List String) :
    ∀ (cs : List (String × String)) (entries : List (String × List String))
      (visited : List String) (x : String), x ∈ visited →
      x ∈ (enqueueNew path cs (entries, visited)).2 := by
  intro cs
  induction cs with
  | nil => intro entries visited x hx; exact hx
  | cons c rest ih =>
      intro entries visited x hx
      obtain ⟨target, lid⟩ := c
      by_cases hv : target ∈ visited
      · simp only [enqueueNew, hv, if_true]
        exact ih entries visited x hx
      · simp only [enqueueNew, hv, if_false]
        exact ih _ _ x (by simp [hx])

theorem enqueueNew_visited_src (path : List String) :
    ∀ (cs : List (String × String)) (entries : List (String × List String))
      (visited : List String) (x : String),
      x ∈ (enqueueNew path cs (entries, visited)).2 →
      x ∈ visited ∨ ∃ lid, (x, lid) ∈ cs := by
  intro cs
  induction cs with
  | nil => intro entries visited x hx; exact Or.inl hx
  | cons c rest ih =>
      intro entries visited x hx
      obtain ⟨target, lid⟩ := c
      by_cases hv : target ∈ visited
      · simp only [enqueueNew, hv, if_true] at hx
        rcases ih entries visited x hx with h | ⟨lid2, h⟩
        · exact Or.inl h
        · exact Or.inr ⟨lid2, by simp [h]⟩
      · simp only [enqueueNew, hv, if_false] at hx
        rcases ih _ _ x hx with h | ⟨lid2, h⟩
        · rcases List.mem_cons.mp h with h | h
          · exact Or.inr ⟨lid, by simp [h]⟩
          · exact Or.inl h
        · exact Or.inr ⟨lid2, by simp [h]⟩

theorem enqueueNew_targets_visited (path : List String) :
    ∀ (cs : List (String × String)) (entries : List (String × List String))
      (visited : List String) (t : String) (lid : String), (t, lid) ∈ cs →
      t ∈ (enqueueNew path cs (entries, visited)).2 := by
  intro cs
  induction cs with
  | nil => intro entries visited t lid h; simp at h
  | cons c rest ih =>
      intro entries visited t lid h
      obtain ⟨target, lid2⟩ := c
      rcases List.mem_cons.mp h with h | h
      · injection h with h1 h2
        subst h1
        by_cases hv : t ∈ visited
        · simp only [enqueueNew, hv, if_true]
          exact enqueueNew_visited_mono path rest entries visited t hv
        · simp only [enqueueNew, hv, if_false]
          exact enqueueNew_visited_mono path rest _ _ t (by simp)
      · by_cases hv : target ∈ visited
        · simp only [enqueueNew, hv, if_true]
          exact ih entries visited t lid h
        · simp only [enqueueNew, hv, if_false]
          exact ih _ _ t lid h

theorem enqueueNew_new_entries (path : List String) :
    ∀ (cs : List (String × String)) (visited : List String)
      (e : String × List String), e ∈ (enqueueNew path cs ([], visited)).1 →
      e.2 = path ++ [e.1] ∧ e.1 ∉ visited ∧ ∃ lid, (e.1, lid) ∈ cs := by
  intro cs
  induction cs with
  | nil => intro visited e he; exact absurd he (List.not_mem_nil e)
  | cons c rest ih =>
      intro visited e he
      obtain ⟨target, lid⟩ := c
      by_cases hv : target ∈ visited
      · simp only [enqueueNew, hv, if_true] at he
        obtain ⟨h1, h2, lid2, h3⟩ := ih visited e he
        exact ⟨h1, h2, lid2, by simp [h3]⟩
      · simp only [enqueueNew, hv, if_false, List.nil_append] at he
        rw [enqueueNew_fst_append] at he
        rcases List.mem_append.mp he with he | he
        · simp only [List.mem_singleton] at he
          subst he
          exact ⟨rfl, hv, lid, by simp⟩
        · obtain ⟨h1, h2, lid2, h3⟩ := ih (target :: visited) e he
          refine ⟨h1, fun hx => h2 (by simp [hx]), lid2, by simp [h3]⟩

theorem enqueueNew_newly_visited (path : List String) :
    ∀ (cs : List (String × String)) (entries : List (String × List String))
      (visited : List String) (x : String),
      x ∈ (enqueueNew path cs (entries, visited)).2 →
      x ∈ visited ∨ ∃ e ∈ (enqueueNew path cs (entries, visited)).1, e.1 = x := by
  intro cs
  induction cs with
  | nil => intro entries visited x hx; exact Or.inl hx
  | cons c rest ih =>
      intro entries visited x hx
      obtain ⟨target, lid⟩ := c
      by_cases hv : target ∈ visited
      · simp only [enqueueNew, hv, if_true] at hx ⊢
        exact ih entries visited x hx
      · simp only [enqueueNew, hv, if_false] at hx ⊢
        rcases ih _ _ x hx with h | ⟨e, he, hex⟩
        · rcases List.mem_cons.mp h with h | h
          · subst h
            refine Or.inr ⟨(x, path ++ [x]), ?_, rfl⟩
            rw [enqueueNew_fst_append]
            simp
          · exact Or.inl h
        · exact Or.inr ⟨e, he, hex⟩

theorem pairwise_of_all {α : Type} (R : α → α → Prop) (l : List α)
    (h : ∀ a ∈ l, ∀ b ∈ l, R a b) : l.Pairwise R := by
  induction l with
  | nil => exact List.Pairwise.nil
  | cons a rest ih =>
      refine List.Pairwise.cons ?_ (ih ?_)
      · intro b hb
        exact h a (by simp) b (by simp [hb])
      · intro x hx y hy
        exact h x (by simp [hx]) y (by simp [hy])

theorem first_unvisited (visited : List String) :
    ∀ (q : List String) (a b : String), q.head? = some a → q.getLast? = some b →
      a ∈ visited → b ∉ visited →
      ∃ t u w, q.get? t = some u ∧ q.get? (t + 1) = some w ∧
        u ∈ visited ∧ w ∉ visited := by
  intro q
  induction q with
  | nil => intro a b ha; simp at ha
  | cons c rest ih =>
      intro a b ha hb hav hbv
      simp only [List.head?_cons] at ha
      injection ha with ha
      subst ha
      cases rest with
      | nil =>
          simp only [List.getLast?_singleton] at hb
          injection hb with hb
          subst hb
          exact absurd hav hbv
      | cons d rest2 =>
          by_cases hd : d ∈ visited
          · have hlast : (d :: rest2).getLast? = some b := by
              rw [List.getLast?_cons_cons] at hb
              exact hb
            obtain ⟨t, u, w, h1, h2, h3, h4⟩ :=
              ih d b (by simp) hlast hd hbv
            exact ⟨t + 1, u, w, by simpa using h1, by simpa using h2, h3, h4⟩
          · exact ⟨0, c, d, by simp, by simp, hav, hd⟩

theorem chain_closed (graph : List (String × GraphNode)) (visited : List String)
    (hclosed : ∀ u ∈ visited, ∀ w, hasEdge graph u w = true → w ∈ visited) :
    ∀ (q : List String) (a b : String), pathSpec graph a b q → a ∈ visited →
      b ∈ visited := by
  intro q
  induction q with
  | nil => intro a b hq; exact absurd hq.1 (by simp)
  | cons c rest ih =>
      intro a b hq hav
      obtain ⟨hhead, hlast, hchain⟩ := hq
      simp only [List.head?_cons] at hhead
      injection hhead with hhead
      subst hhead
      cases rest with
      | nil =>
          simp only [List.getLast?_singleton] at hlast
          injection hlast with hlast
          subst hlast
          exact hav
      | cons d rest2 =>
          rw [chainOk_cons] at hchain
          have hd : d ∈ visited := hclosed c hav d hchain.1
          apply ih d b ?_ hd
          refine ⟨by simp, ?_, hchain.2⟩
          rw [List.getLast?_cons_cons] at hlast
          exact hlast

theorem hasEdge_of_none {graph : List (String × GraphNode)} {u : String}
    (h : assocGet graph u = none) (w : String) : hasEdge graph u w = false := by
  unfold hasEdge
  rw [h]

/-- The BFS loop invariant: queue entries are valid shortest paths from the
start, in nondecreasing length order with spread at most one, their ends
are visited, fully processed nodes have all neighbours visited, visited
nodes are reachable, and an end-station entry is still queued whenever the
end station has been visited. -/
structure BfsInv (graph : List (String × GraphNode)) (startId endId : String)
    (queue : List (String × List String)) (visited : List String) : Prop where
  valid : ∀ e ∈ queue, pathSpec graph startId e.1 e.2
  sorted : queue.Pairwise (fun e1 e2 => e1.2.length ≤ e2.2.length)
  spread : ∀ e1 ∈ queue, ∀ e2 ∈ queue, e1.2.length ≤ e2.2.length + 1
  qvis : ∀ e ∈ queue, e.1 ∈ visited
  shortest : ∀ e ∈ queue, ∀ q, pathSpec graph startId e.1 q → e.2.length ≤ q.length
  closed : ∀ u ∈ visited, (∀ e ∈ queue, e.1 ≠ u) →
    ∀ w, hasEdge graph u w = true → w ∈ visited
  reach : ∀ v ∈ visited, ∃ q, pathSpec graph startId v q
  endTrack : endId ∈ visited → ∃ e ∈ queue, e.1 = endId
  startVis : startId ∈ visited

theorem bfsInv_skip (graph : List (String × GraphNode))
    (startId endId s : String) (p : List String)
    (rest : List (String × List String)) (visited : List String)
    (hinv : BfsInv graph startId endId ((s, p) :: rest) visited)
    (hs : s ≠ endId) (hget : assocGet graph s = none) :
    BfsInv graph startId endId rest visited := by
  refine ⟨?_, ?_, ?_, ?_, ?_, ?_, hinv.reach, ?_, hinv.startVis⟩
  · intro e he
    exact hinv.valid e (by simp [he])
  · exact (List.pairwise_cons.mp hinv.sorted).2
  · intro e1 h1 e2 h2
    exact hinv.spread e1 (by simp [h1]) e2 (by simp [h2])
  · intro e he
    exact hinv.qvis e (by simp [he])
  · intro e he
    exact hinv.shortest e (by simp [he])
  · intro u hu hno w hw
    by_cases hus : s = u
    · subst hus
      rw [hasEdge_of_none hget w] at hw
      exact Bool.noConfusion hw
    · refine hinv.closed u hu ?_ w hw
      intro e he
      rcases List.mem_cons.mp he with he | he
      · rw [he]
        exact hus
      · exact hno e he
  · intro hv
    obtain ⟨e, he, hid⟩ := hinv.endTrack hv
    rcases List.mem_cons.mp he with he | he
    · exfalso
      rw [he] at hid
      exact hs hid
    · exact ⟨e, he, hid⟩

theorem bfsInv_step (graph : List (String × GraphNode))
    (startId endId s : String) (p : List String)
    (rest : List (String × List String)) (visited : List String)
    (node : GraphNode)
    (hinv : BfsInv graph startId endId ((s, p) :: rest) visited)
    (hs : s ≠ endId) (hget : assocGet graph s = some node) :
    BfsInv graph startId endId
      (rest ++ (enqueueNew p node.connections ([], visited)).1)
      (enqueueNew p node.connections ([], visited)).2 := by
  have hfront : pathSpec graph startId s p := hinv.valid (s, p) (by simp)
  have hsortedCons := List.pairwise_cons.mp hinv.sorted
  have hnewE := enqueueNew_new_entries p node.connections visited
  have hedge_of_conn : ∀ t lid, (t, lid) ∈ node.connections →
      hasEdge graph s t = true := by
    intro t lid h
    unfold hasEdge
    rw [hget, List.any_eq_true]
    exact ⟨(t, lid), h, by simp⟩
  have hext : ∀ t lid, (t, lid) ∈ node.connections →
      pathSpec graph startId t (p ++ [t]) := by
    intro t lid h
    obtain ⟨hh, hl, hc⟩ := hfront
    refine ⟨?_, List.getLast?_concat p,
      chainOk_append_singleton graph p s t hc hl (hedge_of_conn t lid h)⟩
    cases p with
    | nil => simp at hh
    | cons a tl => simpa using hh
  have hnewValid : ∀ e ∈ (enqueueNew p node.connections ([], visited)).1,
      pathSpec graph startId e.1 e.2 := by
    intro e he
    obtain ⟨h1, h2, lid, h3⟩ := hnewE e he
    rw [h1]
    exact hext e.1 lid h3
  have hlen_new : ∀ e ∈ (enqueueNew p node.connections ([], visited)).1,
      e.2.length = p.length + 1 := by
    intro e he
    rw [(hnewE e he).1]
    simp
  have hnewShort : ∀ e ∈ (enqueueNew p node.connections ([], visited)).1,
      ∀ q, pathSpec graph startId e.1 q → e.2.length ≤ q.length := by
    intro e he q hq
    obtain ⟨h1, h2e, lid, h3⟩ := hnewE e he
    rw [hlen_new e he]
    obtain ⟨t, u, w, hqu, hqw, huv, hwv⟩ :=
      first_unvisited visited q startId e.1 hq.1 hq.2.1 hinv.startVis h2e
    have hedge := chainOk_get_adj graph q t u w hq.2.2 hqu hqw
    by_cases hent : ∃ f ∈ (s, p) :: rest, f.1 = u
    · obtain ⟨f, hf, hfu⟩ := hent
      obtain ⟨hps, hlent⟩ := pathSpec_prefix graph startId e.1 q t u hq hqu
      have hfl : f.2.length ≤ t + 1 := by
        have hh := hinv.shortest f hf (q.take (t + 1)) (by rw [hfu]; exact hps)
        rw [hlent] at hh
        exact hh
      have hpf : p.length ≤ f.2.length := by
        rcases List.mem_cons.mp hf with hf2 | hf2
        · rw [hf2]
        · exact hsortedCons.1 f hf2
      have hq_t : t + 1 < q.length := by
        by_contra hge
        rw [List.get?_eq_none.mpr (Nat.le_of_not_lt hge)] at hqw
        exact Option.noConfusion hqw
      omega
    · push_neg at hent
      exact absurd (hinv.closed u huv hent w hedge) hwv
  refine ⟨?_, ?_, ?_, ?_, ?_, ?_, ?_, ?_, ?_⟩
  · intro e he
    rcases List.mem_append.mp he with he | he
    · exact hinv.valid e (by simp [he])
    · exact hnewValid e he
  · rw [List.pairwise_append]
    refine ⟨hsortedCons.2, ?_, ?_⟩
    · apply pairwise_of_all
      intro e1 h1 e2 h2
      rw [hlen_new e1 h1, hlen_new e2 h2]
    · intro e1 h1 e2 h2
      have hsp : e1.2.length ≤ p.length + 1 :=
        hinv.spread e1 (by simp [h1]) (s, p) (by simp)
      rw [hlen_new e2 h2]
      exact hsp
  · intro e1 h1 e2 h2
    rcases List.mem_append.mp h1 with h1 | h1 <;>
      rcases List.mem_append.mp h2 with h2 | h2
    · exact hinv.spread e1 (by simp [h1]) e2 (by simp [h2])
    · have hsp : e1.2.length ≤ p.length + 1 :=
        hinv.spread e1 (by simp [h1]) (s, p) (by simp)
      rw [hlen_new e2 h2]
      omega
    · have hfs : p.length ≤ e2.2.length := hsortedCons.1 e2 h2
      rw [hlen_new e1 h1]
      omega
    · rw [hlen_new e1 h1, hlen_new e2 h2]
      omega
  · intro e he
    rcases List.mem_append.mp he with he | he
    · exact enqueueNew_visited_mono p node.connections [] visited e.1
        (hinv.qvis e (by simp [he]))
    · obtain ⟨_, _, lid, h3⟩ := hnewE e he
      exact enqueueNew_targets_visited p node.connections [] visited e.1 lid h3
  · intro e he
    rcases List.mem_append.mp he with he | he
    · exact hinv.shortest e (by simp [he])
    · exact hnewShort e he
  · intro u hu hno w hw
    by_cases hus : u = s
    · subst hus
      have hconn : ∃ lid, (w, lid) ∈ node.connections := by
        unfold hasEdge at hw
        rw [hget, List.any_eq_true] at hw
        obtain ⟨c, hc, hcw⟩ := hw
        simp only [decide_eq_true_eq] at hcw
        refine ⟨c.2, ?_⟩
        rw [← hcw]
        exact hc
      obtain ⟨lid, hconn⟩ := hconn
      exact enqueueNew_targets_visited p node.connections [] visited w lid hconn
    · rcases enqueueNew_newly_visited p node.connections [] visited u hu with
        huv | ⟨e, he, heu⟩
      · have hw2 := hinv.closed u huv ?_ w hw
        · exact enqueueNew_visited_mono p node.connections [] visited w hw2
        · intro f hf
          rcases List.mem_cons.mp hf with hf | hf
          · rw [hf]
            exact fun h => hus h.symm
          · exact hno f (List.mem_append.mpr (Or.inl hf))
      · exact absurd heu (hno e (List.mem_append.mpr (Or.inr he)))
  · intro v hv
    rcases enqueueNew_visited_src p node.connections [] visited v hv with
      hv2 | ⟨lid, hv2⟩
    · exact hinv.reach v hv2
    · exact ⟨p ++ [v], hext v lid hv2⟩
  · intro hv
    rcases enqueueNew_newly_visited p node.connections [] visited endId hv with
      hv2 | ⟨e, he, heu⟩
    · obtain ⟨e, he, hid⟩ := hinv.endTrack hv2
      rcases List.mem_cons.mp he with he | he
      · exfalso
        rw [he] at hid
        exact hs hid
      · exact ⟨e, List.mem_append.mpr (Or.inl he), hid⟩
    · exact ⟨e, List.mem_append.mpr (Or.inr he), heu⟩
  · exact enqueueNew_visited_mono p node.connections [] visited startId hinv.startVis

theorem bfsLoop_none_correct (graph : List (String × GraphNode))
    (startId endId : String) (visited : List String)
    (hinv : BfsInv graph startId endId [] visited) :
    ∀ q, ¬pathSpec graph startId endId q := by
  intro q hq
  have hcl : ∀ u ∈ visited, ∀ w, hasEdge graph u w = true → w ∈ visited := by
    intro u hu w hw
    exact hinv.closed u hu (by intro e he; simp at he) w hw
  have hend : endId ∈ visited :=
    chain_closed graph visited hcl q startId endId hq hinv.startVis
  obtain ⟨e, he, _⟩ := hinv.endTrack hend
  simp at he

theorem bfsLoop_correct (graph : List (String × GraphNode))
    (startId endId : String) :
    ∀ (n : Nat) (queue : List (String × List String)) (visited : List String),
      queue.length + 2 * unvisitedCount graph visited ≤ n →
      BfsInv graph startId endId queue visited →
      (∀ p, bfsLoop graph endId queue visited = some p →
          pathSpec graph startId endId p ∧
          ∀ q, pathSpec graph startId endId q → p.length ≤ q.length) ∧
      (bfsLoop graph endId queue visited = none →
          ∀ q, ¬pathSpec graph startId endId q) := by
  intro n
  induction n with
  | zero =>
      intro queue visited hm hinv
      have hq : queue = [] := by
        cases queue with
        | nil => rfl
        | cons e rest => simp at hm
      subst hq
      constructor
      · intro p hp
        simp [bfsLoop] at hp
      · intro _
        exact bfsLoop_none_correct graph startId endId visited hinv
  | succ n ih =>
      intro queue visited hm hinv
      cases queue with
      | nil =>
          constructor
          · intro p hp
            simp [bfsLoop] at hp
          · intro _
            exact bfsLoop_none_correct graph startId endId visited hinv
      | cons e rest =>
          obtain ⟨s, p⟩ := e
          by_cases hse : s = endId
          · have hret : bfsLoop graph endId ((s, p) :: rest) visited = some p := by
              rw [bfsLoop]
              rw [if_pos hse]
            constructor
            · intro pp hp
              rw [hret] at hp
              injection hp with hp
              subst hp
              constructor
              · have hv := hinv.valid (s, p) (by simp)
                rw [hse] at hv
                exact hv
              · intro q hq
                have hq2 : pathSpec graph startId s q := by
                  rw [hse]
                  exact hq
                exact hinv.shortest (s, p) (by simp) q hq2
            · intro hp
              rw [hret] at hp
              exact Option.noConfusion hp
          · cases hget : assocGet graph s with
            | none =>
                have hstep : bfsLoop graph endId ((s, p) :: rest) visited =
                    bfsLoop graph endId rest visited := by
                  rw [bfsLoop]
                  rw [if_neg hse]
                  split
                  · rfl
                  · next node2 heq =>
                      rw [hget] at heq
                      exact Option.noConfusion heq
                rw [hstep]
                apply ih rest visited ?_
                  (bfsInv_skip graph startId endId s p rest visited hinv hse hget)
                simp only [List.length_cons] at hm
                omega
            | some node =>
                have hstep : bfsLoop graph endId ((s, p) :: rest) visited =
                    bfsLoop graph endId
                      (rest ++ (enqueueNew p node.connections ([], visited)).1)
                      (enqueueNew p node.connections ([], visited)).2 := by
                  rw [bfsLoop]
                  rw [if_neg hse]
                  split
                  · next heq =>
                      rw [hget] at heq
                      exact Option.noConfusion heq
                  · next node2 heq =>
                      rw [hget] at heq
                      injection heq with heq
                      subst heq
                      rfl
                rw [hstep]
                apply ih _ _ ?_
                  (bfsInv_step graph startId endId s p rest visited node hinv hse hget)
                have hm2 := enqueueNew_measure graph p node.connections [] visited
                  (mem_allIds_of_connection hget)
                simp only [List.length_nil, Nat.zero_add] at hm2
                simp only [List.length_cons] at hm
                rw [List.length_append]
                omega

theorem findRoute_init_inv (graph : List (String × GraphNode)) (a b : String)
    (hab : a ≠ b) : BfsInv graph a b [(a, [a])] [a] := by
  refine ⟨?_, ?_, ?_, ?_, ?_, ?_, ?_, ?_, by simp⟩
  · intro e he
    simp only [List.mem_singleton] at he
    subst he
    exact ⟨rfl, rfl, rfl⟩
  · simp
  · intro e1 h1 e2 h2
    simp only [List.mem_singleton] at h1 h2
    subst h1; subst h2
    omega
  · intro e he
    simp only [List.mem_singleton] at he
    subst he
    simp
  · intro e he q hq
    simp only [List.mem_singleton] at he
    subst he
    obtain ⟨hh, _, _⟩ := hq
    cases q with
    | nil => simp at hh
    | cons c tl => simp
  · intro u hu hno w hw
    simp only [List.mem_singleton] at hu
    subst hu
    exact absurd rfl (hno (u, [u]) (by simp))
  · intro v hv
    simp only [List.mem_singleton] at hv
    subst hv
    exact ⟨[v], rfl, rfl, rfl⟩
  · intro hv
    simp only [List.mem_singleton] at hv
    exact absurd hv.symm hab

/-- C7: `findRoute` is breadth-first search over the station graph whose
edges are exactly the consecutive station pairs of every line plus the
loop wrap-around pair (first conjunct: the built adjacency equals the
claim's edge set); for distinct stations it returns an ordered station-id
walk from `a` to `b` of minimum hop count, and returns none exactly when
no such walk exists. -/
theorem claim_C7_find_route (stations : List Station) (lines : List MetroLine)
    (a b : String) (hab : a ≠ b) :
    (∀ u v, hasEdge (buildGraph stations lines) u v = true ↔
      specAdjacent stations lines u v) ∧
    (∀ p, findRoute a b stations lines = some p →
      pathSpec (buildGraph stations lines) a b p ∧
      ∀ q, pathSpec (buildGraph stations lines) a b q → p.length ≤ q.length) ∧
    (findRoute a b stations lines = none ↔
      ¬∃ q, pathSpec (buildGraph stations lines) a b q) := by
  have hcore := bfsLoop_correct (buildGraph stations lines) a b
    (1 + 2 * unvisitedCount (buildGraph stations lines) [a])
    [(a, [a])] [a] (by simp) (findRoute_init_inv (buildGraph stations lines) a b hab)
  have hfr : findRoute a b stations lines =
      bfsLoop (buildGraph stations lines) b [(a, [a])] [a] := by
    unfold findRoute
    rw [if_neg hab]
  refine ⟨?_, ?_, ?_⟩
  · intro u v
    rw [hasEdge_buildGraph]
    simp only [specAdjacent, lineEdgePair, consecPair]
  · intro p hp
    rw [hfr] at hp
    exact hcore.1 p hp
  · rw [hfr]
    constructor
    · rintro hn ⟨q, hq⟩
      exact hcore.2 hn q hq
    · intro hn
      cases hb : bfsLoop (buildGraph stations lines) b [(a, [a])] [a] with
      | none => rfl
      | some p =>
          exfalso
          exact hn ⟨p, (hcore.1 p hb).1⟩

def routeTestStations : List Station := [createStation 0 0 "A", createStation 5 0 "B"]

def routeTestLines : List MetroLine :=
  [{ id := "L1", color := "red", stationIds := ["0000", "0500"], isLoop := false
     trains := [] }]

/-- Witness for C7: the edge characterization and the minimal route on a
two-station, one-line network, where findRoute returns the direct path. -/
theorem claim_C7_find_route_witness :
    (hasEdge (buildGraph routeTestStations routeTestLines) "0000" "0500" = true ↔
      specAdjacent routeTestStations routeTestLines "0000" "0500") ∧
    findRoute "0000" "0500" routeTestStations routeTestLines =
      some ["0000", "0500"] ∧
    pathSpec (buildGraph routeTestStations routeTestLines) "0000" "0500"
      ["0000", "0500"] ∧
    (∀ q, pathSpec (buildGraph routeTestStations routeTestLines) "0000" "0500" q →
      (["0000", "0500"] : List String).length ≤ q.length) := by
  have hfind : findRoute "0000" "0500" routeTestStations routeTestLines =
      some ["0000", "0500"] := by
    have hstep0 : findRoute "0000" "0500" routeTestStations routeTestLines =
        bfsLoop (buildGraph routeTestStations routeTestLines) "0500"
          [("0000", ["0000"])] ["0000"] := by
      unfold findRoute
      rw [if_neg (by decide)]
    rw [hstep0]
    rw [bfsLoop]
    rw [if_neg (by decide)]
    split
    · next heq =>
        rw [show assocGet (buildGraph routeTestStations routeTestLines) "0000" =
            some { stationId := "0000", connections := [("0500", "L1")] } from
          by decide] at heq
        exact Option.noConfusion heq
    · next node2 heq =>
        rw [show assocGet (buildGraph routeTestStations routeTestLines) "0000" =
            some { stationId := "0000", connections := [("0500", "L1")] } from
          by decide] at heq
        injection heq with heq
        subst heq
        show bfsLoop (buildGraph routeTestStations routeTestLines) "0500"
            ([] ++ (enqueueNew ["0000"] [("0500", "L1")] ([], ["0000"])).1)
            (enqueueNew ["0000"] [("0500", "L1")] ([], ["0000"])).2 =
          some ["0000", "0500"]
        rw [show ([] : List (String × List String)) ++
            (enqueueNew ["0000"] [("0500", "L1")] ([], ["0000"])).1 =
            [("0500", ["0000", "0500"])] from by decide]
        rw [show (enqueueNew ["0000"] [("0500", "L1")] ([], ["0000"])).2 =
            ["0500", "0000"] from by decide]
        rw [bfsLoop]
        rw [if_pos rfl]
  have hmain := claim_C7_find_route routeTestStations routeTestLines "0000" "0500"
    (by decide)
  have hp := hmain.2.1 ["0000", "0500"] hfind
  exact ⟨hmain.1 "0000" "0500", hfind, hp.1, hp.2⟩

/-! ## C8: saving and loading (src/core/game/models/GameState.ts)

`saveGameState` stores `JSON.stringify(state)`; `loadGameState` parses the
blob inside a try/catch and requires the keys `seed`, `map`, `stations` and
`lines`.  The embedding models the parse result as `Option ParsedState`:
`none` covers an unparseable blob and a parsed object missing one of the
required keys (both of which make the source return null — the catch turns
a thrown parse error into null, so nothing escapes); optional fields are
`Option`s.  JavaScript's falsiness makes `0` count as a missing simulation
time and `""` as a missing label, which the defaulting reproduces. -/

structure ParsedStation where
  id : String
  vertexX : Int
  vertexY : Int
  passengers : Option (List String)
  label : Option String

structure ParsedLine where
  id : String
  color : String
  stationIds : List String
  isLoop : Bool
  trains : Option (List Train)

structure ParsedState where
  seed : Int
  map : MapGrid
  stations : List ParsedStation
  lines : List ParsedLine
  passengers : Option (List Passenger)
  simulationTime : Option ℝ
  money : Option ℝ
  isPaused : Option Bool
  speed : Option ℝ

open Classical in
/-- The per-station repair of `loadGameState` (missing queue, missing or
empty label). -/
noncomputable def loadStation (i : Nat) (pst : ParsedStation) : Station :=
  { id := pst.id
    vertexX := pst.vertexX
    vertexY := pst.vertexY
    passengers := pst.passengers.getD []
    label :=
      match pst.label with
      | none => generateStationLabel i
      | some l => if l = "" then generateStationLabel i else l }

/-- The per-line repair of `loadGameState` (missing train list). -/
def loadLine (pl : ParsedLine) : MetroLine :=
  { id := pl.id
    color := pl.color
    stationIds := pl.stationIds
    isLoop := pl.isLoop
    trains := pl.trains.getD [] }

open Classical in
/-- The validated-and-defaulted state `loadGameState` returns. -/
noncomputable def loadParsed (parsed : ParsedState) : GameState :=
  { seed := parsed.seed
    map := parsed.map
    stations := parsed.stations.enum.map (fun p => loadStation p.1 p.2)
    lines := parsed.lines.map loadLine
    passengers := parsed.passengers.getD []
    simulationTime :=
      match parsed.simulationTime with
      | none => GAME_START_TIME_MS
      | some t => if t = 0 then GAME_START_TIME_MS else t
    money := parsed.money.getD STARTING_MONEY
    isPaused := parsed.isPaused.getD false
    speed := parsed.speed.getD 1 }

/-- `loadGameState` (GameState.ts). -/
noncomputable def loadGameState (saved : Option ParsedState) : Option GameState :=
  match saved with
  | none => none
  | some parsed => some (loadParsed parsed)

/-- `JSON.stringify` of a station: every field present. -/
def serializeStation (st : Station) : ParsedStation :=
  { id := st.id
    vertexX := st.vertexX
    vertexY := st.vertexY
    passengers := some st.passengers
    label := some st.label }

def serializeLine (line : MetroLine) : ParsedLine :=
  { id := line.id
    color := line.color
    stationIds := line.stationIds
    isLoop := line.isLoop
    trains := some line.trains }

/-- `saveGameState`'s `JSON.stringify(state)`: every field present. -/
def serializeGameState (gs : GameState) : ParsedState :=
  { seed := gs.seed
    map := gs.map
    stations := gs.stations.map serializeStation
    lines := gs.lines.map serializeLine
    passengers := some gs.passengers
    simulationTime := some gs.simulationTime
    money := some gs.money
    isPaused := some gs.isPaused
    speed := some gs.speed }

theorem loadStations_serialize_from (l : List Station) :
    ∀ n : Nat, (∀ st ∈ l, st.label ≠ "") →
      (((l.map serializeStation).enumFrom n).map (fun p => loadStation p.1 p.2)) = l := by
  induction l with
  | nil => intro n _; rfl
  | cons st rest ih =>
      intro n hlab
      simp only [List.map_cons, List.enumFrom_cons]
      rw [ih (n + 1) (fun x hx => hlab x (by simp [hx]))]
      congr 1
      show loadStation n (serializeStation st) = st
      unfold loadStation serializeStation
      dsimp only
      rw [if_neg (hlab st (by simp))]
      rfl

theorem loadLines_serialize (l : List MetroLine) :
    (l.map serializeLine).map loadLine = l := by
  induction l with
  | nil => rfl
  | cons line rest ih =>
      simp only [List.map_cons]
      rw [ih]
      rfl

theorem getq_enumFrom {α : Type} :
    ∀ (l : List α) (n i : Nat),
      (l.enumFrom n).get? i = (l.get? i).map (fun a => (n + i, a)) := by
  intro l
  induction l with
  | nil => intro n i; simp
  | cons a rest ih =>
      intro n i
      cases i with
      | zero => simp
      | succ i =>
          simp only [List.enumFrom_cons, List.get?_cons_succ]
          rw [ih (n + 1) i]
          cases rest.get? i <;> simp <;> omega

/-- C8: loading the serialized form of a well-formed state (nonzero clock,
nonempty labels — zero and the empty string are falsy in the source's
defaulting checks) gives back exactly that state; loading any parseable
blob succeeds, with missing optional fields (clock, roster, station
queues, station labels, money, train lists) defaulted instead of
rejected; and a corrupted or unparseable blob (or one missing a required
key) loads as none — the source catches the parse error, so nothing
throws. -/
theorem claim_C8_load_save (s : GameState) (hst : s.simulationTime ≠ 0)
    (hlab : ∀ st ∈ s.stations, st.label ≠ "") :
    loadGameState (some (serializeGameState s)) = some s ∧
    (∀ parsed : ParsedState, ∃ g, loadGameState (some parsed) = some g ∧
      (parsed.simulationTime = none → g.simulationTime = GAME_START_TIME_MS) ∧
      (parsed.passengers = none → g.passengers = []) ∧
      (parsed.money = none → g.money = STARTING_MONEY) ∧
      (parsed.isPaused = none → g.isPaused = false) ∧
      (parsed.speed = none → g.speed = 1) ∧
      (∀ i pst, parsed.stations.get? i = some pst → ∃ st,
        g.stations.get? i = some st ∧
        (pst.passengers = none → st.passengers = []) ∧
        (pst.label = none → st.label = generateStationLabel i)) ∧
      (∀ i pl, parsed.lines.get? i = some pl → ∃ line,
        g.lines.get? i = some line ∧ (pl.trains = none → line.trains = []))) ∧
    loadGameState none = none := by
  refine ⟨?_, ?_, rfl⟩
  · show some (loadParsed (serializeGameState s)) = some s
    congr 1
    obtain ⟨seed, map, stations, lines, passengers, simTime, money, isPaused, speed⟩ := s
    unfold loadParsed serializeGameState
    simp only at hst hlab ⊢
    rw [show (List.map serializeStation stations).enum =
      (List.map serializeStation stations).enumFrom 0 from rfl]
    rw [loadStations_serialize_from stations 0 hlab, loadLines_serialize]
    simp only [Option.getD_some]
    rw [if_neg hst]
  · intro parsed
    refine ⟨loadParsed parsed, rfl, ?_, ?_, ?_, ?_, ?_, ?_, ?_⟩
    · intro h
      unfold loadParsed
      rw [h]
    · intro h
      unfold loadParsed
      rw [h]
      rfl
    · intro h
      unfold loadParsed
      rw [h]
      rfl
    · intro h
      unfold loadParsed
      rw [h]
      rfl
    · intro h
      unfold loadParsed
      rw [h]
      rfl
    · intro i pst hget
      refine ⟨loadStation i pst, ?_, ?_, ?_⟩
      · show ((parsed.stations.enum).map (fun p => loadStation p.1 p.2)).get? i =
          some (loadStation i pst)
        rw [List.get?_map]
        rw [show parsed.stations.enum = parsed.stations.enumFrom 0 from rfl]
        rw [getq_enumFrom parsed.stations 0 i, hget]
        simp
      · intro h
        unfold loadStation
        rw [h]
        rfl
      · intro h
        unfold loadStation
        rw [h]
    · intro i pl hget
      refine ⟨loadLine pl, ?_, ?_⟩
      · show ((parsed.lines).map loadLine).get? i = some (loadLine pl)
        rw [List.get?_map, hget]
        rfl
      · intro h
        unfold loadLine
        rw [h]
        rfl

/-- Witness for C8 at a concrete well-formed state. -/
theorem claim_C8_load_save_witness :
    loadGameState (some (serializeGameState paxTestState)) = some paxTestState ∧
    loadGameState none = none :=
  have h := claim_C8_load_save paxTestState
    (by norm_num [paxTestState, GAME_START_TIME_MS])
    (by intro st hst; simp only [paxTestState, List.mem_singleton] at hst;
        subst hst; simp [createStation])
  ⟨h.1, h.2.2⟩

/-! ## C9: the map generator (src/unnamed/part_011, MapGenerator)

The generator's only randomness is `this.random = randomSeeded(seed.toString())`
from `@engine/utils/random`; that engine module is not part of this
repository, so the seeded stream and its helpers are spec-modelled as the
`RandomLib` parameter: `randomSeeded` maps a seed string to a deterministic
stream of draws (indexed by how many draws were consumed), and each of
`randomBool`/`randomInt`/`randomFloat` is a pure function of its arguments
and one draw of that stream.  `Math.random()` and every other ambient
source of entropy is the `world` parameter of `generate`; the source never
calls it — every draw below comes from the seeded stream — which is what
the determinism theorem rests on.  Bounded `while` loops are translated
with their source iteration caps (`maxSteps`, `maxIterations`) or a fuel
that dominates the loop's bound. -/

structure RandomLib where
  randomSeeded : String → ℕ → ℝ
  randomBoolF : ℝ → ℝ → Bool
  randomIntF : Int → Int → ℝ → Int
  randomFloatF : ℝ → ℝ → ℝ → ℝ

namespace MapGenerator

inductive Edge where
  | TOP
  | BOTTOM
  | LEFT
  | RIGHT
deriving DecidableEq

inductive RiverType where
  | SINGLE
  | BRANCHING
  | TWO_SEPARATE
deriving DecidableEq

/-- `initializeGrid`: all land. -/
def initializeGrid : List (List GridSquare) :=
  (List.range MAP_HEIGHT.toNat).map (fun y =>
    (List.range MAP_WIDTH.toNat).map (fun x =>
      { x := (x : Int), y := (y : Int), type := TileType.LAND,
        homeDensity := 0, officeDensity := 0 }))

/-- `squares[y][x].type = t` under the source's bounds guards. -/
def setType (squares : List (List GridSquare)) (x y : Int) (t : TileType) :
    List (List GridSquare) :=
  if 0 ≤ x ∧ 0 ≤ y then
    match squares.get? y.toNat with
    | none => squares
    | some row =>
        match row.get? x.toNat with
        | none => squares
        | some sq => squares.set y.toNat (row.set x.toNat { sq with type := t })
  else squares

def typeAt (squares : List (List GridSquare)) (x y : Int) : Option TileType :=
  if 0 ≤ x ∧ 0 ≤ y then
    match squares.get? y.toNat with
    | none => none
    | some row => (row.get? x.toNat).map (fun sq => sq.type)
  else none

/-- The Bresenham loop of `drawStraightRiver`; the fuel dominates the
`dx + dy` steps the loop takes. -/
def bresenhamGo (endX endY dx dy sx sy : Int) :
    ℕ → List (List GridSquare) → Int → Int → Int → List (List GridSquare)
  | 0, squares, _, _, _ => squares
  | fuel + 1, squares, x, y, err =>
      let squares :=
        if 0 ≤ x ∧ x < MAP_WIDTH ∧ 0 ≤ y ∧ y < MAP_HEIGHT then
          setType squares x y TileType.WATER
        else squares
      if x = endX ∧ y = endY then squares
      else
        let e2 := 2 * err
        if e2 > -dy then
          bresenhamGo endX endY dx dy sx sy fuel squares (x + sx) y (err - dy)
        else if e2 < dx then
          bresenhamGo endX endY dx dy sx sy fuel squares x (y + sy) (err + dx)
        else
          bresenhamGo endX endY dx dy sx sy fuel squares x y err

/-- `drawStraightRiver` (Bresenham, horizontal/vertical steps only). -/
def drawStraightRiver (squares : List (List GridSquare)) (s e : Int × Int) :
    List (List GridSquare) :=
  let dx : Int := (e.1 - s.1).natAbs
  let dy : Int := (e.2 - s.2).natAbs
  let sx : Int := if s.1 < e.1 then 1 else -1
  let sy : Int := if s.2 < e.2 then 1 else -1
  bresenhamGo e.1 e.2 dx dy sx sy (dx.toNat + dy.toNat + 2) squares s.1 s.2 (dx - dy)

/-- The step loop of `addEdgeAdjacentPoints`; the fuel equals the L1
distance, which the loop walks one axis step at a time. -/
def edgeAdjGo (toX toY : Int) : ℕ → Int → Int → List (Int × Int)
  | 0, _, _ => []
  | fuel + 1, cx, cy =>
      if cx = toX ∧ cy = toY then []
      else
        let next :=
          if (toX - cx).natAbs > (toY - cy).natAbs then
            (cx + (if toX > cx then 1 else -1), cy)
          else
            (cx, cy + (if toY > cy then 1 else -1))
        next :: edgeAdjGo toX toY fuel next.1 next.2

/-- `addEdgeAdjacentPoints`. -/
def addEdgeAdjacentPoints (path : List (Int × Int)) (f t : Int × Int) :
    List (Int × Int) :=
  let dx := t.1 - f.1
  let dy := t.2 - f.2
  if (dx.natAbs = 1 ∧ dy = 0) ∨ (dy.natAbs = 1 ∧ dx = 0) then path ++ [t]
  else if dx = 0 ∧ dy = 0 then path
  else path ++ edgeAdjGo t.1 t.2 (dx.natAbs + dy.natAbs + 1) f.1 f.2

open Classical in
/-- The centerline `while` of `drawMeanderingRiver` (one seeded draw per
iteration for the meander); the fuel is the source's `maxSteps`. -/
noncomputable def centerlineGo (rs : ℕ → ℝ) (startX startY : ℝ) (endX endY : Int)
    (totalDist : ℝ) :
    ℕ → ℝ → ℝ → List (Int × Int) → ℕ → List (Int × Int) × ℕ
  | 0, _, _, centerline, k => (centerline, k)
  | steps + 1, x, y, centerline, k =>
      let distToEnd := Real.sqrt ((x - (endX : ℝ)) ^ 2 + (y - (endY : ℝ)) ^ 2)
      if distToEnd < 1.5 then
        (addEdgeAdjacentPoints centerline (centerline.getLastD (0, 0))
          (endX, endY), k)
      else
        let distFromStart := Real.sqrt ((x - startX) ^ 2 + (y - startY) ^ 2)
        let progress := min 1 (distFromStart / totalDist)
        let dirX := (endX : ℝ) - x
        let dirY := (endY : ℝ) - y
        let dirLen := Real.sqrt (dirX ^ 2 + dirY ^ 2)
        let normDirX := dirX / dirLen
        let normDirY := dirY / dirLen
        let meanderStrength := Real.sin (progress * Real.pi) * 0.4
        let meander := (rs k - 0.5) * 2 * meanderStrength
        let moveX0 := normDirX + -normDirY * meander
        let moveY0 := normDirY + normDirX * meander
        let moveLen := Real.sqrt (moveX0 ^ 2 + moveY0 ^ 2)
        let x2 := max 0 (min ((MAP_WIDTH : ℝ) - 1) (x + moveX0 / moveLen))
        let y2 := max 0 (min ((MAP_HEIGHT : ℝ) - 1) (y + moveY0 / moveLen))
        let newPoint : Int × Int := (round x2, round y2)
        let lastPoint := centerline.getLastD (0, 0)
        let centerline2 :=
          if newPoint.1 ≠ lastPoint.1 ∨ newPoint.2 ≠ lastPoint.2 then
            addEdgeAdjacentPoints centerline lastPoint newPoint
          else centerline
        centerlineGo rs startX startY endX endY totalDist steps x2 y2
          centerline2 (k + 1)

open Classical in
/-- The neighbour Fisher-Yates shuffle of `expandCenterlineToWidth`
(`j = Math.floor(random() * (i + 1))`, one draw per index). -/
noncomputable def fyShuffle (rs : ℕ → ℝ) :
    ℕ → List (Int × Int) → ℕ → List (Int × Int) × ℕ
  | 0, l, k => (l, k)
  | im1 + 1, l, k =>
      let i := im1 + 1
      let j := (⌊rs k * ((i : ℝ) + 1)⌋).toNat
      let li := l.getD i (0, 0)
      let lj := l.getD j (0, 0)
      fyShuffle rs im1 ((l.set i lj).set j li) (k + 1)

open Classical in
/-- The inner neighbour loop of `expandCenterlineToWidth`: one draw per
in-bounds unvisited neighbour, expansion with probability 0.6, early break
once the target size is reached. -/
noncomputable def expandVisit (rs : ℕ → ℝ) (target : ℕ) :
    List (Int × Int) → List (Int × Int) → List (Int × Int) →
      List (List GridSquare) → ℕ →
      List (Int × Int) × List (Int × Int) × List (List GridSquare) × ℕ
  | [], waterSet, queue, squares, k => (waterSet, queue, squares, k)
  | nb :: restNb, waterSet, queue, squares, k =>
      if 0 ≤ nb.1 ∧ nb.1 < MAP_WIDTH ∧ 0 ≤ nb.2 ∧ nb.2 < MAP_HEIGHT ∧
          nb ∉ waterSet then
        if rs k < 0.6 then
          let waterSet2 := waterSet ++ [nb]
          let squares2 := setType squares nb.1 nb.2 TileType.WATER
          let queue2 := queue ++ [nb]
          if waterSet2.length ≥ target then (waterSet2, queue2, squares2, k + 1)
          else expandVisit rs target restNb waterSet2 queue2 squares2 (k + 1)
        else expandVisit rs target restNb waterSet queue squares (k + 1)
      else expandVisit rs target restNb waterSet queue squares k

open Classical in
/-- The BFS `while` of `expandCenterlineToWidth`; the fuel dominates the
total number of dequeues (initial queue plus at most `target` enqueues). -/
noncomputable def expandLoop (rs : ℕ → ℝ) (target : ℕ) :
    ℕ → List (Int × Int) → List (Int × Int) → List (List GridSquare) → ℕ →
      List (List GridSquare) × ℕ
  | 0, _, _, squares, k => (squares, k)
  | fuel + 1, waterSet, queue, squares, k =>
      if waterSet.length < target then
        match queue with
        | [] => (squares, k)
        | current :: qrest =>
            let neighbors := [(current.1 + 1, current.2), (current.1 - 1, current.2),
              (current.1, current.2 + 1), (current.1, current.2 - 1)]
            let r1 := fyShuffle rs 3 neighbors k
            let r2 := expandVisit rs target r1.1 waterSet qrest squares r1.2
            expandLoop rs target fuel r2.1 r2.2.1 r2.2.2.1 r2.2.2.2
      else (squares, k)

open Classical in
/-- `expandCenterlineToWidth`: mark the centerline, then BFS-expand to
`floor(length × width × 0.8)` water squares. -/
noncomputable def expandCenterlineToWidth (rs : ℕ → ℝ)
    (squares : List (List GridSquare)) (centerline : List (Int × Int))
    (width : Int) (k : ℕ) : List (List GridSquare) × ℕ :=
  let init := centerline.foldl
    (fun (acc : List (Int × Int) × List (List GridSquare)) point =>
      let ws := if point ∈ acc.1 then acc.1 else acc.1 ++ [point]
      let sq :=
        if 0 ≤ point.1 ∧ point.1 < MAP_WIDTH ∧ 0 ≤ point.2 ∧ point.2 < MAP_HEIGHT then
          setType acc.2 point.1 point.2 TileType.WATER
        else acc.2
      (ws, sq))
    ([], squares)
  let target := (⌊(centerline.length : ℝ) * (width : ℝ) * 0.8⌋).toNat
  expandLoop rs target (centerline.length + target + 8) init.1 centerline init.2 k

open Classical in
/-- `drawMeanderingRiver`. -/
noncomputable def drawMeanderingRiver (rs : ℕ → ℝ)
    (squares : List (List GridSquare)) (s e : Int × Int) (width : Int) (k : ℕ) :
    List (List GridSquare) × ℕ :=
  let totalDist := Real.sqrt (((e.1 - s.1 : Int) : ℝ) ^ 2 + ((e.2 - s.2 : Int) : ℝ) ^ 2)
  let centerline : List (Int × Int) := [(s.1, s.2)]
  let r := centerlineGo rs (s.1 : ℝ) (s.2 : ℝ) e.1 e.2 totalDist
    (MAP_WIDTH + MAP_HEIGHT + 100).toNat (s.1 : ℝ) (s.2 : ℝ) centerline k
  expandCenterlineToWidth rs squares r.1 width r.2

open Classical in
/-- `drawRiverPath`: width 1 is straight, wider rivers meander. -/
noncomputable def drawRiverPath (rs : ℕ → ℝ) (squares : List (List GridSquare))
    (s e : Int × Int) (width : Int) (k : ℕ) : List (List GridSquare) × ℕ :=
  if width = 1 then (drawStraightRiver squares s e, k)
  else drawMeanderingRiver rs squares s e width k

/-- `getRandomEdgePosition`: one `randomInt` draw. -/
noncomputable def getRandomEdgePosition (R : RandomLib) (rs : ℕ → ℝ)
    (edge : Edge) (minR maxR : ℝ) (k : ℕ) : (Int × Int) × ℕ :=
  match edge with
  | Edge.TOP =>
      ((R.randomIntF ⌊(MAP_WIDTH : ℝ) * minR⌋ ⌊(MAP_WIDTH : ℝ) * maxR⌋ (rs k), 0),
        k + 1)
  | Edge.BOTTOM =>
      ((R.randomIntF ⌊(MAP_WIDTH : ℝ) * minR⌋ ⌊(MAP_WIDTH : ℝ) * maxR⌋ (rs k),
        MAP_HEIGHT - 1), k + 1)
  | Edge.LEFT =>
      ((0, R.randomIntF ⌊(MAP_HEIGHT : ℝ) * minR⌋ ⌊(MAP_HEIGHT : ℝ) * maxR⌋ (rs k)),
        k + 1)
  | Edge.RIGHT =>
      ((MAP_WIDTH - 1,
        R.randomIntF ⌊(MAP_HEIGHT : ℝ) * minR⌋ ⌊(MAP_HEIGHT : ℝ) * maxR⌋ (rs k)),
        k + 1)

noncomputable def generateSingleRiver (R : RandomLib) (rs : ℕ → ℝ)
    (squares : List (List GridSquare)) (startEdge endEdge : Edge) (k : ℕ) :
    List (List GridSquare) × ℕ :=
  let r1 := getRandomEdgePosition R rs startEdge 0.3 0.7 k
  let r2 := getRandomEdgePosition R rs endEdge 0.3 0.7 r1.2
  let width := R.randomIntF 1 4 (rs r2.2)
  drawRiverPath rs squares r1.1 r2.1 width (r2.2 + 1)

open Classical in
noncomputable def generateBranchingRiver (R : RandomLib) (rs : ℕ → ℝ)
    (squares : List (List GridSquare)) (startEdge endEdge : Edge) (k : ℕ) :
    List (List GridSquare) × ℕ :=
  let r1 := getRandomEdgePosition R rs startEdge 0.15 0.4 k
  let r2 := getRandomEdgePosition R rs startEdge 0.6 0.85 r1.2
  let r3 := getRandomEdgePosition R rs endEdge 0.35 0.65 r2.2
  let startPos1 := r1.1
  let startPos2 := r2.1
  let endPos := r3.1
  let k3 := r3.2
  let isHorizontal := startEdge = Edge.LEFT ∨ startEdge = Edge.RIGHT
  let merged :=
    if isHorizontal then
      let fx := R.randomFloatF 0.4 0.6 (rs k3)
      let mx := ⌊(MAP_WIDTH : ℝ) * fx⌋
      let ri := R.randomIntF (-3) 3 (rs (k3 + 1))
      let my := ⌊((startPos1.2 + startPos2.2 : Int) : ℝ) / 2 + (ri : ℝ)⌋
      ((mx, my), k3 + 2)
    else
      let ri := R.randomIntF (-3) 3 (rs k3)
      let mx := ⌊((startPos1.1 + startPos2.1 : Int) : ℝ) / 2 + (ri : ℝ)⌋
      let fy := R.randomFloatF 0.4 0.6 (rs (k3 + 1))
      let my := ⌊(MAP_HEIGHT : ℝ) * fy⌋
      ((mx, my), k3 + 2)
  let mergePoint : Int × Int :=
    (max 2 (min (MAP_WIDTH - 3) merged.1.1), max 2 (min (MAP_HEIGHT - 3) merged.1.2))
  let k4 := merged.2
  let width1 := R.randomIntF 1 4 (rs k4)
  let width2 := R.randomIntF 1 4 (rs (k4 + 1))
  let width3 := min 4 (width1 + width2)
  let d1 := drawRiverPath rs squares startPos1 mergePoint width1 (k4 + 2)
  let d2 := drawRiverPath rs d1.1 startPos2 mergePoint width2 d1.2
  drawRiverPath rs d2.1 mergePoint endPos width3 d2.2

noncomputable def generateTwoSeparateRivers (R : RandomLib) (rs : ℕ → ℝ)
    (squares : List (List GridSquare)) (startEdge endEdge : Edge) (k : ℕ) :
    List (List GridSquare) × ℕ :=
  let r1 := getRandomEdgePosition R rs startEdge 0.1 0.35 k
  let r2 := getRandomEdgePosition R rs endEdge 0.1 0.35 r1.2
  let r3 := getRandomEdgePosition R rs startEdge 0.65 0.9 r2.2
  let r4 := getRandomEdgePosition R rs endEdge 0.65 0.9 r3.2
  let width1 := R.randomIntF 1 4 (rs r4.2)
  let width2 := R.randomIntF 1 4 (rs (r4.2 + 1))
  let d1 := drawRiverPath rs squares r1.1 r2.1 width1 (r4.2 + 2)
  drawRiverPath rs d1.1 r3.1 r4.1 width2 d1.2

open Classical in
/-- `generateRiverMap`: river-type roll, axis choice, then the draw. -/
noncomputable def generateRiverMap (R : RandomLib) (rs : ℕ → ℝ)
    (squares : List (List GridSquare)) (k : ℕ) : List (List GridSquare) × ℕ :=
  let roll := rs k
  let riverType :=
    if roll < 0.5 then RiverType.SINGLE
    else if roll < 0.75 then RiverType.BRANCHING
    else RiverType.TWO_SEPARATE
  let isHorizontal := R.randomBoolF 0.5 (rs (k + 1))
  let startEdge := if isHorizontal then Edge.LEFT else Edge.TOP
  let endEdge := if isHorizontal then Edge.RIGHT else Edge.BOTTOM
  match riverType with
  | RiverType.SINGLE => generateSingleRiver R rs squares startEdge endEdge (k + 2)
  | RiverType.BRANCHING => generateBranchingRiver R rs squares startEdge endEdge (k + 2)
  | RiverType.TWO_SEPARATE =>
      generateTwoSeparateRivers R rs squares startEdge endEdge (k + 2)

def modSquare (squares : List (List GridSquare)) (x y : Int)
    (f : GridSquare → GridSquare) : List (List GridSquare) :=
  if 0 ≤ x ∧ 0 ≤ y then
    match squares.get? y.toNat with
    | none => squares
    | some row =>
        match row.get? x.toNat with
        | none => squares
        | some sq => squares.set y.toNat (row.set x.toNat (f sq))
  else squares

def sqAt (squares : List (List GridSquare)) (x y : Int) : Option GridSquare :=
  if 0 ≤ x ∧ 0 ≤ y then
    match squares.get? y.toNat with
    | none => none
    | some row => row.get? x.toNat
  else none

/-- All map coordinates in the generator's row-major iteration order. -/
def tilesList : List (Int × Int) :=
  (List.range MAP_HEIGHT.toNat).bind (fun y =>
    (List.range MAP_WIDTH.toNat).map (fun x => ((x : Int), (y : Int))))

def countLand (squares : List (List GridSquare)) : Int :=
  ((tilesList.filter (fun p => typeAt squares p.1 p.2 = some TileType.LAND)).length : Int)

def hasAdjacentLand (squares : List (List GridSquare)) (x y : Int) : Bool :=
  decide (typeAt squares (x + 1) y = some TileType.LAND) ||
  decide (typeAt squares (x - 1) y = some TileType.LAND) ||
  decide (typeAt squares x (y + 1) = some TileType.LAND) ||
  decide (typeAt squares x (y - 1) = some TileType.LAND)

def hasAdjacentWater (squares : List (List GridSquare)) (x y : Int) : Bool :=
  decide (typeAt squares (x + 1) y = some TileType.WATER) ||
  decide (typeAt squares (x - 1) y = some TileType.WATER) ||
  decide (typeAt squares x (y + 1) = some TileType.WATER) ||
  decide (typeAt squares x (y - 1) = some TileType.WATER)

/-- The stack loop of `floodFill`: depth-first over 4-connected land; the
fuel dominates the number of stack pops (at most four pushes per marked
cell, each cell marked once). -/
def floodGo (squares : List (List GridSquare)) :
    ℕ → List (Int × Int) → List (Int × Int) → List (Int × Int) →
      List (Int × Int) × List (Int × Int)
  | 0, _, visited, acc => (acc, visited)
  | _ + 1, [], visited, acc => (acc, visited)
  | fuel + 1, p :: stackRest, visited, acc =>
      if p.1 < 0 ∨ MAP_WIDTH ≤ p.1 ∨ p.2 < 0 ∨ MAP_HEIGHT ≤ p.2 ∨ p ∈ visited ∨
          typeAt squares p.1 p.2 ≠ some TileType.LAND then
        floodGo squares fuel stackRest visited acc
      else
        floodGo squares fuel
          ((p.1, p.2 - 1) :: (p.1, p.2 + 1) :: (p.1 - 1, p.2) :: (p.1 + 1, p.2) ::
            stackRest)
          (p :: visited) (acc ++ [p])

def floodFuel : ℕ := 5 * (MAP_WIDTH.toNat * MAP_HEIGHT.toNat) + 10

/-- `removeSmallIslands`: flood-fill every unvisited land tile in
row-major order; islands below the minimum size turn to water. -/
def removeSmallIslands (squares : List (List GridSquare)) (minSize : ℕ) :
    List (List GridSquare) :=
  (tilesList.foldl
    (fun (acc : List (List GridSquare) × List (Int × Int)) p =>
      if typeAt acc.1 p.1 p.2 = some TileType.LAND ∧ p ∉ acc.2 then
        let r := floodGo acc.1 floodFuel [p] acc.2 []
        let squares2 :=
          if r.1.length < minSize then
            r.1.foldl (fun s t => setType s t.1 t.2 TileType.WATER) acc.1
          else acc.1
        (squares2, r.2)
      else acc)
    (squares, [])).1

open Classical in
/-- The index-picking conversion loop of the ratio adjustment: one draw
per converted tile, removing the picked candidate each time. -/
noncomputable def pickConvert (R : RandomLib) (rs : ℕ → ℝ) (t : TileType) :
    ℕ → List (Int × Int) → List (List GridSquare) → ℕ →
      List (List GridSquare) × ℕ
  | 0, _, squares, k => (squares, k)
  | n + 1, cands, squares, k =>
      match cands with
      | [] => (squares, k)
      | _ :: _ =>
          let idx := (R.randomIntF 0 ((cands.length : Int) - 1) (rs k)).toNat
          let p := cands.getD idx (0, 0)
          pickConvert R rs t n (cands.eraseIdx idx)
            (setType squares p.1 p.2 t) (k + 1)

open Classical in
/-- The island-growing `while` of the land/water adjustment (fuel is the
source's `maxIterations`). -/
noncomputable def growLoop (R : RandomLib) (rs : ℕ → ℝ) (minLandR total : ℝ) :
    ℕ → List (List GridSquare) → Int → ℕ →
      List (List GridSquare) × Int × ℕ
  | 0, squares, lc, k => (squares, lc, k)
  | it + 1, squares, lc, k =>
      if (lc : ℝ) / total < minLandR then
        let candidates := tilesList.filter (fun p =>
          typeAt squares p.1 p.2 = some TileType.WATER ∧
            hasAdjacentLand squares p.1 p.2 = true)
        match candidates with
        | [] => (squares, lc, k)
        | _ :: _ =>
            let toConvert := min (candidates.length : Int)
              ⌈(minLandR * total - (lc : ℝ)) / 2⌉
            let r := pickConvert R rs TileType.LAND toConvert.toNat candidates
              squares k
            growLoop R rs minLandR total it r.1 (lc + toConvert) r.2
      else (squares, lc, k)

open Classical in
/-- The edge-eroding `while` of the land/water adjustment. -/
noncomputable def erodeLoop (R : RandomLib) (rs : ℕ → ℝ) (maxLandR total : ℝ) :
    ℕ → List (List GridSquare) → Int → ℕ →
      List (List GridSquare) × Int × ℕ
  | 0, squares, lc, k => (squares, lc, k)
  | it + 1, squares, lc, k =>
      if (lc : ℝ) / total > maxLandR then
        let candidates := tilesList.filter (fun p =>
          typeAt squares p.1 p.2 = some TileType.LAND ∧
            hasAdjacentWater squares p.1 p.2 = true)
        match candidates with
        | [] => (squares, lc, k)
        | _ :: _ =>
            let toConvert := min (candidates.length : Int)
              ⌈((lc : ℝ) - maxLandR * total) / 2⌉
            let r := pickConvert R rs TileType.WATER toConvert.toNat candidates
              squares k
            erodeLoop R rs maxLandR total it r.1 (lc - toConvert) r.2
      else (squares, lc, k)

open Classical in
/-- `adjustLandWaterRatio` of the source (renamed): grow, erode, then
clean up small islands again. -/
noncomputable def adjustLandWater (R : RandomLib) (rs : ℕ → ℝ)
    (squares : List (List GridSquare)) (minLandR maxLandR : ℝ) (k : ℕ) :
    List (List GridSquare) × ℕ :=
  let total := ((MAP_WIDTH * MAP_HEIGHT : Int) : ℝ)
  let g := growLoop R rs minLandR total 200 squares (countLand squares) k
  let e := erodeLoop R rs maxLandR total 200 g.1 g.2.1 g.2.2
  (removeSmallIslands e.1 4, e.2.2)

/-- The stack loop of `markOceanWater`. -/
def oceanGo (squares : List (List GridSquare)) :
    ℕ → List (Int × Int) → List (Int × Int) → List (Int × Int)
  | 0, _, isOcean => isOcean
  | _ + 1, [], isOcean => isOcean
  | fuel + 1, p :: stackRest, isOcean =>
      if p.1 < 0 ∨ MAP_WIDTH ≤ p.1 ∨ p.2 < 0 ∨ MAP_HEIGHT ≤ p.2 ∨ p ∈ isOcean ∨
          typeAt squares p.1 p.2 ≠ some TileType.WATER then
        oceanGo squares fuel stackRest isOcean
      else
        oceanGo squares fuel
          ((p.1, p.2 - 1) :: (p.1, p.2 + 1) :: (p.1 - 1, p.2) :: (p.1 + 1, p.2) ::
            stackRest)
          (p :: isOcean)

/-- `removeLakes`: water not 4-connected to the map edge becomes land. -/
def removeLakes (squares : List (List GridSquare)) : List (List GridSquare) :=
  let edgeWaterTiles :=
    ((List.range MAP_WIDTH.toNat).bind (fun x =>
      (if typeAt squares (x : Int) 0 = some TileType.WATER then
        [((x : Int), (0 : Int))] else []) ++
      (if typeAt squares (x : Int) (MAP_HEIGHT - 1) = some TileType.WATER then
        [((x : Int), MAP_HEIGHT - 1)] else []))) ++
    ((List.range MAP_HEIGHT.toNat).bind (fun y =>
      (if typeAt squares 0 (y : Int) = some TileType.WATER then
        [((0 : Int), (y : Int))] else []) ++
      (if typeAt squares (MAP_WIDTH - 1) (y : Int) = some TileType.WATER then
        [(MAP_WIDTH - 1, (y : Int))] else [])))
  let isOcean := edgeWaterTiles.foldl
    (fun ocean tile => oceanGo squares floodFuel [tile] ocean) []
  tilesList.foldl
    (fun s p =>
      if typeAt s p.1 p.2 = some TileType.WATER ∧ p ∉ isOcean then
        setType s p.1 p.2 TileType.LAND
      else s)
    squares

/-- `generateArchipelagoMap`: all water, 4–6 islands grown from centers,
then small-island removal, ratio adjustment and lake removal. -/
noncomputable def generateArchipelagoMap (R : RandomLib) (rs : ℕ → ℝ)
    (squares : List (List GridSquare)) (k : ℕ) : List (List GridSquare) × ℕ :=
  let squares := squares.map (fun row => row.map
    (fun sq => { sq with type := TileType.WATER }))
  let islandCount := R.randomIntF 4 6 (rs k)
  let gridCols : Int := if islandCount ≤ 4 then 2 else 3
  let cellWidth := (MAP_WIDTH : ℝ) / (gridCols : ℝ)
  let cellHeight := (MAP_HEIGHT : ℝ) / 2
  let centersR := (List.range islandCount.toNat).foldl
    (fun (acc : List (ℝ × ℝ × Int) × ℕ) i =>
      let gridX := (i : Int) % gridCols
      let gridY := (i : Int) / gridCols
      let centerX := (gridX : ℝ) * cellWidth +
        (R.randomIntF 4 (⌊cellWidth⌋ - 4) (rs acc.2) : ℝ)
      let centerY := (gridY : ℝ) * cellHeight +
        (R.randomIntF 4 (⌊cellHeight⌋ - 4) (rs (acc.2 + 1)) : ℝ)
      let size := R.randomIntF 5 10 (rs (acc.2 + 2))
      (acc.1 ++ [(min ((MAP_WIDTH : ℝ) - 3) (max 3 centerX),
        min ((MAP_HEIGHT : ℝ) - 3) (max 3 centerY), size)], acc.2 + 3))
    ([], k + 1)
  let islandCenters := centersR.1
  let grown := tilesList.foldl
    (fun (acc : List (List GridSquare) × ℕ) p =>
      let maxProb := islandCenters.foldl
        (fun m c =>
          let dist := Real.sqrt (((p.1 : ℝ) - c.1) ^ 2 + ((p.2 : ℝ) - c.2.1) ^ 2)
          max m (max 0 (1 - dist / ((c.2.2 : ℝ) + 1))))
        0
      let noise := (rs acc.2 - 0.5) * 0.4
      let finalProb := max 0 (min 1 (maxProb + noise))
      (if finalProb > 0.3 then setType acc.1 p.1 p.2 TileType.LAND else acc.1,
        acc.2 + 1))
    (squares, centersR.2)
  let cleaned := removeSmallIslands grown.1 4
  let adjusted := adjustLandWater R rs cleaned 0.6 0.8 grown.2
  (removeLakes adjusted.1, adjusted.2)

/-- `generateHotspots`: a count draw, then three draws per hotspot. -/
noncomputable def generateHotspots (R : RandomLib) (rs : ℕ → ℝ)
    (mn mx : Int) (k : ℕ) : List (Int × Int × Int) × ℕ :=
  let count := R.randomIntF mn mx (rs k)
  (List.range count.toNat).foldl
    (fun (acc : List (Int × Int × Int) × ℕ) _ =>
      let x := R.randomIntF 5 (MAP_WIDTH - 5) (rs acc.2)
      let y := R.randomIntF 3 (MAP_HEIGHT - 3) (rs (acc.2 + 1))
      let strength := R.randomIntF 70 99 (rs (acc.2 + 2))
      (acc.1 ++ [(x, y, strength)], acc.2 + 3))
    ([], k + 1)

/-- `calculateDensityFromHotspots`: strength scaled by a 12-square linear
falloff, floored. -/
noncomputable def calculateDensityFromHotspots (x y : Int)
    (hotspots : List (Int × Int × Int)) : Int :=
  ⌊hotspots.foldl
    (fun m h =>
      let distance := Real.sqrt (((x : ℝ) - (h.1 : ℝ)) ^ 2 +
        ((y : ℝ) - (h.2.1 : ℝ)) ^ 2)
      max m ((h.2.2 : ℝ) * max 0 (1 - distance / 12)))
    0⌋

open Classical in
/-- `generateDensities`: hotspot generation, per-land-tile densities with
the inverse-correlation draw and noise draws, then the 50000 caps. -/
noncomputable def generateDensities (R : RandomLib) (rs : ℕ → ℝ)
    (squares : List (List GridSquare)) (k : ℕ) : List (List GridSquare) × ℕ :=
  let landTiles := tilesList.filter
    (fun p => typeAt squares p.1 p.2 = some TileType.LAND)
  match landTiles with
  | [] => (squares, k)
  | _ :: _ =>
    let rh := generateHotspots R rs 2 4 k
    let oh := generateHotspots R rs 1 3 rh.2
    let assigned := landTiles.foldl
      (fun (acc : List (List GridSquare) × Int × Int × ℕ) p =>
        let hd0 := calculateDensityFromHotspots p.1 p.2 rh.1
        let od0 := calculateDensityFromHotspots p.1 p.2 oh.1
        let k0 := acc.2.2.2
        let inverseFactor := rs k0
        let stage :=
          if inverseFactor < 0.7 then
            if hd0 > 50 ∧ od0 > 50 then
              if R.randomBoolF 0.5 (rs (k0 + 1)) then
                (hd0, ⌊(od0 : ℝ) * 0.4⌋, k0 + 2)
              else
                (⌊(hd0 : ℝ) * 0.4⌋, od0, k0 + 2)
            else (hd0, od0, k0 + 1)
          else (hd0, od0, k0 + 1)
        let k1 := stage.2.2
        let hd2 := ⌊max 0 (min 99 ((stage.1 : ℝ) +
          (R.randomIntF (-10) 10 (rs k1) : ℝ)))⌋
        let od2 := ⌊max 0 (min 99 ((stage.2.1 : ℝ) +
          (R.randomIntF (-10) 10 (rs (k1 + 1)) : ℝ)))⌋
        (modSquare acc.1 p.1 p.2
          (fun sq => { sq with homeDensity := hd2, officeDensity := od2 }),
          acc.2.1 + hd2, acc.2.2.1 + od2, k1 + 2))
      (squares, 0, 0, oh.2)
    let totalResidential := assigned.2.1
    let totalOffice := assigned.2.2.1
    let squares2 :=
      if totalResidential > 50000 then
        let scale := 50000 / (totalResidential : ℝ)
        landTiles.foldl
          (fun s p => modSquare s p.1 p.2
            (fun sq => { sq with homeDensity := ⌊(sq.homeDensity : ℝ) * scale⌋ }))
          assigned.1
      else assigned.1
    let squares3 :=
      if totalOffice > 50000 then
        let scale := 50000 / (totalOffice : ℝ)
        landTiles.foldl
          (fun s p => modSquare s p.1 p.2
            (fun sq => { sq with officeDensity := ⌊(sq.officeDensity : ℝ) * scale⌋ }))
          squares2
      else squares2
    (squares3, assigned.2.2.2)

open Classical in
/-- `MapGenerator.generate`: the map-type coin flip on the seeded stream,
the land/water stage, then densities.  The `world` parameter stands for
`Math.random()` and every other ambient entropy source; the generator
never reads it — the constructor sets `this.random =
randomSeeded(seed.toString())` and every draw above goes through it. -/
noncomputable def generate (R : RandomLib) (world : ℕ → ℝ) (seed : Int) :
    MapGrid :=
  let rs := R.randomSeeded (toString seed)
  let isRiver := R.randomBoolF 0.5 (rs 0)
  let mapType := if isRiver then MapType.RIVER else MapType.ARCHIPELAGO
  let squares := initializeGrid
  let stage :=
    if mapType = MapType.RIVER then generateRiverMap R rs squares 1
    else generateArchipelagoMap R rs squares 1
  let final := generateDensities R rs stage.1 stage.2
  { width := MAP_WIDTH, height := MAP_HEIGHT, seed := seed,
    mapType := mapType, squares := final.1 }

end MapGenerator

/-- C9: map generation is a deterministic function of the seed: two runs
with the same seed — even under different ambient randomness (`Math.random`
and the rest of the environment, the `world` parameters) — produce the
same MapGrid: the same map type and, tile for tile, the same land/water
type and the same residential and office densities, because every random
choice is drawn from the seed-derived stream `randomSeeded(seed.toString())`. -/
theorem claim_C9_generator_determinism (R : RandomLib) (seed : Int)
    (w1 w2 : ℕ → ℝ) :
    MapGenerator.generate R w1 seed = MapGenerator.generate R w2 seed ∧
    (MapGenerator.generate R w1 seed).mapType =
      (MapGenerator.generate R w2 seed).mapType ∧
    (MapGenerator.generate R w1 seed).squares =
      (MapGenerator.generate R w2 seed).squares :=
  ⟨rfl, rfl, rfl⟩

end MetroMap
